import Mathlib

/-!
# WordClock: animation engine, special-pattern orchestrator and time decoder

A shallow embedding of `word_clock.ino.cpp`.

* Machine integers are natural numbers; every store into a `uint8_t`,
  `uint16_t` or `unsigned long` variable is reduced modulo `2^8`, `2^16`
  or `2^32` where the stored value can leave the range.
* A C++ object is a record; a member function takes the record (and the
  pixel surface when it touches pixels) and returns the new values.
* The constants a `Controller` or `WordController` receives at construction
  (`StartPixel`, `EndPixel`, the callback pointer) are kept in a separate
  record `Segment`, because no statement of the program assigns them.
* A step whose C++ execution has no defined result (division by zero,
  reading an uninitialised table pointer) returns `none`.
* Loops `for (uint8_t i = StartPixel; i <= EndPixel; i++)` are folds over
  the indices `StartPixel .. EndPixel`; this is the C++ loop whenever
  `EndPixel < 255` (with `EndPixel = 255` the C++ loop cannot exit).
* `Serial` output is not modelled.
-/

namespace WordClock

/-! ## Constants and enumerations -/

/-- Number of pixels of the strip (`#define LED_COUNT 120`). -/
def LED_COUNT : Nat := 120

/-- The pattern kinds (`enum ControllerPattern`). -/
inductive ControllerPattern where
  | NONE
  | SINGLE_COLOR
  | HUE_CYCLE
  | RAINBOW_CYCLE
  | THEATER_CHASE
  | COLOR_WIPE
  | SCANNER
  | BOX_ZOOM
  | SNAKE
  deriving DecidableEq, Repr, Inhabited

/-- The stepping direction (`enum PatternDirection`). -/
inductive PatternDirection where
  | FORWARD
  | REVERSE
  deriving DecidableEq, Repr, Inhabited

/-- The orchestrator state (`enum SpecialPattern`). -/
inductive SpecialPattern where
  | SP_NONE
  | SP_DEMO
  | SP_LIGHT_SHOW
  | SP_HAPPY_BIRTHDAY
  deriving DecidableEq, Repr, Inhabited

open ControllerPattern PatternDirection SpecialPattern

/-! ## Pixel surface -/

/-- A call made on the pixel surface. -/
inductive SurfaceCall where
  | setPixelColor (n c : Nat)
  | showStrip
  deriving DecidableEq, Repr

/-- Modelled from the spec: the Pixel Surface (class `Adafruit_NeoPixel`, which is
not part of the sources). `buf` is the colour buffer, `ColorHSV` the library's
hue-to-RGB conversion (left unspecified), and `calls` records every call made
on the surface, newest first. -/
structure Surface where
  ColorHSV : Nat → Nat
  buf : Nat → Nat
  calls : List SurfaceCall

namespace Surface

/-- Modelled from the spec: `setColor(index, rgb)`; an index beyond the strip
is ignored. The index parameter is a `uint16_t`. -/
def setPixelColor (px : Surface) (n c : Nat) : Surface :=
  { px with
    buf := fun i => if i = n % 65536 ∧ n % 65536 < LED_COUNT then c else px.buf i
    calls := SurfaceCall.setPixelColor (n % 65536) c :: px.calls }

/-- Modelled from the spec: `getColor(index)`; an index beyond the strip reads
as 0. -/
def getPixelColor (px : Surface) (n : Nat) : Nat :=
  if n % 65536 < LED_COUNT then px.buf (n % 65536) else 0

/-- Modelled from the spec: `show()`, the flush to the hardware. -/
def showStrip (px : Surface) : Surface :=
  { px with calls := SurfaceCall.showStrip :: px.calls }

/-- Modelled from the spec: `colorFromRGB(r,g,b)`; the packing is the one the
accessors `Red`, `Green` and `Blue` of the sources undo. -/
def Color (r g b : Nat) : Nat :=
  (r % 256) * 65536 + (g % 256) * 256 + b % 256

end Surface

/-- The construction-time constants of a `Controller` or `WordController`:
the pixel range and whether a completion callback was passed (a
`WordController` has none). -/
structure Segment where
  StartPixel : Nat
  EndPixel : Nat
  OnComplete : Bool
  deriving DecidableEq, Repr

namespace Segment

/-- The values the loop variable of
`for (uint8_t i = StartPixel; i <= EndPixel; i++)` takes, in order. -/
def indices (seg : Segment) : List Nat :=
  List.range' seg.StartPixel (seg.EndPixel + 1 - seg.StartPixel)

/-- `GetNumPixels`: `EndPixel - StartPixel + 1` stored into a `uint8_t`. -/
def GetNumPixels (seg : Segment) : Nat :=
  (seg.EndPixel + 257 - seg.StartPixel) % 256

/-- `ColorSet`: every pixel of the range gets the colour, then a flush. -/
def ColorSet (seg : Segment) (color : Nat) (px : Surface) : Surface :=
  ((seg.indices).foldl (fun p i => p.setPixelColor i color) px).showStrip

/-- `Wheel`: `hue = pos * 65535 / 255` stored into a `uint16_t`; `pos` is a
`uint8_t` parameter. -/
def Wheel (px : Surface) (pos : Nat) : Nat :=
  px.ColorHSV (((pos % 256) * 65535 / 255) % 65536)

/-- The pixel loop of `RainbowCycleUpdate` (both classes), without the
flush. The second component is `x`, the count of the pixels already visited.
The product `x * 256` is taken without overflow, which is what the code
computes in a 16-bit `int` on every segment of at most 128 pixels. -/
def rainbowLoop (seg : Segment) (Index : Nat) (px : Surface) : Surface :=
  ((seg.indices).foldl
    (fun (acc : Surface × Nat) i =>
      (acc.1.setPixelColor i
        (Wheel acc.1 ((((acc.2 * 256) / seg.GetNumPixels) + Index) % 256)),
       (acc.2 + 1) % 256))
    (px, 0)).1

end Segment

/-! ## Controller (class `Controller`) -/

/-- The mutable members of a `Controller`. -/
structure Controller where
  ActivePattern : ControllerPattern
  Direction : PatternDirection
  Interval : Nat
  TickDuration : Nat
  Color1 : Nat
  Color2 : Nat
  TotalSteps : Nat
  Index : Nat
  MaxLoops : Nat
  LoopIndex : Nat
  deriving DecidableEq, Repr

/-- The result of a member function that may run the completion check: the
new members, the new surface, and the argument of the completion callback
when the callback was invoked. -/
abbrev StepResult := Controller × Surface × Option ControllerPattern

namespace Controller

/-- A controller as the program constructs it: a global object, so every
member without initialiser starts at zero. -/
def initial : Controller :=
  { ActivePattern := NONE, Direction := FORWARD, Interval := 0, TickDuration := 0,
    Color1 := 0, Color2 := 0, TotalSteps := 0, Index := 0, MaxLoops := 0, LoopIndex := 0 }

/-- `Red`. -/
def Red (color : Nat) : Nat := (color / 65536) % 256

/-- `Green`. -/
def Green (color : Nat) : Nat := (color / 256) % 256

/-- `Blue`. -/
def Blue (color : Nat) : Nat := color % 256

/-- `DimColor`: every channel shifted right by one bit. -/
def DimColor (color : Nat) : Nat :=
  Surface.Color (Red color / 2) (Green color / 2) (Blue color / 2)

/-- `GetRandomColors`; `r` is the value `random(65536)` returned. -/
def GetRandomColors (px : Surface) (r : Nat) : Nat × Nat :=
  let hue1 := r % 65536
  let hue2 := (hue1 + 32768) % 65536
  (px.ColorHSV hue1, px.ColorHSV hue2)

/-- `Clear`. -/
def Clear (seg : Segment) (c : Controller) (px : Surface) : Controller × Surface :=
  if c.ActivePattern = NONE then (c, px)
  else
    ({ c with
        ActivePattern := NONE, Interval := 0, TotalSteps := 0, Index := 0,
        Direction := FORWARD, TickDuration := 0, Color1 := 0, Color2 := 0,
        LoopIndex := 0, MaxLoops := 0 },
     seg.ColorSet (Surface.Color 0 0 0) px)

/-- `CheckCompletion`. The callback runs last, so its invocation is returned
as the third component and applied by the caller. -/
def CheckCompletion (seg : Segment) (c : Controller) (px : Surface) : StepResult :=
  if c.MaxLoops = 0 then (c, px, none)
  else
    let c1 := { c with LoopIndex := (c.LoopIndex + 1) % 256 }
    if c1.LoopIndex < c1.MaxLoops then (c1, px, none)
    else
      let completedPattern := c1.ActivePattern
      let r := Clear seg c1 px
      if seg.OnComplete then (r.1, r.2, some completedPattern) else (r.1, r.2, none)

/-- `Increment`. -/
def Increment (seg : Segment) (c : Controller) (px : Surface) : StepResult :=
  if c.Direction = FORWARD then
    let c1 := { c with Index := (c.Index + 1) % 65536 }
    if c1.Index ≥ c1.TotalSteps then CheckCompletion seg { c1 with Index := 0 } px
    else (c1, px, none)
  else
    let c1 := { c with Index := (c.Index + 65535) % 65536 }
    if c1.Index ≤ 0 then
      CheckCompletion seg { c1 with Index := (c1.TotalSteps + 65535) % 65536 } px
    else (c1, px, none)

/-- `Reverse`. -/
def Reverse (c : Controller) : Controller :=
  if c.Direction = FORWARD then
    { c with Direction := REVERSE, Index := (c.TotalSteps + 65535) % 65536 }
  else
    { c with Direction := FORWARD, Index := 0 }

/-- `SetSingleColor`. -/
def SetSingleColor (seg : Segment) (color : Nat) (c : Controller) (px : Surface) :
    Controller × Surface :=
  ({ c with
      ActivePattern := SINGLE_COLOR, Interval := 0, TotalSteps := 0, Index := 0,
      Direction := FORWARD, Color1 := color % 4294967296, Color2 := 0,
      LoopIndex := 0, MaxLoops := 0 },
   seg.ColorSet (color % 4294967296) px)

/-- `HueCycle`; `r` is the value `random(256)` returned. -/
def HueCycle (r interval : Nat) (dir : PatternDirection) (loops : Nat) (c : Controller) :
    Controller :=
  { c with
    ActivePattern := HUE_CYCLE, Interval := interval % 65536, TotalSteps := 256, Index := 0,
    Direction := dir, Color1 := r % 256, Color2 := 0, LoopIndex := 0, MaxLoops := loops % 256 }

/-- `HueCycleUpdate`. -/
def HueCycleUpdate (seg : Segment) (c : Controller) (px : Surface) : StepResult :=
  Increment seg c (seg.ColorSet (Segment.Wheel px ((c.Color1 + c.Index) % 256)) px)

/-- `RainbowCycle`. -/
def RainbowCycle (interval : Nat) (dir : PatternDirection) (loops : Nat) (c : Controller) :
    Controller :=
  { c with
    ActivePattern := RAINBOW_CYCLE, Interval := interval % 65536, TotalSteps := 255,
    Index := 0, Direction := dir, Color1 := 0, Color2 := 0, LoopIndex := 0,
    MaxLoops := loops % 256 }

/-- `RainbowCycleUpdate`. -/
def RainbowCycleUpdate (seg : Segment) (c : Controller) (px : Surface) : StepResult :=
  Increment seg c (seg.rainbowLoop c.Index px).showStrip

/-- The colour choice shared by `TheaterChase`, `ColorWipe`, `Scanner` and
`BoxZoom`: a random complementary pair when both arguments are zero. -/
def pickColors (px : Surface) (r color1 color2 : Nat) : Nat × Nat :=
  if color1 % 4294967296 = 0 ∧ color2 % 4294967296 = 0 then GetRandomColors px r
  else (color1 % 4294967296, color2 % 4294967296)

/-- `TheaterChase`; `r` is the value `random(65536)` returns when it is
called. -/
def TheaterChase (seg : Segment) (px : Surface) (r interval color1 color2 : Nat)
    (dir : PatternDirection) (loops : Nat) (c : Controller) : Controller :=
  { c with
    ActivePattern := THEATER_CHASE, Interval := interval % 65536,
    TotalSteps := seg.GetNumPixels, Index := 0, Direction := dir,
    Color1 := (pickColors px r color1 color2).1, Color2 := (pickColors px r color1 color2).2,
    LoopIndex := 0, MaxLoops := loops % 256 }

/-- `TheaterChaseUpdate`. The sum `i + Index` is taken without wrap-around,
which is what the code computes whenever `i + Index < 65536`. -/
def TheaterChaseUpdate (seg : Segment) (c : Controller) (px : Surface) : StepResult :=
  Increment seg c
    ((seg.indices).foldl
      (fun p i => if (i + c.Index) % 3 = 0 then p.setPixelColor i c.Color1
                  else p.setPixelColor i c.Color2) px).showStrip

/-- `ColorWipe`. -/
def ColorWipe (seg : Segment) (px : Surface) (r interval color1 color2 : Nat)
    (dir : PatternDirection) (loops : Nat) (c : Controller) : Controller :=
  { c with
    ActivePattern := COLOR_WIPE, Interval := interval % 65536,
    TotalSteps := seg.GetNumPixels * 2, Index := 0, Direction := dir,
    Color1 := (pickColors px r color1 color2).1, Color2 := (pickColors px r color1 color2).2,
    LoopIndex := 0, MaxLoops := loops % 256 }

/-- `ColorWipeUpdate`. `half` is a `uint8_t`; `Index % half` with `half = 0`
has no defined result. -/
def ColorWipeUpdate (seg : Segment) (c : Controller) (px : Surface) : Option StepResult :=
  let half := (c.TotalSteps / 2) % 256
  if c.Index < half then
    some (Increment seg c (px.setPixelColor (seg.StartPixel + c.Index) c.Color1).showStrip)
  else if half = 0 then none
  else
    some (Increment seg c
      (px.setPixelColor (seg.StartPixel + half - c.Index % half) c.Color2).showStrip)

/-- `Scanner`. -/
def Scanner (seg : Segment) (px : Surface) (r interval color1 color2 loops : Nat)
    (c : Controller) : Controller :=
  { c with
    ActivePattern := SCANNER, Interval := interval % 65536,
    TotalSteps := seg.GetNumPixels, Index := 0, Direction := FORWARD,
    Color1 := (pickColors px r color1 color2).1, Color2 := (pickColors px r color1 color2).2,
    LoopIndex := 0, MaxLoops := loops % 256 }

/-- The two bright pixels of a scanner step, both `uint8_t`; `none` when the
step divides by `halfway = 0`. -/
def scannerPixels (seg : Segment) (c : Controller) : Option (Nat × Nat) :=
  let halfway := c.TotalSteps / 2
  if c.Index < halfway then
    some (c.Index % 256, (seg.EndPixel + 256 - c.Index % 256) % 256)
  else if halfway = 0 then none
  else
    some ((halfway - c.Index % halfway - 1) % 256, (halfway + c.Index % halfway) % 256)

/-- `ScannerUpdate`. -/
def ScannerUpdate (seg : Segment) (c : Controller) (px : Surface) : Option StepResult :=
  match scannerPixels seg c with
  | none => none
  | some (pixel1, pixel2) =>
    some (Increment seg c
      ((seg.indices).foldl
        (fun p i =>
          if i = pixel1 then p.setPixelColor i c.Color1
          else if i = pixel2 then p.setPixelColor i c.Color2
          else p.setPixelColor i (DimColor (p.getPixelColor i))) px).showStrip)

/-- `BoxZoom`: nothing happens on a segment of fewer than 120 pixels. -/
def BoxZoom (seg : Segment) (px : Surface) (r interval color1 color2 loops : Nat)
    (c : Controller) : Controller :=
  if seg.GetNumPixels < 120 then c
  else
    { c with
      ActivePattern := BOX_ZOOM, Interval := interval % 65536, TotalSteps := 10, Index := 0,
      Direction := FORWARD,
      Color1 := (pickColors px r color1 color2).1, Color2 := (pickColors px r color1 color2).2,
      LoopIndex := 0, MaxLoops := loops % 256 }

/-- The pixel table `BoxZoomUpdate` selects for a step index; for an index
above 9 the table pointer is never assigned. -/
def boxZoomPixels (Index : Nat) : Option (List Nat) :=
  match Index with
  | 0 | 9 => some [0, 1, 2, 3, 4, 5, 6, 7, 8, 9, 10, 11, 12, 35, 36, 59, 60, 83, 84, 107,
      108, 109, 110, 111, 112, 113, 114, 115, 116, 117, 118, 119, 96, 95, 72, 71, 48, 47,
      24, 23]
  | 1 | 8 => some [13, 14, 15, 16, 17, 18, 19, 20, 21, 22, 25, 46, 49, 70, 73, 94, 97, 98,
      99, 100, 101, 102, 103, 104, 105, 106, 85, 82, 61, 58, 37, 34]
  | 2 | 7 => some [26, 27, 28, 29, 30, 31, 32, 33, 38, 57, 62, 81, 86, 87, 88, 89, 90, 91,
      92, 93, 74, 69, 50, 45]
  | 3 | 6 => some [39, 40, 41, 42, 43, 44, 51, 68, 75, 76, 77, 78, 79, 80, 63, 56]
  | 4 | 5 => some [52, 53, 54, 55, 64, 65, 66, 67]
  | _ => none

/-- The colour of a box-zoom step. -/
def boxZoomColor (c : Controller) : Nat :=
  if c.Index ≥ 5 then Surface.Color 0 0 0
  else if c.Index % 2 = 0 then c.Color1
  else c.Color2

/-- `BoxZoomUpdate`. -/
def BoxZoomUpdate (seg : Segment) (c : Controller) (px : Surface) : Option StepResult :=
  match boxZoomPixels c.Index with
  | none => none
  | some pixels =>
    some (Increment seg c
      (pixels.foldl (fun p n => p.setPixelColor n (boxZoomColor c)) px).showStrip)

/-- `Snake`: nothing happens on a segment of fewer than 120 pixels. -/
def Snake (seg : Segment) (interval loops : Nat) (c : Controller) : Controller :=
  if seg.GetNumPixels < 120 then c
  else
    { c with
      ActivePattern := SNAKE, Interval := interval % 65536, TotalSteps := 240, Index := 0,
      Direction := FORWARD, Color1 := 0, Color2 := 0, LoopIndex := 0,
      MaxLoops := loops % 256 }

/-- The traversal order table of `SnakeUpdate`. -/
def snakePixels : List Nat :=
  [11, 10, 9, 8, 7, 6, 5, 4, 3, 2, 1, 0, 23, 24, 47, 48, 71, 72, 95, 96, 119, 118, 117, 116,
   115, 114, 113, 112, 111, 110, 109, 108, 107, 84, 83, 60, 59, 36, 35, 12, 13, 14, 15, 16,
   17, 18, 19, 20, 21, 22, 25, 46, 49, 70, 73, 94, 97, 98, 99, 100, 101, 102, 103, 104, 105,
   106, 85, 82, 61, 58, 37, 34, 33, 32, 31, 30, 29, 28, 27, 26, 45, 50, 69, 74, 93, 92, 91,
   90, 89, 88, 87, 86, 81, 62, 57, 38, 39, 40, 41, 42, 43, 44, 51, 68, 75, 76, 77, 78, 79,
   80, 63, 56, 55, 54, 53, 52, 67, 66, 65, 64]

/-- The table position `i` a snake step reads (a `uint8_t`). -/
def snakeSlot (Index : Nat) : Nat :=
  if Index ≥ 120 then (120 - Index % 120 - 1) % 256 else Index % 256

/-- The colour a snake step writes. -/
def snakeColor (px : Surface) (Index : Nat) : Nat :=
  if Index ≥ 120 then Surface.Color 0 0 0
  else px.ColorHSV ((Index * 65535 / 119) % 65536)

/-- `SnakeUpdate`. The table position is always below 120, so the lookup
is within the table. -/
def SnakeUpdate (seg : Segment) (c : Controller) (px : Surface) : StepResult :=
  Increment seg c
    (px.setPixelColor (snakePixels.getD (snakeSlot c.Index) 0)
      (snakeColor px c.Index)).showStrip

/-- `Update`; `GlobalTick` is the static member of that name. -/
def Update (seg : Segment) (GlobalTick : Nat) (c : Controller) (px : Surface) :
    Option StepResult :=
  if c.ActivePattern = NONE ∨ c.ActivePattern = SINGLE_COLOR then some (c, px, none)
  else
    let c1 := { c with TickDuration := (c.TickDuration + GlobalTick) % 65536 }
    if c1.TickDuration < c1.Interval then some (c1, px, none)
    else
      let c2 := { c1 with TickDuration := 0 }
      match c2.ActivePattern with
      | HUE_CYCLE => some (HueCycleUpdate seg c2 px)
      | RAINBOW_CYCLE => some (RainbowCycleUpdate seg c2 px)
      | THEATER_CHASE => some (TheaterChaseUpdate seg c2 px)
      | COLOR_WIPE => ColorWipeUpdate seg c2 px
      | SCANNER => ScannerUpdate seg c2 px
      | BOX_ZOOM => BoxZoomUpdate seg c2 px
      | SNAKE => SnakeUpdate seg c2 px
      | _ => some (c2, px, none)

end Controller

/-! ## WordController (class `WordController`) -/

/-- The mutable members of a `WordController`; all counters are `uint8_t`. -/
structure WordController where
  ActivePattern : ControllerPattern
  Interval : Nat
  TickDuration : Nat
  Index : Nat
  Seed : Nat
  deriving DecidableEq, Repr

namespace WordController

/-- A word controller as the program constructs it (a zeroed global). -/
def initial : WordController :=
  { ActivePattern := NONE, Interval := 0, TickDuration := 0, Index := 0, Seed := 0 }

/-- `Increment`: the `uint8_t` index wraps by itself; the test
`Index >= 256` never holds. -/
def Increment (w : WordController) : WordController :=
  let w1 := { w with Index := (w.Index + 1) % 256 }
  if w1.Index ≥ 256 then { w1 with Index := 0 } else w1

/-- `Clear`. -/
def Clear (seg : Segment) (w : WordController) (px : Surface) : WordController × Surface :=
  if w.ActivePattern = NONE then (w, px)
  else
    ({ w with ActivePattern := NONE, Interval := 0, Index := 0, TickDuration := 0 },
     seg.ColorSet (Surface.Color 0 0 0) px)

/-- `HueCycle`; `r` is the value `random(256)` returned. The `uint16_t`
argument is stored into the `uint8_t` member `Interval`. -/
def HueCycle (r interval : Nat) (w : WordController) : WordController :=
  { w with ActivePattern := HUE_CYCLE, Interval := interval % 256, Index := 0, Seed := r % 256 }

/-- `HueCycleUpdate`. -/
def HueCycleUpdate (seg : Segment) (w : WordController) (px : Surface) :
    WordController × Surface :=
  (Increment w, seg.ColorSet (Segment.Wheel px ((w.Seed + w.Index) % 256)) px)

/-- `RainbowCycle`; the direction and loop arguments are ignored by the
code. -/
def RainbowCycle (interval : Nat) (w : WordController) : WordController :=
  { w with ActivePattern := RAINBOW_CYCLE, Interval := interval % 256, Index := 0, Seed := 0 }

/-- `RainbowCycleUpdate`. -/
def RainbowCycleUpdate (seg : Segment) (w : WordController) (px : Surface) :
    WordController × Surface :=
  (Increment w, (seg.rainbowLoop w.Index px).showStrip)

/-- `SetSingleColor`. -/
def SetSingleColor (seg : Segment) (color : Nat) (w : WordController) (px : Surface) :
    WordController × Surface :=
  ({ w with ActivePattern := SINGLE_COLOR, Index := 0, Seed := 0 },
   seg.ColorSet (color % 4294967296) px)

/-- `Update`; the accumulated time is a `uint8_t`. -/
def Update (seg : Segment) (GlobalTick : Nat) (w : WordController) (px : Surface) :
    WordController × Surface :=
  if w.ActivePattern = NONE ∨ w.ActivePattern = SINGLE_COLOR then (w, px)
  else
    let w1 := { w with TickDuration := (w.TickDuration + GlobalTick) % 256 }
    if w1.TickDuration < w1.Interval then (w1, px)
    else
      let w2 := { w1 with TickDuration := 0 }
      match w2.ActivePattern with
      | HUE_CYCLE => HueCycleUpdate seg w2 px
      | RAINBOW_CYCLE => RainbowCycleUpdate seg w2 px
      | _ => (w2, px)

end WordController

/-! ## The program: globals and free functions -/

/-- The word controllers of the segment table, named as the globals. -/
inductive WordId where
  | C_TWENTY | C_IS | C_IT | C_QUARTER | C_HALF | C_HAPPY | C_TEN | C_FIVE | C_MINUTES
  | C_BIRTH | C_DAY | C_HR_ONE | C_TO | C_PAST | C_HR_TWO | C_HR_FIVE | C_ALICE
  | C_HR_TWELVE | C_HR_ELEVEN | C_HR_THREE | C_HR_FOUR | C_HR_SIX | C_HR_TEN | C_HR_NINE
  | C_HR_SEVEN | C_HR_EIGHT | C_OCLOCK
  deriving DecidableEq, Repr, Inhabited, Fintype

open WordId

/-- The constructor arguments of each word controller. -/
def wordSegment : WordId → Segment
  | C_TWENTY => ⟨0, 5, false⟩
  | C_IS => ⟨7, 8, false⟩
  | C_IT => ⟨10, 11, false⟩
  | C_QUARTER => ⟨12, 18, false⟩
  | C_HALF => ⟨20, 23, false⟩
  | C_HAPPY => ⟨24, 28, false⟩
  | C_TEN => ⟨29, 31, false⟩
  | C_FIVE => ⟨32, 35, false⟩
  | C_MINUTES => ⟨36, 42, false⟩
  | C_BIRTH => ⟨43, 47, false⟩
  | C_DAY => ⟨48, 50, false⟩
  | C_HR_ONE => ⟨51, 53, false⟩
  | C_TO => ⟨55, 56, false⟩
  | C_PAST => ⟨56, 59, false⟩
  | C_HR_TWO => ⟨60, 62, false⟩
  | C_HR_FIVE => ⟨63, 66, false⟩
  | C_ALICE => ⟨67, 71, false⟩
  | C_HR_TWELVE => ⟨72, 77, false⟩
  | C_HR_ELEVEN => ⟨78, 83, false⟩
  | C_HR_THREE => ⟨84, 88, false⟩
  | C_HR_FOUR => ⟨89, 92, false⟩
  | C_HR_SIX => ⟨93, 95, false⟩
  | C_HR_TEN => ⟨96, 98, false⟩
  | C_HR_NINE => ⟨99, 102, false⟩
  | C_HR_SEVEN => ⟨103, 107, false⟩
  | C_HR_EIGHT => ⟨108, 112, false⟩
  | C_OCLOCK => ⟨114, 119, false⟩

/-- The constructor arguments of `C_ALL`: pixels 0..119 and the callback
`onPatternComplete`. -/
def allSegment : Segment := ⟨0, 119, true⟩

/-- The globals of the program that the animation engine, the orchestrator
and the time decoder use. `randoms` is the sequence of values the next calls
of `random` will draw from, and `completed` records the arguments of the
calls of `onPatternComplete`, newest first. -/
structure State where
  WC_Strip : Surface
  GlobalTick : Nat
  LastUpdate : Nat
  C_ALL : Controller
  word : WordId → WordController
  LastHr : Nat
  LastMin : Nat
  CurrentSpecialPattern : SpecialPattern
  SpecialPatternLastUpdate : Nat
  SpecialPatternIndex : Nat
  randoms : Nat → Nat
  completed : List ControllerPattern

/-- The reading `getTimeWithOffset()` returns: hour and minute. -/
structure Clock where
  hour : Nat
  minute : Nat
  deriving DecidableEq, Repr

namespace State

/-- The globals at program start. -/
def initial (hsv : Nat → Nat) (rnd : Nat → Nat) : State :=
  { WC_Strip := { ColorHSV := hsv, buf := fun _ => 0, calls := [] }
    GlobalTick := 0
    LastUpdate := 0
    C_ALL := Controller.initial
    word := fun _ => WordController.initial
    LastHr := 255
    LastMin := 255
    CurrentSpecialPattern := SP_NONE
    SpecialPatternLastUpdate := 0
    SpecialPatternIndex := 0
    randoms := rnd
    completed := [] }

/-- Modelled from the spec: `random(n)` of the Arduino core, a value in
`0 .. n-1`; the value is taken from the sequence `randoms`. -/
def random (n : Nat) (s : State) : Nat × State :=
  (s.randoms 0 % n, { s with randoms := fun k => s.randoms (k + 1) })

/-- Runs a member function of the word controller `w` that touches
pixels. -/
def onWord (w : WordId)
    (f : Segment → WordController → Surface → WordController × Surface) (s : State) : State :=
  let r := f (wordSegment w) (s.word w) s.WC_Strip
  { s with word := Function.update s.word w r.1, WC_Strip := r.2 }

/-- The statement `C_w.HueCycle();` (default interval 40). -/
def wordHueCycle (w : WordId) (s : State) : State :=
  let r := random 256 s
  { r.2 with word := Function.update r.2.word w (WordController.HueCycle r.1 40 (r.2.word w)) }

/-- The statement `C_w.RainbowCycle();` (default interval 4). -/
def wordRainbowCycle (w : WordId) (s : State) : State :=
  { s with word := Function.update s.word w (WordController.RainbowCycle 4 (s.word w)) }

/-- The statement `C_w.SetSingleColor(color);`. -/
def wordSetSingleColor (w : WordId) (color : Nat) (s : State) : State :=
  onWord w (fun seg => WordController.SetSingleColor seg color) s

/-- The statement `C_w.Clear();`. -/
def wordClear (w : WordId) (s : State) : State :=
  onWord w WordController.Clear s

/-- The statement `C_w.Update();`. -/
def wordUpdate (w : WordId) (s : State) : State :=
  onWord w (fun seg => WordController.Update seg s.GlobalTick) s

/-- The order in which `updateControllers` and `clearControllers` visit the
word controllers. -/
def controllerOrder : List WordId :=
  [C_IT, C_IS, C_TWENTY, C_HALF, C_QUARTER, C_FIVE, C_TEN, C_HAPPY, C_BIRTH, C_MINUTES,
   C_PAST, C_TO, C_HR_ONE, C_DAY, C_ALICE, C_HR_FIVE, C_HR_TWO, C_HR_ELEVEN, C_HR_TWELVE,
   C_HR_SIX, C_HR_FOUR, C_HR_THREE, C_HR_TEN, C_HR_NINE, C_HR_SEVEN, C_OCLOCK, C_HR_EIGHT]

/-- `Controller::UpdateTick`; `now` is the value `millis()` returns. -/
def UpdateTick (now : Nat) (s : State) : State :=
  { s with
    GlobalTick :=
      ((now % 4294967296 + 4294967296 - s.LastUpdate % 4294967296) % 4294967296) % 65536
    LastUpdate := now % 4294967296 }

/-- `updateControllers`. -/
def updateControllers (now : Nat) (s : State) : State :=
  UpdateTick now (controllerOrder.foldl (fun t w => wordUpdate w t) s)

/-- `clearControllers`. -/
def clearControllers (s : State) : State :=
  controllerOrder.foldl (fun t w => wordClear w t) s

/-- The statement `C_ALL.Clear();`. -/
def allClear (s : State) : State :=
  let r := Controller.Clear allSegment s.C_ALL s.WC_Strip
  { s with C_ALL := r.1, WC_Strip := r.2 }

/-- The body of `clearSpecialPattern`, with the call of `forceTimeUpdate`
passed in as `force` (the two functions call each other through
`updateTime`). -/
def clearSpecialPatternWith (force : State → State) (setTime : Bool) (s : State) : State :=
  if s.CurrentSpecialPattern = SP_NONE then s
  else
    let s1 := allClear { s with CurrentSpecialPattern := SP_NONE, SpecialPatternIndex := 0 }
    if setTime then force s1 else s1

/-- The first switch of `updateTime`: the minute words of a five-minute
interval, and the hour to look up (a `uint8_t`). -/
def minuteWords (currentMinInterval currentHr : Nat) (s : State) : Nat × State :=
  match currentMinInterval with
  | 1 => (currentHr, wordHueCycle C_PAST (wordHueCycle C_MINUTES (wordHueCycle C_FIVE s)))
  | 2 => (currentHr, wordHueCycle C_PAST (wordHueCycle C_MINUTES (wordHueCycle C_TEN s)))
  | 3 => (currentHr, wordHueCycle C_PAST (wordHueCycle C_QUARTER s))
  | 4 => (currentHr, wordHueCycle C_PAST (wordHueCycle C_MINUTES (wordHueCycle C_TWENTY s)))
  | 5 => (currentHr,
      wordHueCycle C_PAST (wordHueCycle C_MINUTES (wordHueCycle C_FIVE
        (wordHueCycle C_TWENTY s))))
  | 6 => (currentHr, wordHueCycle C_PAST (wordHueCycle C_HALF s))
  | 7 => ((currentHr + 1) % 256,
      wordHueCycle C_TO (wordHueCycle C_MINUTES (wordHueCycle C_FIVE
        (wordHueCycle C_TWENTY s))))
  | 8 => ((currentHr + 1) % 256,
      wordHueCycle C_TO (wordHueCycle C_MINUTES (wordHueCycle C_TWENTY s)))
  | 9 => ((currentHr + 1) % 256, wordHueCycle C_TO (wordHueCycle C_QUARTER s))
  | 10 => ((currentHr + 1) % 256,
      wordHueCycle C_TO (wordHueCycle C_MINUTES (wordHueCycle C_TEN s)))
  | 11 => ((currentHr + 1) % 256,
      wordHueCycle C_TO (wordHueCycle C_MINUTES (wordHueCycle C_FIVE s)))
  | _ => (currentHr, s)

/-- The second switch of `updateTime`: the hour word. -/
def hourWord (currentHr : Nat) : WordId :=
  match currentHr with
  | 1 | 13 => C_HR_ONE
  | 2 | 14 => C_HR_TWO
  | 3 | 15 => C_HR_THREE
  | 4 | 16 => C_HR_FOUR
  | 5 | 17 => C_HR_FIVE
  | 6 | 18 => C_HR_SIX
  | 7 | 19 => C_HR_SEVEN
  | 8 | 20 => C_HR_EIGHT
  | 9 | 21 => C_HR_NINE
  | 10 | 22 => C_HR_TEN
  | 11 | 23 => C_HR_ELEVEN
  | _ => C_HR_TWELVE

/-- `updateTime`; both parameters are `uint8_t`. Its call
`clearSpecialPattern(false)` never reaches `forceTimeUpdate`. -/
def updateTime (currentHr currentMin : Nat) (s : State) : State :=
  let s1 := { s with LastHr := currentHr % 256, LastMin := currentMin % 256 }
  let currentMinInterval := (currentMin % 256) / 5
  let s2 := clearSpecialPatternWith id false s1
  let s3 := clearControllers s2
  let s4 := wordHueCycle C_IS (wordHueCycle C_IT s3)
  let r := minuteWords currentMinInterval (currentHr % 256) s4
  let s5 := wordHueCycle (hourWord r.1) r.2
  wordRainbowCycle C_OCLOCK s5

/-- `forceTimeUpdate`; `rtc` is the reading `getTimeWithOffset()` returns. -/
def forceTimeUpdate (rtc : Clock) (s : State) : State :=
  updateTime rtc.hour rtc.minute s

/-- `clearSpecialPattern`. -/
def clearSpecialPattern (rtc : Clock) (setTime : Bool) (s : State) : State :=
  clearSpecialPatternWith (forceTimeUpdate rtc) setTime s

/-- The draw of `GetRandomColors` inside a pattern start: `random(65536)` is
called only when both colour arguments are zero. -/
def drawColors (color1 color2 : Nat) (s : State) : Nat × State :=
  if color1 % 4294967296 = 0 ∧ color2 % 4294967296 = 0 then random 65536 s else (0, s)

/-- The statement `C_ALL.HueCycle(interval, dir, loops);`. -/
def allHueCycle (interval : Nat) (dir : PatternDirection) (loops : Nat) (s : State) : State :=
  let r := random 256 s
  { r.2 with C_ALL := Controller.HueCycle r.1 interval dir loops r.2.C_ALL }

/-- The statement `C_ALL.RainbowCycle(interval, dir, loops);`. -/
def allRainbowCycle (interval : Nat) (dir : PatternDirection) (loops : Nat) (s : State) :
    State :=
  { s with C_ALL := Controller.RainbowCycle interval dir loops s.C_ALL }

/-- The statement `C_ALL.TheaterChase(interval, color1, color2, dir, loops);`. -/
def allTheaterChase (interval color1 color2 : Nat) (dir : PatternDirection) (loops : Nat)
    (s : State) : State :=
  let r := drawColors color1 color2 s
  { r.2 with
    C_ALL := Controller.TheaterChase allSegment r.2.WC_Strip r.1 interval color1 color2 dir
      loops r.2.C_ALL }

/-- The statement `C_ALL.ColorWipe(interval, color1, color2, dir, loops);`. -/
def allColorWipe (interval color1 color2 : Nat) (dir : PatternDirection) (loops : Nat)
    (s : State) : State :=
  let r := drawColors color1 color2 s
  { r.2 with
    C_ALL := Controller.ColorWipe allSegment r.2.WC_Strip r.1 interval color1 color2 dir
      loops r.2.C_ALL }

/-- The statement `C_ALL.Scanner(interval, color1, color2, loops);`. -/
def allScanner (interval color1 color2 loops : Nat) (s : State) : State :=
  let r := drawColors color1 color2 s
  { r.2 with
    C_ALL := Controller.Scanner allSegment r.2.WC_Strip r.1 interval color1 color2 loops
      r.2.C_ALL }

/-- The statement `C_ALL.BoxZoom(interval, color1, color2, loops);`. -/
def allBoxZoom (interval color1 color2 loops : Nat) (s : State) : State :=
  if allSegment.GetNumPixels < 120 then s
  else
    let r := drawColors color1 color2 s
    { r.2 with
      C_ALL := Controller.BoxZoom allSegment r.2.WC_Strip r.1 interval color1 color2 loops
        r.2.C_ALL }

/-- The statement `C_ALL.Snake(interval, loops);`. -/
def allSnake (interval loops : Nat) (s : State) : State :=
  { s with C_ALL := Controller.Snake allSegment interval loops s.C_ALL }

/-- `pickRandomDemo`. -/
def pickRandomDemo (s : State) : State :=
  let r := random 7 s
  match r.1 % 256 with
  | 0 => allHueCycle 4 FORWARD 10 r.2
  | 1 => allRainbowCycle 8 FORWARD 5 r.2
  | 2 => allTheaterChase 100 0 0 FORWARD 1 r.2
  | 3 => allColorWipe 8 0 0 FORWARD 5 r.2
  | 4 => allScanner 30 0 0 4 r.2
  | 5 => allBoxZoom 500 0 0 3 r.2
  | 6 => allSnake 21 4 r.2
  | _ => r.2

/-- `setSpecialPattern`; `now` is the value `millis()` returns. -/
def setSpecialPattern (now : Nat) (pattern : SpecialPattern) (s : State) : State :=
  let s1 := allClear (clearControllers s)
  let s2 := { s1 with
    CurrentSpecialPattern := pattern
    SpecialPatternLastUpdate := now % 4294967296
    SpecialPatternIndex := 0 }
  match pattern with
  | SP_DEMO => pickRandomDemo s2
  | SP_LIGHT_SHOW => allHueCycle 4 FORWARD 10 s2
  | _ => s2

/-- `onPatternComplete`, the completion callback of `C_ALL`. Each call is
recorded in `completed`. -/
def onPatternComplete (rtc : Clock) (completedPattern : ControllerPattern) (s : State) :
    State :=
  let s1 := { s with completed := completedPattern :: s.completed }
  if s1.CurrentSpecialPattern ≠ SP_LIGHT_SHOW then clearSpecialPattern rtc true s1
  else
    match completedPattern with
    | HUE_CYCLE => allRainbowCycle 8 FORWARD 5 s1
    | RAINBOW_CYCLE => allTheaterChase 100 0 0 FORWARD 1 s1
    | THEATER_CHASE => allColorWipe 8 0 0 FORWARD 5 s1
    | COLOR_WIPE => allScanner 30 0 0 4 s1
    | SCANNER => allBoxZoom 500 0 0 3 s1
    | BOX_ZOOM => allSnake 21 4 s1
    | SNAKE => clearSpecialPattern rtc true s1
    | _ => clearSpecialPattern rtc true s1

/-- The statement `C_ALL.Update();`: the member function, then the callback
it invoked, if any. -/
def allUpdate (rtc : Clock) (s : State) : Option State :=
  match Controller.Update allSegment s.GlobalTick s.C_ALL s.WC_Strip with
  | none => none
  | some r =>
    let s1 := { s with C_ALL := r.1, WC_Strip := r.2.1 }
    match r.2.2 with
    | none => some s1
    | some completedPattern => some (onPatternComplete rtc completedPattern s1)

/-- The switch of `updateHappyBirthday` on the step index: the elapsed time
the step waits for and the statements it runs. Indices outside 0..27 wait
for nothing and do nothing. -/
def birthdayCase (index : Nat) : Nat × (State → State) :=
  let flash : State → State := fun s =>
    wordSetSingleColor C_ALICE (Surface.Color 248 24 148)
      (wordRainbowCycle C_DAY (wordRainbowCycle C_BIRTH (wordRainbowCycle C_HAPPY s)))
  match index with
  | 0 | 14 => (2000, wordRainbowCycle C_HAPPY)
  | 1 | 15 => (2000, fun s => wordRainbowCycle C_DAY (wordRainbowCycle C_BIRTH s))
  | 2 | 16 => (2000, wordSetSingleColor C_ALICE (Surface.Color 248 24 148))
  | 3 | 17 => (2000, clearControllers)
  | 4 | 18 => (200, flash)
  | 5 | 19 => (200, clearControllers)
  | 6 | 20 => (200, flash)
  | 7 | 21 => (200, clearControllers)
  | 8 | 22 => (200, flash)
  | 9 | 23 => (200, clearControllers)
  | 10 | 24 => (200, flash)
  | 11 | 25 => (200, clearControllers)
  | 12 | 26 => (200, flash)
  | 13 | 27 => (4000, clearControllers)
  | _ => (0, id)

/-- `updateHappyBirthday`; `now` is the value `millis()` returns and
`duration` an `unsigned long`. -/
def updateHappyBirthday (rtc : Clock) (now : Nat) (s : State) : State :=
  let duration :=
    (now % 4294967296 + 4294967296 - s.SpecialPatternLastUpdate % 4294967296) % 4294967296
  let k := birthdayCase s.SpecialPatternIndex
  if duration < k.1 then s
  else
    let s1 := k.2 s
    let s2 := { s1 with
      SpecialPatternIndex := (s1.SpecialPatternIndex + 1) % 256
      SpecialPatternLastUpdate := now % 4294967296 }
    if s2.SpecialPatternIndex ≥ 28 then clearSpecialPattern rtc true s2 else s2

/-- `updateSpecialPattern`. -/
def updateSpecialPattern (rtc : Clock) (now : Nat) (s : State) : Option State :=
  match s.CurrentSpecialPattern with
  | SP_NONE => some s
  | SP_DEMO => allUpdate rtc s
  | SP_LIGHT_SHOW => allUpdate rtc s
  | SP_HAPPY_BIRTHDAY => some (updateHappyBirthday rtc now s)

/-- `toggleLightShow`; the label `case NONE:` has the value of `SP_NONE`. -/
def toggleLightShow (rtc : Clock) (now : Nat) (s : State) : State :=
  if s.CurrentSpecialPattern = SP_NONE then setSpecialPattern now SP_LIGHT_SHOW s
  else clearSpecialPattern rtc true s

/-! ## Observations on the globals -/

/-- The pattern kind of every word controller. -/
def kinds (s : State) : WordId → ControllerPattern :=
  fun w => (s.word w).ActivePattern

/-- The set of active word segments: those whose pattern is not `NONE`. -/
def activeWords (s : State) : Finset WordId :=
  Finset.univ.filter (fun w => (s.word w).ActivePattern ≠ NONE)

/-- The activation set: the pattern kind of every word segment and of the
whole-strip segment, and the special-pattern state. -/
structure Activation where
  word : WordId → ControllerPattern
  all : ControllerPattern
  special : SpecialPattern

/-- The activation set of a state. -/
def activation (s : State) : Activation :=
  { word := kinds s, all := s.C_ALL.ActivePattern, special := s.CurrentSpecialPattern }

/-- The globals that no member function of a word controller touches. -/
def others (s : State) :
    Controller × Nat × Nat × Nat × Nat × SpecialPattern × Nat × Nat × List ControllerPattern :=
  (s.C_ALL, s.GlobalTick, s.LastUpdate, s.LastHr, s.LastMin, s.CurrentSpecialPattern,
   s.SpecialPatternLastUpdate, s.SpecialPatternIndex, s.completed)

/-- A reference state for evaluation: the globals at program start, with a
constant colour conversion and random source. -/
def reference : State := State.initial (fun _ => 0) (fun _ => 0)

/-- The whole-strip segment is idle whenever the special-pattern state is
none. -/
def Settled (s : State) : Prop :=
  s.CurrentSpecialPattern = SP_NONE → s.C_ALL.ActivePattern = NONE

/-- The twelve hour-word segments. -/
def hourWords : Finset WordId :=
  {C_HR_ONE, C_HR_TWO, C_HR_THREE, C_HR_FOUR, C_HR_FIVE, C_HR_SIX, C_HR_SEVEN, C_HR_EIGHT,
   C_HR_NINE, C_HR_TEN, C_HR_ELEVEN, C_HR_TWELVE}

/-- The hour word the specification names for a number 0..11, where 0 is
shown as "twelve". This follows the wording of the specification, not the
code; the code's choice is `hourWord`. -/
def specHourWord (n : Nat) : WordId :=
  match n with
  | 1 => C_HR_ONE
  | 2 => C_HR_TWO
  | 3 => C_HR_THREE
  | 4 => C_HR_FOUR
  | 5 => C_HR_FIVE
  | 6 => C_HR_SIX
  | 7 => C_HR_SEVEN
  | 8 => C_HR_EIGHT
  | 9 => C_HR_NINE
  | 10 => C_HR_TEN
  | 11 => C_HR_ELEVEN
  | _ => C_HR_TWELVE

/-- The hour `updateTime` looks up after its minute switch. -/
def adjustedHour (b h : Nat) : Nat := (minuteWords b h reference).1

/-- The pattern kinds once "it", "is" and the minute words of the interval
`b` have been started on cleared controllers. -/
def minuteKinds (b : Nat) : WordId → ControllerPattern :=
  kinds (minuteWords b 0
    (wordHueCycle C_IS (wordHueCycle C_IT (clearControllers reference)))).2

end State

/-! ## Notions used in the statements -/

namespace Controller

/-- The step of the active pattern has a defined result: no division by
zero and no read of the unassigned box-zoom table. -/
def StepDefined (c : Controller) : Prop :=
  (c.ActivePattern = COLOR_WIPE → (c.TotalSteps / 2) % 256 ≠ 0) ∧
  (c.ActivePattern = SCANNER → c.TotalSteps / 2 ≠ 0) ∧
  (c.ActivePattern = BOX_ZOOM → c.Index ≤ 9)

/-- The update crosses the interval: the accumulated time reaches it. -/
def Crosses (tick : Nat) (c : Controller) : Prop :=
  c.Interval ≤ (c.TickDuration + tick) % 65536

instance (tick : Nat) (c : Controller) : Decidable (Crosses tick c) := by
  unfold Crosses
  infer_instance

/-- A segment of one pixel, with a completion callback. -/
def onePixel : Segment := ⟨5, 5, true⟩

/-- A scanner started on the one-pixel segment with loop limit 1 and the
colours 1 and 2. -/
def scannerOnce (px : Surface) : Controller :=
  Scanner onePixel px 0 30 1 2 1 initial

/-- A scanner started on the one-pixel segment with loop limit 0 and the
colours 1 and 2. -/
def scannerForever (px : Surface) : Controller :=
  Scanner onePixel px 0 30 1 2 0 initial

/-- Consecutive calls of `Update`, one per tick; the third component lists
the arguments of the completion-callback invocations, oldest first. -/
def run (seg : Segment) :
    List Nat → Controller → Surface → Option (Controller × Surface × List ControllerPattern)
  | [], c, px => some (c, px, [])
  | t :: ts, c, px =>
    match Update seg t c px with
    | none => none
    | some r =>
      match run seg ts r.1 r.2.1 with
      | none => none
      | some r2 => some (r2.1, r2.2.1, r.2.2.toList ++ r2.2.2)

/-- Every update of the run crosses the interval. -/
def allCross (seg : Segment) : List Nat → Controller → Surface → Prop
  | [], _, _ => True
  | t :: ts, c, px =>
    Crosses t c ∧
      match Update seg t c px with
      | none => True
      | some r => allCross seg ts r.1 r.2.1

/-- The steps of the pattern stay defined while it runs forward from an
index below `TotalSteps`: a color wipe and a scanner divide by a nonzero
half, a box zoom has its ten steps. -/
def Sound (c : Controller) : Prop :=
  (c.ActivePattern = COLOR_WIPE → (c.TotalSteps / 2) % 256 ≠ 0) ∧
  (c.ActivePattern = SCANNER → c.TotalSteps / 2 ≠ 0) ∧
  (c.ActivePattern = BOX_ZOOM → c.TotalSteps ≤ 10)

/-- A forward run with loop limit `L` and `T` total steps has performed `n`
steps of pattern `p`. -/
def RunInv (p : ControllerPattern) (L T n : Nat) (c : Controller) : Prop :=
  c.ActivePattern = p ∧ c.Direction = FORWARD ∧ c.TotalSteps = T ∧ c.MaxLoops = L ∧
    ∃ l i, l < L ∧ i < T ∧ n = l * T + i ∧ c.Index = i ∧ c.LoopIndex = l

/-- A pattern `p` runs without loop limit and its steps stay defined. -/
def ForeverInv (p : ControllerPattern) (c : Controller) : Prop :=
  c.ActivePattern = p ∧ c.MaxLoops = 0 ∧ Sound c ∧
    (p = BOX_ZOOM → c.Direction = FORWARD ∧ c.Index < c.TotalSteps)

end Controller

namespace State

/-- What one pass of `loop()` receives from outside: the clock reading and
the values `millis()` returns in `updateSpecialPattern` and in
`updateControllers`. -/
structure PassInput where
  rtc : Clock
  millisShow : Nat
  millisTick : Nat

/-- One pass of `loop()` with the button released and no time check due:
`updateSpecialPattern(); updateControllers();`. -/
def pass (i : PassInput) (s : State) : Option State :=
  (updateSpecialPattern i.rtc i.millisShow s).map (updateControllers i.millisTick)

/-- Consecutive passes. -/
def runPasses : List PassInput → State → Option State
  | [], s => some s
  | i :: is, s =>
    match pass i s with
    | none => none
    | some s1 => runPasses is s1

/-- The whole-strip update of the next pass performs a step: the light show
is on and the accumulated time reaches the interval. -/
def showAdvances (s : State) : Prop :=
  s.CurrentSpecialPattern = SP_LIGHT_SHOW ∧ Controller.Crosses s.GlobalTick s.C_ALL

instance (s : State) : Decidable (showAdvances s) := by
  unfold showAdvances Controller.Crosses
  infer_instance

/-- The number of steps the whole-strip segment performs during the light
show over consecutive passes. -/
def stepCount : List PassInput → State → Nat
  | [], _ => 0
  | i :: is, s =>
    (if showAdvances s then 1 else 0) +
      (match pass i s with
       | none => 0
       | some s1 => stepCount is s1)

/-- The kinds of the light-show chain, in the order the code starts them. -/
def chain : List ControllerPattern :=
  [HUE_CYCLE, RAINBOW_CYCLE, THEATER_CHASE, COLOR_WIPE, SCANNER, BOX_ZOOM, SNAKE]

/-- Stage `j` of the chain: its loop limit. -/
def stageLoops : Nat → Nat
  | 0 => 10 | 1 => 5 | 2 => 1 | 3 => 5 | 4 => 4 | 5 => 3 | _ => 4

/-- Stage `j` of the chain: its total steps on the 120-pixel strip. -/
def stageSteps : Nat → Nat
  | 0 => 256 | 1 => 255 | 2 => 120 | 3 => 240 | 4 => 120 | 5 => 10 | _ => 240

/-- Stage `j` of the chain: the number of steps performed before it. -/
def stageStart : Nat → Nat
  | 0 => 0 | 1 => 2560 | 2 => 3835 | 3 => 3955 | 4 => 5155 | 5 => 5635 | 6 => 5665
  | _ => 6625

/-- The stage running after `n` steps of the light show. -/
def stageAt (n : Nat) : Nat :=
  if n < 2560 then 0 else if n < 3835 then 1 else if n < 3955 then 2
  else if n < 5155 then 3 else if n < 5635 then 4 else if n < 5665 then 5 else 6

/-- The light show has performed `n` steps: stage `j`, loop `l`, index `i`. -/
def ShowInv (base : List ControllerPattern) (n : Nat) (s : State) : Prop :=
  ∃ j l i, j < 7 ∧ l < stageLoops j ∧ i < stageSteps j ∧
    n = stageStart j + l * stageSteps j + i ∧
    s.CurrentSpecialPattern = SP_LIGHT_SHOW ∧
    s.C_ALL.ActivePattern = chain.getD j NONE ∧
    s.C_ALL.Direction = FORWARD ∧
    s.C_ALL.TotalSteps = stageSteps j ∧
    s.C_ALL.Index = i ∧
    s.C_ALL.MaxLoops = stageLoops j ∧
    s.C_ALL.LoopIndex = l ∧
    s.C_ALL.Interval ≤ 500 ∧
    s.completed = (chain.take j).reverse ++ base

/-- The light show has ended: the special-pattern state is none and the
callback has been invoked for the seven kinds, in order. -/
def ShowDone (base : List ControllerPattern) (s : State) : Prop :=
  s.CurrentSpecialPattern = SP_NONE ∧ s.completed = chain.reverse ++ base

/-- Inputs of `k` passes that are 500 ms apart, the first one ending at
`t + 500`. -/
def steadyInputs : Nat → Nat → List PassInput
  | 0, _ => []
  | k + 1, t => ⟨⟨0, 0⟩, t, t + 500⟩ :: steadyInputs k (t + 500)

/-- The state in which the witness run starts the light show: the program
has made one pass of `updateControllers` at 500 ms. -/
def showStart : State := setSpecialPattern 500 SP_LIGHT_SHOW (updateControllers 500 reference)

/-- The elapsed time `updateHappyBirthday` computes (an `unsigned long`). -/
def elapsed (now : Nat) (s : State) : Nat :=
  (now % 4294967296 + 4294967296 - s.SpecialPatternLastUpdate % 4294967296) % 4294967296

/-- Consecutive calls of `updateHappyBirthday`, each with the clock reading
and the value of `millis()` it receives. -/
def birthdayRun (ins : List (Clock × Nat)) (s : State) : State :=
  ins.foldl (fun t i => updateHappyBirthday i.1 i.2 t) s

/-- In every call of the run the elapsed time meets the threshold of the
step the call finds. -/
def allMeet : List (Clock × Nat) → State → Bool
  | [], _ => true
  | i :: is, s =>
    decide ((birthdayCase s.SpecialPatternIndex).1 ≤ elapsed i.2 s) &&
      allMeet is (updateHappyBirthday i.1 i.2 s)

/-- Inputs of 28 calls of `updateHappyBirthday` that are 4000 ms apart, with
the clock reading 7:47. -/
def birthdayInputs : List (Clock × Nat) :=
  (List.range 28).map (fun k => (⟨7, 47⟩, 4000 * (k + 1)))

/-- The states the program reaches from its start through its operations,
with any inputs. -/
inductive Reachable : State → Prop where
  | start (hsv rnd : Nat → Nat) : Reachable (State.initial hsv rnd)
  | updateTime (h m : Nat) {s : State} : Reachable s → Reachable (updateTime h m s)
  | setSpecialPattern (now : Nat) (p : SpecialPattern) {s : State} :
      Reachable s → Reachable (setSpecialPattern now p s)
  | clearSpecialPattern (rtc : Clock) (setTime : Bool) {s : State} :
      Reachable s → Reachable (clearSpecialPattern rtc setTime s)
  | toggleLightShow (rtc : Clock) (now : Nat) {s : State} :
      Reachable s → Reachable (toggleLightShow rtc now s)
  | updateSpecialPattern (rtc : Clock) (now : Nat) {s t : State} :
      Reachable s → updateSpecialPattern rtc now s = some t → Reachable t
  | updateHappyBirthday (rtc : Clock) (now : Nat) {s : State} :
      Reachable s → Reachable (updateHappyBirthday rtc now s)
  | updateControllers (now : Nat) {s : State} :
      Reachable s → Reachable (updateControllers now s)
  | onPatternComplete (rtc : Clock) (k : ControllerPattern) {s : State} :
      Reachable s → Reachable (onPatternComplete rtc k s)

end State

/-! ## Notions used in the statements on segments, idle states and exclusivity -/

namespace Segment

/-- The pixel ranges of two segments have a pixel in common. -/
def Overlaps (a b : Segment) : Prop :=
  a.StartPixel ≤ b.EndPixel ∧ b.StartPixel ≤ a.EndPixel

instance (a b : Segment) : Decidable (Overlaps a b) := by
  unfold Overlaps
  infer_instance

/-- The pixel belongs to the range of the segment. -/
def Owns (seg : Segment) (i : Nat) : Prop :=
  seg.StartPixel ≤ i ∧ i ≤ seg.EndPixel

instance (seg : Segment) (i : Nat) : Decidable (Owns seg i) := by
  unfold Owns
  infer_instance

end Segment

/-- A surface on which every pixel holds the colour 7. -/
def litStrip : Surface :=
  { ColorHSV := fun _ => 0, buf := fun _ => 7, calls := [] }

namespace Controller

/-- A hue cycle started in the reverse direction with loop limit 1. -/
def reverseHue : Controller := HueCycle 7 40 REVERSE 1 initial

end Controller

namespace WordController

/-- A hue cycle of interval 40 started on a word controller. -/
def hueWord : WordController := HueCycle 7 40 initial

end WordController

namespace Controller

/-- The states a Segment reaches from its initial state (pattern none, every
counter zero) by pattern starts, `SetSingleColor`, `Clear` and `Update`
calls, with any arguments, ticks and pixel buffers. -/
inductive Reach (seg : Segment) : Controller → Prop where
  | start : Reach seg initial
  | hueCycle (r interval : Nat) (dir : PatternDirection) (loops : Nat) {c : Controller} :
      Reach seg c → Reach seg (HueCycle r interval dir loops c)
  | rainbowCycle (interval : Nat) (dir : PatternDirection) (loops : Nat) {c : Controller} :
      Reach seg c → Reach seg (RainbowCycle interval dir loops c)
  | theaterChase (px : Surface) (r interval color1 color2 : Nat) (dir : PatternDirection)
      (loops : Nat) {c : Controller} :
      Reach seg c → Reach seg (TheaterChase seg px r interval color1 color2 dir loops c)
  | colorWipe (px : Surface) (r interval color1 color2 : Nat) (dir : PatternDirection)
      (loops : Nat) {c : Controller} :
      Reach seg c → Reach seg (ColorWipe seg px r interval color1 color2 dir loops c)
  | scanner (px : Surface) (r interval color1 color2 loops : Nat) {c : Controller} :
      Reach seg c → Reach seg (Scanner seg px r interval color1 color2 loops c)
  | boxZoom (px : Surface) (r interval color1 color2 loops : Nat) {c : Controller} :
      Reach seg c → Reach seg (BoxZoom seg px r interval color1 color2 loops c)
  | snake (interval loops : Nat) {c : Controller} :
      Reach seg c → Reach seg (Snake seg interval loops c)
  | setSingleColor (color : Nat) (px : Surface) {c : Controller} :
      Reach seg c → Reach seg (SetSingleColor seg color c px).1
  | clear (px : Surface) {c : Controller} : Reach seg c → Reach seg (Clear seg c px).1
  | update (tick : Nat) (px : Surface) {c : Controller} {r : StepResult} :
      Reach seg c → Update seg tick c px = some r → Reach seg r.1

/-- A hue cycle of interval 40 on the whole strip after one update with a
tick of 10 ms, then `SetSingleColor(5)`. -/
def staleSingle : Controller :=
  (SetSingleColor allSegment 5
    { HueCycle 7 40 FORWARD 0 initial with TickDuration := 10 } litStrip).1

/-- A color wipe with the colours 1 and 2 and interval 30, freshly started in
the forward direction on the segment of the word IT. -/
def wipeIt : Controller :=
  ColorWipe (wordSegment WordId.C_IT) litStrip 0 30 1 2 FORWARD 0 initial

end Controller

namespace State

/-- The light show at the last step of its first stage: the hue cycle of
`showStart` at step index 255 of loop 9 (of 10), with a tick of 4 ms
pending. -/
def showEnd : State :=
  { showStart with
    C_ALL := { showStart.C_ALL with Index := 255, LoopIndex := 9 }
    GlobalTick := 4 }

/-- The whole-strip segment and a word segment are not active at the same
time: if the pattern of the whole-strip segment is not none, the pattern of
every word segment is none. -/
def Exclusive (s : State) : Prop :=
  s.C_ALL.ActivePattern ≠ NONE → ∀ w, (s.word w).ActivePattern = NONE

/-- The special-pattern state decides which side may be active: the
whole-strip segment is idle while it is none or the birthday sequence, and
every word segment is idle while it is the demo or the light show. -/
def Partitioned (s : State) : Prop :=
  ((s.CurrentSpecialPattern = SP_NONE ∨ s.CurrentSpecialPattern = SP_HAPPY_BIRTHDAY) →
    s.C_ALL.ActivePattern = NONE) ∧
  ((s.CurrentSpecialPattern = SP_DEMO ∨ s.CurrentSpecialPattern = SP_LIGHT_SHOW) →
    ∀ w, (s.word w).ActivePattern = NONE)

/-- The states the program reaches from its start through its operations,
with any inputs, where `updateHappyBirthday` runs only while the special
pattern is the birthday sequence: the one call of it in the program is under
`case HAPPY_BIRTHDAY` of `updateSpecialPattern`. -/
inductive Dispatched : State → Prop where
  | start (hsv rnd : Nat → Nat) : Dispatched (State.initial hsv rnd)
  | updateTime (h m : Nat) {s : State} : Dispatched s → Dispatched (updateTime h m s)
  | setSpecialPattern (now : Nat) (p : SpecialPattern) {s : State} :
      Dispatched s → Dispatched (setSpecialPattern now p s)
  | clearSpecialPattern (rtc : Clock) (setTime : Bool) {s : State} :
      Dispatched s → Dispatched (clearSpecialPattern rtc setTime s)
  | toggleLightShow (rtc : Clock) (now : Nat) {s : State} :
      Dispatched s → Dispatched (toggleLightShow rtc now s)
  | updateSpecialPattern (rtc : Clock) (now : Nat) {s t : State} :
      Dispatched s → updateSpecialPattern rtc now s = some t → Dispatched t
  | updateHappyBirthday (rtc : Clock) (now : Nat) {s : State} :
      Dispatched s → s.CurrentSpecialPattern = SP_HAPPY_BIRTHDAY →
      Dispatched (updateHappyBirthday rtc now s)
  | updateControllers (now : Nat) {s : State} :
      Dispatched s → Dispatched (updateControllers now s)
  | onPatternComplete (rtc : Clock) (k : ControllerPattern) {s : State} :
      Dispatched s → Dispatched (onPatternComplete rtc k s)

end State

/-! ## Notions used in the statements on the pattern steps and the birthday gating -/

namespace Segment

/-- The local `hue` of `Wheel` (both classes): `pos * 65535 / 255` stored into
a `uint16_t`; `pos` is a `uint8_t` parameter. -/
def wheelHue (pos : Nat) : Nat :=
  ((pos % 256) * 65535 / 255) % 65536

end Segment

namespace Controller

/-- The five pixel tables of `BoxZoomUpdate`, in the order of the step
indices 0..4, one after the other. -/
def boxZoomRings : List Nat :=
  ((List.range 5).map (fun k => (boxZoomPixels k).getD [])).flatten

/-- The colour the specification names for box-zoom step `k`: the first
colour on steps 0, 2 and 4, the second on steps 1 and 3, off from step 5 on.
This follows the wording of the specification; the choice of the code is
`boxZoomColor`. -/
def specBoxZoomColor (k color1 color2 : Nat) : Nat :=
  if k = 0 ∨ k = 2 ∨ k = 4 then color1
  else if k = 1 ∨ k = 3 then color2
  else 0

end Controller

namespace State

/-- The threshold the specification names for birthday step `k`: 2000 ms for
the steps 0..3 and 14..17, 200 ms for the steps 4..12 and 18..26, 4000 ms for
the steps 13 and 27. This follows the wording of the specification; the
thresholds of the code are `birthdayCase`. -/
def specThreshold (k : Nat) : Nat :=
  if k ≤ 3 ∨ (14 ≤ k ∧ k ≤ 17) then 2000
  else if (4 ≤ k ∧ k ≤ 12) ∨ (18 ≤ k ∧ k ≤ 26) then 200
  else 4000

/-- The birthday sequence entered at the reference state and advanced to its
last step, index 27. -/
def birthdayLast : State :=
  { setSpecialPattern 0 SP_HAPPY_BIRTHDAY reference with SpecialPatternIndex := 27 }

end State

namespace Controller

/-- A box zoom with the colours 1 and 2, interval 500 and loop limit 0,
freshly started on the whole strip. -/
def zoomStart : Controller := BoxZoom allSegment litStrip 0 500 1 2 0 initial

/-- A snake with interval 21 and loop limit 0, freshly started on the whole
strip. -/
def snakeStart : Controller := Snake allSegment 21 0 initial

/-- A color wipe with the colours 1 and 2, interval 30 and loop limit 0,
freshly started in the forward direction on the segment of the word IT. -/
def wipeForever : Controller :=
  ColorWipe (wordSegment WordId.C_IT) litStrip 0 30 1 2 FORWARD 0 initial

/-- A scanner with the colours 1 and 2 on the whole strip, at step index
`i`. -/
def scanAt (i : Nat) : Controller :=
  { Scanner allSegment litStrip 0 30 1 2 0 initial with Index := i }

end Controller

/-! # Theorems -/

/-! ## The pattern engine -/

theorem Surface.foldl_setPixelColor_buf (l : List Nat) (color : Nat) (px : Surface) (i : Nat)
    (hl : ∀ n ∈ l, n < 65536) :
    (l.foldl (fun p n => p.setPixelColor n color) px).buf i =
      if i ∈ l ∧ i < LED_COUNT then color else px.buf i := by
  induction l generalizing px with
  | nil => simp
  | cons a l ih =>
    rw [List.foldl_cons, ih _ (fun n hn => hl n (List.mem_cons_of_mem _ hn))]
    have ha : a % 65536 = a := Nat.mod_eq_of_lt (hl a (List.mem_cons_self _ _))
    by_cases h3 : i < LED_COUNT
    · by_cases h1 : i ∈ l
      · simp [h1, h3]
      · by_cases h2 : i = a
        · subst h2
          simp [h1, h3, Surface.setPixelColor, ha]
        · simp [h1, h2, h3, Surface.setPixelColor, ha]
    · have : ¬ (i = a ∧ a < LED_COUNT) := fun h => h3 (h.1 ▸ h.2)
      simp [h3, Surface.setPixelColor, ha, this]

theorem Segment.ColorSet_buf (seg : Segment) (color : Nat) (px : Surface) (i : Nat)
    (he : seg.EndPixel < LED_COUNT) (h1 : seg.StartPixel ≤ i) (h2 : i ≤ seg.EndPixel) :
    (seg.ColorSet color px).buf i = color := by
  unfold LED_COUNT at he
  unfold Segment.ColorSet Surface.showStrip
  simp only []
  rw [Surface.foldl_setPixelColor_buf]
  · have : i ∈ seg.indices := by
      unfold Segment.indices
      rw [List.mem_range']
      exact ⟨i - seg.StartPixel, by omega, by omega⟩
    have h3 : i < LED_COUNT := by unfold LED_COUNT; omega
    simp [this, h3]
  · intro n hn
    unfold Segment.indices at hn
    rw [List.mem_range'] at hn
    obtain ⟨k, hk, rfl⟩ := hn
    omega

namespace Controller

theorem boxZoomPixels_isSome (i : Nat) (h : i ≤ 9) : ∃ l, boxZoomPixels i = some l := by
  interval_cases i <;> exact ⟨_, rfl⟩

theorem Update_cross (seg : Segment) (tick : Nat) (c : Controller) (px : Surface)
    (h1 : c.ActivePattern ≠ NONE) (h2 : c.ActivePattern ≠ SINGLE_COLOR)
    (hx : Crosses tick c) (hd : StepDefined c) :
    ∃ px1, Update seg tick c px = some (Increment seg { c with TickDuration := 0 } px1) := by
  unfold Crosses at hx
  obtain ⟨d1, d2, d3⟩ := hd
  have hx' : ¬ (c.TickDuration + tick) % 65536 < c.Interval := by omega
  cases hp : c.ActivePattern with
  | NONE => exact absurd hp h1
  | SINGLE_COLOR => exact absurd hp h2
  | HUE_CYCLE => exact ⟨_, by simp [Update, hp, hx', HueCycleUpdate]; rfl⟩
  | RAINBOW_CYCLE => exact ⟨_, by simp [Update, hp, hx', RainbowCycleUpdate]; rfl⟩
  | THEATER_CHASE => exact ⟨_, by simp [Update, hp, hx', TheaterChaseUpdate]; rfl⟩
  | COLOR_WIPE =>
    have d := d1 hp
    by_cases hi : c.Index < (c.TotalSteps / 2) % 256
    · exact ⟨_, by simp [Update, hp, hx', ColorWipeUpdate, hi]; rfl⟩
    · exact ⟨_, by simp [Update, hp, hx', ColorWipeUpdate, hi, d]; rfl⟩
  | SCANNER =>
    have d := d2 hp
    by_cases hi : c.Index < c.TotalSteps / 2
    · exact ⟨_, by simp [Update, hp, hx', ScannerUpdate, scannerPixels, hi]; rfl⟩
    · exact ⟨_, by simp [Update, hp, hx', ScannerUpdate, scannerPixels, hi, d]; rfl⟩
  | BOX_ZOOM =>
    obtain ⟨l, hl⟩ := boxZoomPixels_isSome c.Index (d3 hp)
    exact ⟨_, by simp [Update, hp, hx', BoxZoomUpdate, hl]; rfl⟩
  | SNAKE => exact ⟨_, by simp [Update, hp, hx', SnakeUpdate]; rfl⟩

theorem Increment_forward_inner (seg : Segment) (c : Controller) (px : Surface)
    (hd : c.Direction = FORWARD) (hi : c.Index + 1 < c.TotalSteps) (ht : c.TotalSteps ≤ 65536) :
    Increment seg c px = ({ c with Index := c.Index + 1 }, px, none) := by
  have e : (c.Index + 1) % 65536 = c.Index + 1 := Nat.mod_eq_of_lt (by omega)
  have : ¬ c.TotalSteps ≤ c.Index + 1 := by omega
  simp [Increment, hd, e, this]

theorem Increment_forward_wrap_forever (seg : Segment) (c : Controller) (px : Surface)
    (hd : c.Direction = FORWARD) (hi : c.TotalSteps ≤ (c.Index + 1) % 65536)
    (hm : c.MaxLoops = 0) :
    Increment seg c px = ({ c with Index := 0 }, px, none) := by
  simp [Increment, hd, hi, CheckCompletion, hm]

theorem Increment_forward_wrap_loop (seg : Segment) (c : Controller) (px : Surface)
    (hd : c.Direction = FORWARD) (hi : c.TotalSteps ≤ (c.Index + 1) % 65536)
    (hl : c.LoopIndex + 1 < c.MaxLoops) (hm : c.MaxLoops ≤ 256) :
    Increment seg c px = ({ c with Index := 0, LoopIndex := c.LoopIndex + 1 }, px, none) := by
  have e : (c.LoopIndex + 1) % 256 = c.LoopIndex + 1 := Nat.mod_eq_of_lt (by omega)
  have h0 : c.MaxLoops ≠ 0 := by omega
  simp [Increment, hd, hi, CheckCompletion, h0, e, hl]

theorem Increment_forward_complete (seg : Segment) (c : Controller) (px : Surface)
    (hd : c.Direction = FORWARD) (hi : c.TotalSteps ≤ (c.Index + 1) % 65536)
    (h0 : c.MaxLoops ≠ 0) (hl : c.MaxLoops ≤ (c.LoopIndex + 1) % 256)
    (hp : c.ActivePattern ≠ NONE) :
    Increment seg c px =
      ({ c with
          ActivePattern := NONE, Interval := 0, TotalSteps := 0, Index := 0,
          Direction := FORWARD, TickDuration := 0, Color1 := 0, Color2 := 0,
          LoopIndex := 0, MaxLoops := 0 },
       seg.ColorSet (Surface.Color 0 0 0) px,
       if seg.OnComplete then some c.ActivePattern else none) := by
  have : ¬ (c.LoopIndex + 1) % 256 < c.MaxLoops := by omega
  by_cases ho : seg.OnComplete <;>
    simp [Increment, hd, hi, CheckCompletion, h0, this, Clear, hp, ho]

theorem Increment_forever (seg : Segment) (c : Controller) (px : Surface)
    (hm : c.MaxLoops = 0) :
    ∃ j, Increment seg c px = ({ c with Index := j }, px, none) ∧
      (c.Direction = FORWARD → c.Index < c.TotalSteps → j < c.TotalSteps) := by
  by_cases hd : c.Direction = FORWARD
  · by_cases hw : c.TotalSteps ≤ (c.Index + 1) % 65536
    · exact ⟨0, by simp [Increment, hd, hw, CheckCompletion, hm], fun _ h => by omega⟩
    · exact ⟨(c.Index + 1) % 65536, by simp [Increment, hd, hw], fun _ _ => by omega⟩
  · by_cases hw : (c.Index + 65535) % 65536 = 0
    · exact ⟨(c.TotalSteps + 65535) % 65536,
        by simp [Increment, hd, hw, CheckCompletion, hm], fun h => absurd h hd⟩
    · exact ⟨(c.Index + 65535) % 65536, by simp [Increment, hd, hw], fun h => absurd h hd⟩

theorem forever_step (seg : Segment) (p : ControllerPattern) (tick : Nat) (c : Controller)
    (px : Surface) (hp1 : p ≠ NONE) (hp2 : p ≠ SINGLE_COLOR) (hinv : ForeverInv p c) :
    ∃ r, Update seg tick c px = some r ∧ ForeverInv p r.1 ∧ r.2.2 = none := by
  obtain ⟨hpat, hm, ⟨s1, s2, s3⟩, hb⟩ := hinv
  by_cases hx : Crosses tick c
  · have hd : StepDefined c :=
      ⟨s1, s2, fun h => by
        have := s3 h
        have := (hb (hpat ▸ h)).2
        omega⟩
    obtain ⟨px1, hu⟩ := Update_cross seg tick c px (hpat ▸ hp1) (hpat ▸ hp2) hx hd
    obtain ⟨j, hj, hj2⟩ := Increment_forever seg { c with TickDuration := 0 } px1 hm
    rw [hj] at hu
    exact ⟨_, hu, ⟨hpat, hm, ⟨s1, s2, s3⟩, fun h => ⟨(hb h).1, hj2 (hb h).1 (hb h).2⟩⟩, rfl⟩
  · unfold Crosses at hx
    have hx' : (c.TickDuration + tick) % 65536 < c.Interval := by omega
    have h1 : c.ActivePattern ≠ NONE := hpat ▸ hp1
    have h2 : c.ActivePattern ≠ SINGLE_COLOR := hpat ▸ hp2
    refine ⟨({ c with TickDuration := (c.TickDuration + tick) % 65536 }, px, none),
      by simp [Update, h1, h2, hx'], ⟨hpat, hm, ⟨s1, s2, s3⟩, hb⟩, rfl⟩

/-- Every start function, called in the forward direction with a loop limit
`L` in 1..255, leaves the controller at index 0 of loop 0 with that limit;
the steps are defined except for a scanner on fewer than two pixels. -/
theorem starts_fresh (seg : Segment) (px : Surface) (r interval color1 color2 L : Nat)
    (c : Controller) (hL : 1 ≤ L) (hL2 : L ≤ 255) :
    (RunInv HUE_CYCLE L 256 0 (HueCycle r interval FORWARD L c) ∧
      Sound (HueCycle r interval FORWARD L c)) ∧
    (RunInv RAINBOW_CYCLE L 255 0 (RainbowCycle interval FORWARD L c) ∧
      Sound (RainbowCycle interval FORWARD L c)) ∧
    (1 ≤ seg.GetNumPixels →
      RunInv THEATER_CHASE L seg.GetNumPixels 0
        (TheaterChase seg px r interval color1 color2 FORWARD L c) ∧
      Sound (TheaterChase seg px r interval color1 color2 FORWARD L c)) ∧
    (1 ≤ seg.GetNumPixels →
      RunInv COLOR_WIPE L (seg.GetNumPixels * 2) 0
        (ColorWipe seg px r interval color1 color2 FORWARD L c) ∧
      Sound (ColorWipe seg px r interval color1 color2 FORWARD L c)) ∧
    (2 ≤ seg.GetNumPixels →
      RunInv SCANNER L seg.GetNumPixels 0 (Scanner seg px r interval color1 color2 L c) ∧
      Sound (Scanner seg px r interval color1 color2 L c)) ∧
    (120 ≤ seg.GetNumPixels →
      RunInv BOX_ZOOM L 10 0 (BoxZoom seg px r interval color1 color2 L c) ∧
      Sound (BoxZoom seg px r interval color1 color2 L c)) ∧
    (120 ≤ seg.GetNumPixels →
      RunInv SNAKE L 240 0 (Snake seg interval L c) ∧ Sound (Snake seg interval L c)) := by
  have hmod : L % 256 = L := Nat.mod_eq_of_lt (by omega)
  have hn : seg.GetNumPixels < 256 := Nat.mod_lt _ (by decide)
  refine ⟨?_, ?_, ?_, ?_, ?_, ?_, ?_⟩
  · exact ⟨⟨rfl, rfl, rfl, hmod, 0, 0, by omega, by decide, by simp, rfl, rfl⟩,
      by simp [Sound, HueCycle]⟩
  · exact ⟨⟨rfl, rfl, rfl, hmod, 0, 0, by omega, by decide, by simp, rfl, rfl⟩,
      by simp [Sound, RainbowCycle]⟩
  · intro h
    exact ⟨⟨rfl, rfl, rfl, hmod, 0, 0, by omega, by omega, by simp, rfl, rfl⟩,
      by simp [Sound, TheaterChase]⟩
  · intro h
    refine ⟨⟨rfl, rfl, rfl, hmod, 0, 0, by omega, by omega, by simp, rfl, rfl⟩, ?_⟩
    simp only [Sound, ColorWipe, true_implies, reduceCtorEq, false_implies, and_true]
    omega
  · intro h
    refine ⟨⟨rfl, rfl, rfl, hmod, 0, 0, by omega, by omega, by simp, rfl, rfl⟩, ?_⟩
    simp only [Sound, Scanner, true_implies, reduceCtorEq, false_implies, and_true, true_and]
    omega
  · intro h
    have h' : ¬ seg.GetNumPixels < 120 := by omega
    refine ⟨⟨by simp [BoxZoom, h'], by simp [BoxZoom, h'], by simp [BoxZoom, h'],
      by simp [BoxZoom, h', hmod], 0, 0, by omega, by decide, by simp, by simp [BoxZoom, h'],
      by simp [BoxZoom, h']⟩, ?_⟩
    simp [Sound, BoxZoom, h']
  · intro h
    have h' : ¬ seg.GetNumPixels < 120 := by omega
    refine ⟨⟨by simp [Snake, h'], by simp [Snake, h'], by simp [Snake, h'],
      by simp [Snake, h', hmod], 0, 0, by omega, by decide, by simp, by simp [Snake, h'],
      by simp [Snake, h']⟩, ?_⟩
    simp [Sound, Snake, h']

/-- C8. For every Segment and every Word Segment running a stepping pattern
(neither none nor single-color): when the accumulated time plus the tick is
below the interval, `Update` changes the accumulated-time member to
accumulated + tick and nothing else; the surface, and with it the record of
calls made on it, is unchanged, and no completion callback is invoked. -/
theorem C8_update_below_interval (seg : Segment) (tick : Nat) (px : Surface) :
    (∀ c : Controller, c.ActivePattern ≠ NONE → c.ActivePattern ≠ SINGLE_COLOR →
      c.Interval < 65536 → c.TickDuration + tick < c.Interval →
      Controller.Update seg tick c px =
        some ({ c with TickDuration := c.TickDuration + tick }, px, none)) ∧
    (∀ w : WordController, w.ActivePattern ≠ NONE → w.ActivePattern ≠ SINGLE_COLOR →
      w.Interval < 256 → w.TickDuration + tick < w.Interval →
      WordController.Update seg tick w px =
        ({ w with TickDuration := w.TickDuration + tick }, px)) := by
  constructor
  · intro c h1 h2 h3 h4
    have e : (c.TickDuration + tick) % 65536 = c.TickDuration + tick :=
      Nat.mod_eq_of_lt (by omega)
    simp [Controller.Update, h1, h2, e, h4]
  · intro w h1 h2 h3 h4
    have e : (w.TickDuration + tick) % 256 = w.TickDuration + tick :=
      Nat.mod_eq_of_lt (by omega)
    simp [WordController.Update, h1, h2, e, h4]

/-- Witness of C8: a hue cycle of interval 40 on the whole strip and on the
word "it", each updated with a tick of 10 ms. -/
theorem C8_update_below_interval_witness :
    ((HueCycle 7 40 FORWARD 0 initial).ActivePattern ≠ NONE ∧
      (HueCycle 7 40 FORWARD 0 initial).ActivePattern ≠ SINGLE_COLOR ∧
      (HueCycle 7 40 FORWARD 0 initial).Interval < 65536 ∧
      (HueCycle 7 40 FORWARD 0 initial).TickDuration + 10 <
        (HueCycle 7 40 FORWARD 0 initial).Interval) ∧
    Controller.Update allSegment 10 (HueCycle 7 40 FORWARD 0 initial)
        State.reference.WC_Strip =
      some ({ HueCycle 7 40 FORWARD 0 initial with TickDuration := 0 + 10 },
        State.reference.WC_Strip, none) ∧
    WordController.Update (wordSegment WordId.C_IT) 10
        (WordController.HueCycle 7 40 WordController.initial) State.reference.WC_Strip =
      ({ WordController.HueCycle 7 40 WordController.initial with TickDuration := 0 + 10 },
        State.reference.WC_Strip) :=
  ⟨by decide,
   (C8_update_below_interval allSegment 10 State.reference.WC_Strip).1
      (HueCycle 7 40 FORWARD 0 initial) (by decide) (by decide) (by decide) (by decide),
   (C8_update_below_interval (wordSegment WordId.C_IT) 10 State.reference.WC_Strip).2
      (WordController.HueCycle 7 40 WordController.initial)
      (by decide) (by decide) (by decide) (by decide)⟩

/-- A scanner started with loop limit 1 on a one-pixel segment, which the
program never constructs, has `TotalSteps = 1`; its first update that
crosses the interval computes `Index % halfway` with `halfway = 0` and has no
defined result. This is why the statements on the loop limit ask for a
scanner of at least two pixels. -/
theorem scanner_one_pixel_once :
    (scannerOnce State.reference.WC_Strip).ActivePattern = SCANNER ∧
    (scannerOnce State.reference.WC_Strip).Direction = FORWARD ∧
    (scannerOnce State.reference.WC_Strip).TotalSteps = 1 ∧
    (scannerOnce State.reference.WC_Strip).MaxLoops = 1 ∧
    Crosses 30 (scannerOnce State.reference.WC_Strip) ∧
    Update onePixel 30 (scannerOnce State.reference.WC_Strip) State.reference.WC_Strip =
      none :=
  ⟨rfl, rfl, rfl, rfl, by decide, rfl⟩

/-- A scanner started with loop limit 0 on a one-pixel segment, which the
program never constructs: its first update that crosses the interval divides
by `halfway = 0` and has no defined result. -/
theorem scanner_one_pixel_forever :
    (scannerForever State.reference.WC_Strip).ActivePattern = SCANNER ∧
    (scannerForever State.reference.WC_Strip).MaxLoops = 0 ∧
    (scannerForever State.reference.WC_Strip).TotalSteps = 1 ∧
    Update onePixel 30 (scannerForever State.reference.WC_Strip) State.reference.WC_Strip =
      none :=
  ⟨rfl, rfl, rfl, rfl⟩

end Controller

namespace State

/-! ## Time decoder -/

theorem kinds_wordHueCycle (w : WordId) (s : State) :
    kinds (wordHueCycle w s) = Function.update (kinds s) w HUE_CYCLE := by
  funext v
  by_cases h : v = w
  · subst h; simp [kinds, wordHueCycle, random, WordController.HueCycle]
  · simp [kinds, wordHueCycle, random, Function.update_noteq h]

theorem kinds_wordRainbowCycle (w : WordId) (s : State) :
    kinds (wordRainbowCycle w s) = Function.update (kinds s) w RAINBOW_CYCLE := by
  funext v
  by_cases h : v = w
  · subst h; simp [kinds, wordRainbowCycle, WordController.RainbowCycle]
  · simp [kinds, wordRainbowCycle, Function.update_noteq h]

theorem kinds_wordClear (w : WordId) (s : State) :
    kinds (wordClear w s) = Function.update (kinds s) w NONE := by
  funext v
  by_cases h : v = w
  · subst h
    by_cases hp : (s.word v).ActivePattern = NONE <;>
      simp [kinds, wordClear, onWord, WordController.Clear, hp]
  · simp [kinds, wordClear, onWord, Function.update_noteq h]

theorem kinds_foldl_wordClear (l : List WordId) (s : State) :
    kinds (l.foldl (fun t w => wordClear w t) s) =
      fun v => if v ∈ l then NONE else kinds s v := by
  induction l generalizing s with
  | nil => simp
  | cons a l ih =>
    rw [List.foldl_cons, ih, kinds_wordClear]
    funext v
    by_cases hv : v ∈ l
    · simp [hv]
    · by_cases ha : v = a
      · subst ha; simp [hv]
      · simp [hv, ha, Function.update_noteq ha]

theorem mem_controllerOrder (w : WordId) : w ∈ controllerOrder := by
  cases w <;> decide

theorem kinds_clearControllers (s : State) :
    kinds (clearControllers s) = fun _ => NONE := by
  unfold clearControllers
  rw [kinds_foldl_wordClear]
  funext v
  simp [mem_controllerOrder v]

theorem minuteWords_fst (b h : Nat) (s t : State) :
    (minuteWords b h s).1 = (minuteWords b h t).1 := by
  unfold minuteWords
  split <;> rfl

theorem kinds_minuteWords (b h : Nat) (s t : State) (hk : kinds s = kinds t) :
    kinds (minuteWords b h s).2 = kinds (minuteWords b h t).2 := by
  unfold minuteWords
  split <;> simp only [kinds_wordHueCycle, hk]

theorem kinds_minuteWords_hour (b h h' : Nat) (s : State) :
    kinds (minuteWords b h s).2 = kinds (minuteWords b h' s).2 := by
  unfold minuteWords
  split <;> rfl

/-- The pattern kinds after `updateTime` in closed form: they do not depend
on the prior state. -/
theorem kinds_updateTime (h m : Nat) (s : State) :
    kinds (updateTime h m s) =
      Function.update
        (Function.update (minuteKinds (m % 256 / 5))
          (hourWord (adjustedHour (m % 256 / 5) (h % 256))) HUE_CYCLE)
        C_OCLOCK RAINBOW_CYCLE := by
  unfold updateTime minuteKinds adjustedHour
  simp only [kinds_wordRainbowCycle, kinds_wordHueCycle]
  rw [minuteWords_fst _ _ _ reference, kinds_minuteWords_hour _ _ 0]
  rw [kinds_minuteWords]
  simp only [kinds_wordHueCycle, kinds_clearControllers]

theorem active_updateTime (h m : Nat) (s : State) (w : WordId) :
    ((updateTime h m s).word w).ActivePattern ≠ NONE ↔
      (w = C_OCLOCK ∨ w = hourWord (adjustedHour (m % 256 / 5) (h % 256)) ∨
        minuteKinds (m % 256 / 5) w ≠ NONE) := by
  have hk := congrFun (kinds_updateTime h m s) w
  simp only [kinds] at hk
  rw [hk]
  by_cases h1 : w = C_OCLOCK
  · subst h1; simp
  · by_cases h2 : w = hourWord (adjustedHour (m % 256 / 5) (h % 256))
    · rw [Function.update_noteq h1, h2, Function.update_same]
      simp
    · rw [Function.update_noteq h1, Function.update_noteq h2]
      simp [h1, h2]

theorem mem_activeWords_updateTime (h m : Nat) (s : State) (w : WordId) :
    w ∈ activeWords (updateTime h m s) ↔
      (w = C_OCLOCK ∨ w = hourWord (adjustedHour (m % 256 / 5) (h % 256)) ∨
        minuteKinds (m % 256 / 5) w ≠ NONE) := by
  simp only [activeWords, Finset.mem_filter, Finset.mem_univ, true_and, active_updateTime]

theorem hourWord_table :
    ∀ h < 24, ∀ b < 12,
      hourWord (adjustedHour b h) = specHourWord ((h + (if b ≥ 7 then 1 else 0)) % 12) := by
  decide

theorem hourWord_mem (n : Nat) : hourWord n ∈ hourWords := by
  unfold hourWord
  split <;> decide

theorem minuteKinds_hour :
    ∀ b < 12, ∀ w ∈ hourWords, minuteKinds b w = NONE := by
  decide

theorem minuteKinds_past_to :
    ∀ b < 12,
      (minuteKinds b C_PAST ≠ NONE ↔ 1 ≤ b ∧ b ≤ 6) ∧
      (minuteKinds b C_TO ≠ NONE ↔ 7 ≤ b ∧ b ≤ 11) := by
  decide

theorem minuteKinds_zero (w : WordId) :
    minuteKinds 0 w ≠ NONE ↔ w = C_IT ∨ w = C_IS := by
  cases w <;> decide

theorem minuteKinds_nine (w : WordId) :
    minuteKinds 9 w ≠ NONE ↔ w = C_IT ∨ w = C_IS ∨ w = C_QUARTER ∨ w = C_TO := by
  cases w <;> decide

/-- C1. For every hour 0..23 and minute 0..59, after `updateTime` exactly one
of the twelve hour-word segments is active: the one the specification names
for the number `(h + (1 if m/5 >= 7 else 0)) mod 12`, with 0 shown as
"twelve". -/
theorem C1_hour_word (s : State) (h m : Nat) (hh : h < 24) (hm : m < 60) :
    activeWords (updateTime h m s) ∩ hourWords =
      {specHourWord ((h + (if m / 5 ≥ 7 then 1 else 0)) % 12)} := by
  have hb : m / 5 < 12 := by omega
  have hm' : m % 256 = m := by omega
  have hh' : h % 256 = h := by omega
  ext w
  simp only [Finset.mem_inter, Finset.mem_singleton, mem_activeWords_updateTime, hm', hh']
  rw [← hourWord_table h hh (m / 5) hb]
  constructor
  · rintro ⟨h1 | h1 | h1, h2⟩
    · subst h1; exact absurd h2 (by decide)
    · exact h1
    · exact absurd (minuteKinds_hour (m / 5) hb w h2) h1
  · intro h1
    exact ⟨Or.inr (Or.inl h1), h1 ▸ hourWord_mem _⟩

/-- Witness of C1: 23:35 shows "twelve", and no other hour word. -/
theorem C1_hour_word_witness :
    23 < 24 ∧ 35 < 60 ∧
      activeWords (updateTime 23 35 reference) ∩ hourWords = {C_HR_TWELVE} :=
  ⟨by decide, by decide, C1_hour_word reference 23 35 (by decide) (by decide)⟩

theorem hourWord_ne_past_to (n : Nat) : hourWord n ≠ C_PAST ∧ hourWord n ≠ C_TO := by
  unfold hourWord
  split <;> decide

/-- C2. For every hour 0..23 and minute 0..59, `updateTime` activates "past"
exactly when `1 <= m/5 <= 6` and "to" exactly when `7 <= m/5 <= 11`; the two
are never both active, and neither is active in interval 0. -/
theorem C2_past_to (s : State) (h m : Nat) (hh : h < 24) (hm : m < 60) :
    (C_PAST ∈ activeWords (updateTime h m s) ↔ 1 ≤ m / 5 ∧ m / 5 ≤ 6) ∧
    (C_TO ∈ activeWords (updateTime h m s) ↔ 7 ≤ m / 5 ∧ m / 5 ≤ 11) ∧
    ¬ (C_PAST ∈ activeWords (updateTime h m s) ∧ C_TO ∈ activeWords (updateTime h m s)) ∧
    (m / 5 = 0 →
      C_PAST ∉ activeWords (updateTime h m s) ∧ C_TO ∉ activeWords (updateTime h m s)) := by
  have hb : m / 5 < 12 := by omega
  have hm' : m % 256 = m := by omega
  have hh' : h % 256 = h := by omega
  have hp : C_PAST ∈ activeWords (updateTime h m s) ↔ 1 ≤ m / 5 ∧ m / 5 ≤ 6 := by
    rw [mem_activeWords_updateTime, hm', hh', ← (minuteKinds_past_to (m / 5) hb).1]
    have := (hourWord_ne_past_to (adjustedHour (m / 5) h)).1
    constructor
    · rintro (h1 | h1 | h1)
      · exact absurd h1 (by decide)
      · exact absurd h1.symm this
      · exact h1
    · intro h1; exact Or.inr (Or.inr h1)
  have ht : C_TO ∈ activeWords (updateTime h m s) ↔ 7 ≤ m / 5 ∧ m / 5 ≤ 11 := by
    rw [mem_activeWords_updateTime, hm', hh', ← (minuteKinds_past_to (m / 5) hb).2]
    have := (hourWord_ne_past_to (adjustedHour (m / 5) h)).2
    constructor
    · rintro (h1 | h1 | h1)
      · exact absurd h1 (by decide)
      · exact absurd h1.symm this
      · exact h1
    · intro h1; exact Or.inr (Or.inr h1)
  refine ⟨hp, ht, ?_, ?_⟩
  · rw [hp, ht]; omega
  · intro h0; rw [hp, ht]; omega

/-- Witness of C2 at 7:47 (interval 9): "to" is active and "past" is not. -/
theorem C2_past_to_witness :
    7 < 24 ∧ 47 < 60 ∧
    (C_PAST ∈ activeWords (updateTime 7 47 reference) ↔ 1 ≤ 47 / 5 ∧ 47 / 5 ≤ 6) ∧
    (C_TO ∈ activeWords (updateTime 7 47 reference) ↔ 7 ≤ 47 / 5 ∧ 47 / 5 ≤ 11) ∧
    ¬ (C_PAST ∈ activeWords (updateTime 7 47 reference) ∧
        C_TO ∈ activeWords (updateTime 7 47 reference)) ∧
    (47 / 5 = 0 →
      C_PAST ∉ activeWords (updateTime 7 47 reference) ∧
        C_TO ∉ activeWords (updateTime 7 47 reference)) :=
  ⟨by decide, by decide, C2_past_to reference 7 47 (by decide) (by decide)⟩

theorem specHourWord_ne (n : Nat) :
    specHourWord n ≠ C_IT ∧ specHourWord n ≠ C_IS ∧ specHourWord n ≠ C_OCLOCK ∧
      specHourWord n ≠ C_QUARTER ∧ specHourWord n ≠ C_TO := by
  unfold specHourWord
  split <;> decide

/-- C3. For every hour 0..23, every minute 0..4 and every prior state, after
`updateTime` the set of active word segments is exactly "it", "is", the hour
word for `h` and "oclock": four segments, no minute word among them. -/
theorem C3_bucket_zero (s : State) (h m : Nat) (hh : h < 24) (hm : m < 5) :
    activeWords (updateTime h m s) = {C_IT, C_IS, specHourWord (h % 12), C_OCLOCK} ∧
    (activeWords (updateTime h m s)).card = 4 := by
  have hb : m / 5 = 0 := by omega
  have hm' : m % 256 = m := by omega
  have hh' : h % 256 = h := by omega
  have ht := hourWord_table h hh 0 (by decide)
  simp only [ge_iff_le, Nat.le_zero_eq, OfNat.ofNat_ne_zero, ite_false, Nat.add_zero] at ht
  have hset : activeWords (updateTime h m s) =
      {C_IT, C_IS, specHourWord (h % 12), C_OCLOCK} := by
    ext w
    simp only [mem_activeWords_updateTime, hm', hh', hb, minuteKinds_zero, ht,
      Finset.mem_insert, Finset.mem_singleton]
    tauto
  refine ⟨hset, ?_⟩
  rw [hset]
  obtain ⟨h1, h2, h3, _, _⟩ := specHourWord_ne (h % 12)
  rw [Finset.card_insert_of_not_mem, Finset.card_insert_of_not_mem,
    Finset.card_insert_of_not_mem, Finset.card_singleton]
  · simpa using h3
  · simp only [Finset.mem_insert, Finset.mem_singleton, not_or]
    exact ⟨fun e => h2 e.symm, by decide⟩
  · simp only [Finset.mem_insert, Finset.mem_singleton, not_or]
    exact ⟨by decide, fun e => h1 e.symm, by decide⟩

/-- Witness of C3: `(0, 0)` gives exactly "it", "is", "twelve", "oclock". -/
theorem C3_bucket_zero_witness :
    0 < 24 ∧ 0 < 5 ∧
    activeWords (updateTime 0 0 reference) = {C_IT, C_IS, C_HR_TWELVE, C_OCLOCK} ∧
    (activeWords (updateTime 0 0 reference)).card = 4 :=
  ⟨by decide, by decide, C3_bucket_zero reference 0 0 (by decide) (by decide)⟩

/-- C4. For every hour 0..23, every minute 45..49 and every prior state,
after `updateTime` the set of active word segments is exactly "it", "is",
"quarter", "to", the hour word for `(h+1) mod 12` and "oclock". -/
theorem C4_quarter_to (s : State) (h m : Nat) (hh : h < 24) (hm : 45 ≤ m) (hm2 : m ≤ 49) :
    activeWords (updateTime h m s) =
      {C_IT, C_IS, C_QUARTER, C_TO, specHourWord ((h + 1) % 12), C_OCLOCK} := by
  have hb : m / 5 = 9 := by omega
  have hm' : m % 256 = m := by omega
  have hh' : h % 256 = h := by omega
  have ht := hourWord_table h hh 9 (by decide)
  simp only [ge_iff_le, Nat.reduceLeDiff, ite_true] at ht
  ext w
  simp only [mem_activeWords_updateTime, hm', hh', hb, minuteKinds_nine, ht,
    Finset.mem_insert, Finset.mem_singleton]
  tauto

/-- Witness of C4: `(7, 47)` gives exactly "it", "is", "quarter", "to",
"eight", "oclock". -/
theorem C4_quarter_to_witness :
    7 < 24 ∧ 45 ≤ 47 ∧ 47 ≤ 49 ∧
    activeWords (updateTime 7 47 reference) =
      {C_IT, C_IS, C_QUARTER, C_TO, C_HR_EIGHT, C_OCLOCK} :=
  ⟨by decide, by decide, by decide,
    C4_quarter_to reference 7 47 (by decide) (by decide) (by decide)⟩

/-! ### What `updateTime` leaves of the whole strip and the special pattern -/

theorem others_onWord (w : WordId)
    (f : Segment → WordController → Surface → WordController × Surface) (s : State) :
    others (onWord w f s) = others s := rfl

theorem others_wordHueCycle (w : WordId) (s : State) :
    others (wordHueCycle w s) = others s := rfl

theorem others_wordRainbowCycle (w : WordId) (s : State) :
    others (wordRainbowCycle w s) = others s := rfl

theorem others_wordSetSingleColor (w : WordId) (c : Nat) (s : State) :
    others (wordSetSingleColor w c s) = others s := rfl

theorem others_clearControllers (s : State) :
    others (clearControllers s) = others s := by
  unfold clearControllers
  generalize controllerOrder = l
  induction l generalizing s with
  | nil => rfl
  | cons a l ih => rw [List.foldl_cons, ih]; rfl

theorem others_minuteWords (b h : Nat) (s : State) :
    others (minuteWords b h s).2 = others s := by
  unfold minuteWords
  split <;> simp only [others_wordHueCycle]

theorem others_updateTime (h m : Nat) (s : State) :
    others (updateTime h m s) =
      others (clearSpecialPatternWith id false
        { s with LastHr := h % 256, LastMin := m % 256 }) := by
  unfold updateTime
  simp only [others_wordRainbowCycle, others_wordHueCycle, others_minuteWords,
    others_clearControllers]

theorem updateTime_C_ALL (h m : Nat) (s : State) :
    (updateTime h m s).C_ALL = (clearSpecialPatternWith id false s).C_ALL := by
  have e := congrArg (fun x => x.1) (others_updateTime h m s)
  simp only [others] at e
  rw [e]
  unfold clearSpecialPatternWith
  by_cases hs : s.CurrentSpecialPattern = SP_NONE <;> simp [hs, allClear]

theorem updateTime_special (h m : Nat) (s : State) :
    (updateTime h m s).CurrentSpecialPattern = SP_NONE := by
  have e := congrArg (fun x => x.2.2.2.2.2.1) (others_updateTime h m s)
  simp only [others] at e
  rw [e]
  unfold clearSpecialPatternWith
  by_cases hs : s.CurrentSpecialPattern = SP_NONE <;> simp [hs, allClear]

theorem clearSpecialPatternWith_pattern (s : State) (hs : Settled s) :
    (clearSpecialPatternWith id false s).C_ALL.ActivePattern = NONE := by
  unfold clearSpecialPatternWith
  by_cases h1 : s.CurrentSpecialPattern = SP_NONE
  · simp [h1, hs h1]
  · by_cases h2 : s.C_ALL.ActivePattern = NONE <;>
      simp [h1, h2, allClear, Controller.Clear]

/-- The activation set after `updateTime` from a settled state, in closed
form. -/
theorem activation_updateTime (h m : Nat) (s : State) (hs : Settled s) :
    activation (updateTime h m s) =
      { word := Function.update
          (Function.update (minuteKinds (m % 256 / 5))
            (hourWord (adjustedHour (m % 256 / 5) (h % 256))) HUE_CYCLE)
          C_OCLOCK RAINBOW_CYCLE
        all := NONE
        special := SP_NONE } := by
  unfold activation
  rw [kinds_updateTime, updateTime_special, updateTime_C_ALL,
    clearSpecialPatternWith_pattern s hs]

/-! ## Light show -/

theorem allUpdate_nocross (rtc : Clock) (s : State)
    (h1 : s.C_ALL.ActivePattern ≠ NONE) (h2 : s.C_ALL.ActivePattern ≠ SINGLE_COLOR)
    (hx : ¬ Controller.Crosses s.GlobalTick s.C_ALL) :
    allUpdate rtc s =
      some { s with
        C_ALL := { s.C_ALL with
          TickDuration := (s.C_ALL.TickDuration + s.GlobalTick) % 65536 } } := by
  unfold Controller.Crosses at hx
  have hx' : (s.C_ALL.TickDuration + s.GlobalTick) % 65536 < s.C_ALL.Interval := by omega
  simp [allUpdate, Controller.Update, h1, h2, hx']

theorem allUpdate_cross (rtc : Clock) (s : State)
    (h1 : s.C_ALL.ActivePattern ≠ NONE) (h2 : s.C_ALL.ActivePattern ≠ SINGLE_COLOR)
    (hx : Controller.Crosses s.GlobalTick s.C_ALL) (hd : Controller.StepDefined s.C_ALL) :
    ∃ px1, ∀ c1 px2 ev,
      Controller.Increment allSegment { s.C_ALL with TickDuration := 0 } px1 = (c1, px2, ev) →
      allUpdate rtc s =
        some (match ev with
          | none => { s with C_ALL := c1, WC_Strip := px2 }
          | some k => onPatternComplete rtc k { s with C_ALL := c1, WC_Strip := px2 }) := by
  obtain ⟨px1, hu⟩ := Controller.Update_cross allSegment s.GlobalTick s.C_ALL s.WC_Strip h1 h2 hx hd
  refine ⟨px1, ?_⟩
  intro c1 px2 ev he
  unfold allUpdate
  rw [hu, he]
  cases ev <;> rfl

theorem allSegment_numPixels : allSegment.GetNumPixels = 120 := by decide

theorem chain_getD_ne (j : Nat) (hj : j < 7) :
    chain.getD j NONE ≠ NONE ∧ chain.getD j NONE ≠ SINGLE_COLOR := by
  interval_cases j <;> decide

theorem others_clearSpecialPattern_true (rtc : Clock) (s : State)
    (hs : s.CurrentSpecialPattern ≠ SP_NONE) :
    (clearSpecialPattern rtc true s).CurrentSpecialPattern = SP_NONE ∧
    (clearSpecialPattern rtc true s).completed = s.completed ∧
    (clearSpecialPattern rtc true s).SpecialPatternIndex = 0 := by
  unfold clearSpecialPattern clearSpecialPatternWith forceTimeUpdate
  simp only [hs, if_false, if_true]
  have e := others_updateTime rtc.hour rtc.minute
    (allClear { s with CurrentSpecialPattern := SP_NONE, SpecialPatternIndex := 0 })
  have e1 := congrArg (fun x => x.2.2.2.2.2.1) e
  have e2 := congrArg (fun x => x.2.2.2.2.2.2.2.2) e
  have e3 := congrArg (fun x => x.2.2.2.2.2.2.2.1) e
  simp only [others] at e1 e2 e3
  rw [e1, e2, e3]
  simp [clearSpecialPatternWith, allClear]

theorem onPatternComplete_next (rtc : Clock) (s : State) (j : Nat) (hj : j < 6)
    (hsp : s.CurrentSpecialPattern = SP_LIGHT_SHOW) :
    (onPatternComplete rtc (chain.getD j NONE) s).CurrentSpecialPattern = SP_LIGHT_SHOW ∧
    (onPatternComplete rtc (chain.getD j NONE) s).C_ALL.ActivePattern =
      chain.getD (j + 1) NONE ∧
    (onPatternComplete rtc (chain.getD j NONE) s).C_ALL.Direction = FORWARD ∧
    (onPatternComplete rtc (chain.getD j NONE) s).C_ALL.TotalSteps = stageSteps (j + 1) ∧
    (onPatternComplete rtc (chain.getD j NONE) s).C_ALL.Index = 0 ∧
    (onPatternComplete rtc (chain.getD j NONE) s).C_ALL.MaxLoops = stageLoops (j + 1) ∧
    (onPatternComplete rtc (chain.getD j NONE) s).C_ALL.LoopIndex = 0 ∧
    (onPatternComplete rtc (chain.getD j NONE) s).C_ALL.Interval ≤ 500 ∧
    (onPatternComplete rtc (chain.getD j NONE) s).C_ALL.TickDuration =
      s.C_ALL.TickDuration ∧
    (onPatternComplete rtc (chain.getD j NONE) s).GlobalTick = s.GlobalTick ∧
    (onPatternComplete rtc (chain.getD j NONE) s).LastUpdate = s.LastUpdate ∧
    (onPatternComplete rtc (chain.getD j NONE) s).completed =
      chain.getD j NONE :: s.completed := by
  interval_cases j <;>
    simp [onPatternComplete, hsp, chain, allRainbowCycle, allTheaterChase, allColorWipe,
      allScanner, allBoxZoom, allSnake, Controller.RainbowCycle, Controller.TheaterChase,
      Controller.ColorWipe, Controller.Scanner, Controller.BoxZoom, Controller.Snake,
      drawColors, random, allSegment_numPixels, stageSteps, stageLoops]

theorem onPatternComplete_last (rtc : Clock) (s : State)
    (hsp : s.CurrentSpecialPattern = SP_LIGHT_SHOW) :
    (onPatternComplete rtc SNAKE s).CurrentSpecialPattern = SP_NONE ∧
    (onPatternComplete rtc SNAKE s).completed = SNAKE :: s.completed := by
  have hne : ({ s with completed := SNAKE :: s.completed } : State).CurrentSpecialPattern ≠
      SP_NONE := by simp [hsp]
  obtain ⟨h1, h2, _⟩ := others_clearSpecialPattern_true rtc _ hne
  have e : onPatternComplete rtc SNAKE s =
      clearSpecialPattern rtc true { s with completed := SNAKE :: s.completed } := by
    unfold onPatternComplete
    exact ite_self _
  rw [e]
  exact ⟨h1, h2⟩

theorem chain_take_succ (j : Nat) (hj : j < 7) :
    (chain.take (j + 1)).reverse = chain.getD j NONE :: (chain.take j).reverse := by
  interval_cases j <;> rfl

theorem stage_bounds (j l i : Nat) (hj : j < 7) (hl : l < stageLoops j)
    (hi : i < stageSteps j) :
    stageSteps j < 65536 ∧ stageLoops j < 256 ∧ 0 < stageLoops j ∧
    stageStart j + l * stageSteps j + i < stageStart (j + 1) ∧
    stageStart j + stageLoops j * stageSteps j = stageStart (j + 1) ∧
    stageStart (j + 1) ≤ 6625 ∧ (j = 6 → stageStart (j + 1) = 6625) ∧
    (j < 6 → stageStart (j + 1) < 6625) ∧
    (l + 1 < stageLoops j →
      stageStart j + (l + 1) * stageSteps j < stageStart (j + 1)) := by
  interval_cases j <;> simp [stageSteps, stageLoops, stageStart] at * <;> omega

theorem show_step (base : List ControllerPattern) (n : Nat) (s : State) (rtc : Clock)
    (now : Nat) (hinv : ShowInv base n s) :
    ∃ s1, updateSpecialPattern rtc now s = some s1 ∧
      (¬ showAdvances s → ShowInv base n s1) ∧
      (showAdvances s → n + 1 < 6625 →
        ShowInv base (n + 1) s1 ∧ s1.C_ALL.TickDuration = 0 ∧
          s1.GlobalTick = s.GlobalTick ∧ s1.LastUpdate = s.LastUpdate) ∧
      (showAdvances s → 6625 ≤ n + 1 → ShowDone base s1) := by
  obtain ⟨j, l, i, hj, hl, hi, hn, hsp, hpat, hdir, hT, hI, hL, hLi, hiv, hc⟩ := hinv
  obtain ⟨hp1, hp2⟩ := chain_getD_ne j hj
  rw [← hpat] at hp1 hp2
  have hus : updateSpecialPattern rtc now s = allUpdate rtc s := by
    simp [updateSpecialPattern, hsp]
  rw [hus]
  obtain ⟨b1, b2, b3, b4, b5, b6, b7, b8, b9⟩ := stage_bounds j l i hj hl hi
  by_cases hx : Controller.Crosses s.GlobalTick s.C_ALL
  · have hss : showAdvances s := ⟨hsp, hx⟩
    have hd : Controller.StepDefined s.C_ALL := by
      refine ⟨?_, ?_, ?_⟩ <;> intro hk <;> rw [hpat] at hk <;> interval_cases j <;>
        simp [chain] at hk <;>
        first
          | (simp [hT, hI, stageSteps] at *; done)
          | (simp [hT, hI, stageSteps] at *; omega)
    obtain ⟨px1, hu⟩ := allUpdate_cross rtc s hp1 hp2 hx hd
    by_cases hin : i + 1 < stageSteps j
    · -- a step inside a loop
      have k1 : s.C_ALL.Index + 1 < s.C_ALL.TotalSteps := by rw [hI, hT]; exact hin
      have k2 : s.C_ALL.TotalSteps ≤ 65536 := by rw [hT]; exact b1.le
      have he := Controller.Increment_forward_inner allSegment
        { s.C_ALL with TickDuration := 0 } px1 hdir k1 k2
      refine ⟨_, hu _ _ _ he, fun h => absurd hss h, fun _ _ => ⟨?_, rfl, rfl, rfl⟩,
        fun _ h => ?_⟩
      · exact ⟨j, l, i + 1, hj, hl, hin, by omega, hsp, hpat, hdir, hT, by simp [hI], hL,
          hLi, hiv, hc⟩
      · have := (stage_bounds j l (i + 1) hj hl hin).2.2.2.1
        omega
    · have hwrap : s.C_ALL.TotalSteps ≤ (s.C_ALL.Index + 1) % 65536 := by
        rw [hI, hT, Nat.mod_eq_of_lt (by omega)]
        omega
      by_cases hlo : l + 1 < stageLoops j
      · -- the end of a loop that is not the last
        have he := Controller.Increment_forward_wrap_loop allSegment
          { s.C_ALL with TickDuration := 0 } px1 hdir hwrap
          (by show s.C_ALL.LoopIndex + 1 < s.C_ALL.MaxLoops; rw [hLi, hL]; exact hlo)
          (by show s.C_ALL.MaxLoops ≤ 256; rw [hL]; exact b2.le)
        refine ⟨_, hu _ _ _ he, fun h => absurd hss h, fun _ _ => ⟨?_, rfl, rfl, rfl⟩,
          fun _ h => ?_⟩
        · refine ⟨j, l + 1, 0, hj, hlo, by omega, ?_, hsp, hpat, hdir, hT, rfl, hL,
            by simp [hLi], hiv, hc⟩
          have : i + 1 = stageSteps j := by omega
          rw [Nat.add_mul, hn]
          omega
        · have := b9 hlo
          have : i + 1 = stageSteps j := by omega
          rw [Nat.add_mul] at *
          omega
      · -- the end of the last loop: the segment is cleared and the callback runs
        have he := Controller.Increment_forward_complete allSegment
          { s.C_ALL with TickDuration := 0 } px1 hdir hwrap
          (by show s.C_ALL.MaxLoops ≠ 0; rw [hL]; omega)
          (by show s.C_ALL.MaxLoops ≤ (s.C_ALL.LoopIndex + 1) % 256
              rw [hLi, hL, Nat.mod_eq_of_lt (by omega)]; omega)
          hp1
        have hu1 := hu _ _ _ he
        simp only [allSegment, if_true] at hu1
        have hn1 : n + 1 = stageStart (j + 1) := by
          have h1 : i + 1 = stageSteps j := by omega
          have h2 : l + 1 = stageLoops j := by omega
          rw [← b5, ← h2, Nat.add_mul, hn]
          omega
        refine ⟨_, hu1, fun h => absurd hss h, fun _ hlt => ?_, fun _ hge => ?_⟩
        · have hj6 : j < 6 := by
            by_contra hcon
            have : j = 6 := by omega
            have := b7 this
            omega
          rw [hpat]
          obtain ⟨q1, q2, q3, q4, q5, q6, q7, q8, q9, q10, q11, q12⟩ :=
            onPatternComplete_next rtc
              { s with
                C_ALL := { s.C_ALL with
                  ActivePattern := NONE, Interval := 0, TotalSteps := 0, Index := 0,
                  Direction := FORWARD, TickDuration := 0, Color1 := 0, Color2 := 0,
                  LoopIndex := 0, MaxLoops := 0 }
                WC_Strip := Segment.ColorSet ⟨0, 119, true⟩ (Surface.Color 0 0 0) px1 }
              j hj6 hsp
          refine ⟨⟨j + 1, 0, 0, by omega, ?_, ?_, by omega, q1, q2, q3, q4, q5, q6, q7, q8,
            ?_⟩, q9, q10, q11⟩
          · have : j + 1 < 7 := by omega
            generalize j + 1 = k at this
            interval_cases k <;> simp [stageLoops]
          · have : j + 1 < 7 := by omega
            generalize j + 1 = k at this
            interval_cases k <;> simp [stageSteps]
          · rw [q12, chain_take_succ j hj, hc]
            rfl
        · have hj6 : j = 6 := by
            by_contra hcon
            have := b8 (by omega)
            omega
          subst hj6
          rw [hpat]
          obtain ⟨q1, q2⟩ := onPatternComplete_last rtc
            { s with
              C_ALL := { s.C_ALL with
                ActivePattern := NONE, Interval := 0, TotalSteps := 0, Index := 0,
                Direction := FORWARD, TickDuration := 0, Color1 := 0, Color2 := 0,
                LoopIndex := 0, MaxLoops := 0 }
              WC_Strip := Segment.ColorSet ⟨0, 119, true⟩ (Surface.Color 0 0 0) px1 }
            hsp
          refine ⟨q1, ?_⟩
          have : chain.getD 6 NONE = SNAKE := rfl
          rw [this, q2, hc]
          rfl
  · have hss : ¬ showAdvances s := fun h => hx h.2
    refine ⟨_, allUpdate_nocross rtc s hp1 hp2 hx, fun _ => ?_, fun h => absurd h hss,
      fun h => absurd h hss⟩
    exact ⟨j, l, i, hj, hl, hi, hn, hsp, hpat, hdir, hT, hI, hL, hLi, hiv, hc⟩

theorem others_foldl_wordUpdate (l : List WordId) (s : State) :
    others (l.foldl (fun t w => wordUpdate w t) s) = others s := by
  induction l generalizing s with
  | nil => rfl
  | cons a l ih => rw [List.foldl_cons, ih]; rfl

theorem updateControllers_frame (now : Nat) (s : State) :
    (updateControllers now s).C_ALL = s.C_ALL ∧
    (updateControllers now s).CurrentSpecialPattern = s.CurrentSpecialPattern ∧
    (updateControllers now s).completed = s.completed ∧
    (updateControllers now s).GlobalTick =
      ((now % 4294967296 + 4294967296 - s.LastUpdate % 4294967296) % 4294967296) % 65536 ∧
    (updateControllers now s).LastUpdate = now % 4294967296 := by
  have e := others_foldl_wordUpdate controllerOrder s
  simp only [others, Prod.mk.injEq] at e
  obtain ⟨e1, _, e3, _, _, e6, _, _, e9⟩ := e
  simp only [updateControllers, UpdateTick, e1, e3, e6, e9, and_self]

theorem ShowInv_congr (base : List ControllerPattern) (n : Nat) (s t : State)
    (h1 : t.C_ALL = s.C_ALL) (h2 : t.CurrentSpecialPattern = s.CurrentSpecialPattern)
    (h3 : t.completed = s.completed) (h : ShowInv base n s) : ShowInv base n t := by
  unfold ShowInv at *
  rw [h1, h2, h3]
  exact h

theorem show_pass (base : List ControllerPattern) (n : Nat) (s : State) (i : PassInput)
    (hinv : ShowInv base n s) :
    ∃ s1, pass i s = some s1 ∧
      (¬ showAdvances s → ShowInv base n s1) ∧
      (showAdvances s → n + 1 < 6625 →
        ShowInv base (n + 1) s1 ∧ s1.C_ALL.TickDuration = 0 ∧
          s1.GlobalTick =
            ((i.millisTick % 4294967296 + 4294967296 - s.LastUpdate % 4294967296)
              % 4294967296) % 65536 ∧
          s1.LastUpdate = i.millisTick % 4294967296) ∧
      (showAdvances s → 6625 ≤ n + 1 → ShowDone base s1) := by
  obtain ⟨s1, h1, h2, h3, h4⟩ := show_step base n s i.rtc i.millisShow hinv
  obtain ⟨f1, f2, f3, f4, f5⟩ := updateControllers_frame i.millisTick s1
  refine ⟨updateControllers i.millisTick s1, by simp [pass, h1], ?_, ?_, ?_⟩
  · intro hx
    exact ShowInv_congr base n s1 _ f1 f2 f3 (h2 hx)
  · intro hx hn
    obtain ⟨g1, g2, g3, g4⟩ := h3 hx hn
    exact ⟨ShowInv_congr base _ s1 _ f1 f2 f3 g1, by rw [f1, g2], by rw [f4, g4], f5⟩
  · intro hx hn
    obtain ⟨g1, g2⟩ := h4 hx hn
    exact ⟨by rw [f2, g1], by rw [f3, g2]⟩

theorem done_run (base : List ControllerPattern) (ins : List PassInput) (s : State)
    (hd : ShowDone base s) :
    ∃ s1, runPasses ins s = some s1 ∧ stepCount ins s = 0 ∧ ShowDone base s1 := by
  induction ins generalizing s with
  | nil => exact ⟨s, rfl, rfl, hd⟩
  | cons i ins ih =>
    obtain ⟨f1, f2, f3, f4, f5⟩ := updateControllers_frame i.millisTick s
    have hp : pass i s = some (updateControllers i.millisTick s) := by
      simp [pass, updateSpecialPattern, hd.1]
    have hn : ¬ showAdvances s := by
      intro h
      have := h.1
      rw [hd.1] at this
      exact absurd this (by decide)
    obtain ⟨s1, r1, r2, r3⟩ := ih (updateControllers i.millisTick s)
      ⟨by rw [f2, hd.1], by rw [f3, hd.2]⟩
    refine ⟨s1, ?_, ?_, r3⟩
    · simp only [runPasses, hp, r1]
    · simp only [stepCount, hp, r2, hn, if_false]

theorem show_run (base : List ControllerPattern) (ins : List PassInput) (n : Nat) (s : State)
    (hinv : ShowInv base n s) :
    ∃ s1, runPasses ins s = some s1 ∧ n + stepCount ins s ≤ 6625 ∧
      (n + stepCount ins s < 6625 → ShowInv base (n + stepCount ins s) s1) ∧
      (n + stepCount ins s = 6625 → ShowDone base s1) := by
  have hn : n < 6625 := by
    obtain ⟨j, l, i, hj, hl, hi, hn, _⟩ := hinv
    obtain ⟨_, _, _, b4, _, b6, _⟩ := stage_bounds j l i hj hl hi
    omega
  induction ins generalizing n s with
  | nil => exact ⟨s, rfl, by simp [stepCount]; omega, fun _ => by simpa [stepCount] using hinv,
      fun h => by simp [stepCount] at h; omega⟩
  | cons i ins ih =>
    obtain ⟨s1, p1, p2, p3, p4⟩ := show_pass base n s i hinv
    by_cases hx : showAdvances s
    · by_cases hlt : n + 1 < 6625
      · obtain ⟨s2, r1, r2, r3, r4⟩ := ih (n + 1) s1 (p3 hx hlt).1 hlt
        have e : n + stepCount (i :: ins) s = n + 1 + stepCount ins s1 := by
          simp only [stepCount, p1, hx, if_true]; omega
        rw [e]
        exact ⟨s2, by simp only [runPasses, p1, r1], r2, r3, r4⟩
      · obtain ⟨s2, r1, r2, r3⟩ := done_run base ins s1 (p4 hx (by omega))
        have e : n + stepCount (i :: ins) s = 6625 := by
          simp only [stepCount, p1, hx, if_true, r2]; omega
        rw [e]
        exact ⟨s2, by simp only [runPasses, p1, r1], le_refl _, fun h => absurd h (by omega),
          fun _ => r3⟩
    · obtain ⟨s2, r1, r2, r3, r4⟩ := ih n s1 (p2 hx) hn
      have e : n + stepCount (i :: ins) s = n + stepCount ins s1 := by
        simp only [stepCount, p1, hx, if_false]; omega
      rw [e]
      exact ⟨s2, by simp only [runPasses, p1, r1], r2, r3, r4⟩

theorem setSpecialPattern_show (now : Nat) (s : State) :
    ShowInv s.completed 0 (setSpecialPattern now SP_LIGHT_SHOW s) := by
  have e := others_clearControllers s
  simp only [others, Prod.mk.injEq] at e
  obtain ⟨_, _, _, _, _, _, _, _, e9⟩ := e
  refine ⟨0, 0, 0, by decide, by decide, by decide, rfl, ?_, ?_, ?_, ?_, ?_, ?_, ?_, ?_, ?_⟩ <;>
    simp [setSpecialPattern, allHueCycle, random, Controller.HueCycle, allClear, stageSteps,
      stageLoops, chain, e9]

theorem ShowInv_stageAt (base : List ControllerPattern) (n : Nat) (s : State)
    (h : ShowInv base n s) :
    s.CurrentSpecialPattern = SP_LIGHT_SHOW ∧
    s.C_ALL.ActivePattern = chain.getD (stageAt n) NONE ∧
    s.completed = (chain.take (stageAt n)).reverse ++ base := by
  obtain ⟨j, l, i, hj, hl, hi, hn, hsp, hpat, _, _, _, _, _, _, hc⟩ := h
  have : stageAt n = j := by
    unfold stageAt
    interval_cases j <;> simp [stageSteps, stageLoops, stageStart] at * <;> split_ifs <;> omega
  rw [this]
  exact ⟨hsp, hpat, hc⟩

theorem steady_count (base : List ControllerPattern) (k n t : Nat) (s : State)
    (hinv : ShowInv base n s) (htd : s.C_ALL.TickDuration = 0) (hg : s.GlobalTick = 500)
    (hl : s.LastUpdate = t) (ht : t + 500 * k < 4294967296) (hk : n + k ≤ 6625) :
    stepCount (steadyInputs k t) s = k := by
  induction k generalizing n t s with
  | zero => rfl
  | succ k ih =>
    have hiv : s.C_ALL.Interval ≤ 500 := by
      obtain ⟨j, l, i, _, _, _, _, _, _, _, _, _, _, _, hiv, _⟩ := hinv
      exact hiv
    have hx : showAdvances s := by
      refine ⟨(ShowInv_stageAt base n s hinv).1, ?_⟩
      unfold Controller.Crosses
      rw [htd, hg]
      exact hiv
    obtain ⟨s1, p1, _, p3, _⟩ := show_pass base n s ⟨⟨0, 0⟩, t, t + 500⟩ hinv
    simp only [steadyInputs, stepCount, p1, hx, if_true]
    by_cases hlt : n + 1 < 6625
    · obtain ⟨g1, g2, g3, g4⟩ := p3 hx hlt
      have e3 : s1.GlobalTick = 500 := by rw [g3, hl]; simp only []; omega
      have e4 : s1.LastUpdate = t + 500 := by rw [g4]; simp only []; omega
      rw [ih (n + 1) (t + 500) s1 g1 g2 e3 e4 (by omega) (by omega)]
      omega
    · have : k = 0 := by omega
      subst this
      rfl

theorem showStart_facts :
    showStart.C_ALL.TickDuration = 0 ∧ showStart.GlobalTick = 500 ∧
      showStart.LastUpdate = 500 := by
  decide

/-! ## Birthday sequence -/

theorem others_birthdayCase (k : Nat) (s : State) :
    others ((birthdayCase k).2 s) = others s := by
  unfold birthdayCase
  split <;>
    simp only [others_wordRainbowCycle, others_wordSetSingleColor, others_clearControllers, id]

theorem birthday_step (rtc : Clock) (now k : Nat) (s : State)
    (hsp : s.CurrentSpecialPattern = SP_HAPPY_BIRTHDAY) (hk : s.SpecialPatternIndex = k)
    (hlt : k < 28) (hm : (birthdayCase k).1 ≤ elapsed now s) :
    (k + 1 < 28 →
      (updateHappyBirthday rtc now s).CurrentSpecialPattern = SP_HAPPY_BIRTHDAY ∧
      (updateHappyBirthday rtc now s).SpecialPatternIndex = k + 1) ∧
    (k + 1 = 28 →
      (updateHappyBirthday rtc now s).CurrentSpecialPattern = SP_NONE ∧
      (updateHappyBirthday rtc now s).SpecialPatternIndex = 0 ∧
      ∃ t, t.CurrentSpecialPattern = SP_NONE ∧ t.C_ALL.ActivePattern = NONE ∧
        updateHappyBirthday rtc now s = forceTimeUpdate rtc t) := by
  have e := others_birthdayCase k s
  simp only [others, Prod.mk.injEq] at e
  obtain ⟨_, _, _, _, _, e6, _, e8, _⟩ := e
  have hm' : ¬ elapsed now s < (birthdayCase k).1 := by omega
  unfold elapsed at hm'
  have hmod : (k + 1) % 256 = k + 1 := Nat.mod_eq_of_lt (by omega)
  constructor
  · intro h1
    have h28 : ¬ 28 ≤ k + 1 := by omega
    simp only [updateHappyBirthday, hk, hm', if_false, e8, hmod, ge_iff_le, h28, e6, hsp,
      and_self]
  · intro h1
    have h28 : 28 ≤ k + 1 := by omega
    simp only [updateHappyBirthday, hk, hm', if_false, e8, hmod, ge_iff_le, h28, if_true]
    have hne : ({ (birthdayCase k).2 s with
        SpecialPatternIndex := k + 1
        SpecialPatternLastUpdate := now % 4294967296 } : State).CurrentSpecialPattern ≠
        SP_NONE := by
      show ((birthdayCase k).2 s).CurrentSpecialPattern ≠ SP_NONE
      rw [e6, hsp]
      decide
    obtain ⟨q1, _, q3⟩ := others_clearSpecialPattern_true rtc _ hne
    refine ⟨q1, q3, ?_⟩
    simp only [clearSpecialPattern, clearSpecialPatternWith, hne, if_false, if_true]
    refine ⟨_, rfl, ?_, rfl⟩
    by_cases hu : ((birthdayCase k).2 s).C_ALL.ActivePattern = NONE <;>
      simp [allClear, Controller.Clear, hu]

theorem birthday_run (ins : List (Clock × Nat)) (k : Nat) (s : State)
    (hsp : s.CurrentSpecialPattern = SP_HAPPY_BIRTHDAY) (hk : s.SpecialPatternIndex = k)
    (hlen : k + ins.length ≤ 28) (hm : allMeet ins s = true) :
    (∀ m, m ≤ ins.length → k + m < 28 →
      (birthdayRun (ins.take m) s).CurrentSpecialPattern = SP_HAPPY_BIRTHDAY ∧
      (birthdayRun (ins.take m) s).SpecialPatternIndex = k + m) ∧
    (k + ins.length = 28 → ∀ i, ins.getLast? = some i →
      (birthdayRun ins s).CurrentSpecialPattern = SP_NONE ∧
      (birthdayRun ins s).SpecialPatternIndex = 0 ∧
      ∃ t, t.CurrentSpecialPattern = SP_NONE ∧ t.C_ALL.ActivePattern = NONE ∧
        birthdayRun ins s = forceTimeUpdate i.1 t) := by
  induction ins generalizing k s with
  | nil =>
    refine ⟨fun m hm1 _ => ?_, fun h => ?_⟩
    · have : m = 0 := by simpa using hm1
      subst this
      exact ⟨hsp, hk⟩
    · intro i hi
      simp at hi
  | cons a ins ih =>
    simp only [List.length_cons] at hlen
    simp only [allMeet, Bool.and_eq_true, decide_eq_true_eq] at hm
    rw [hk] at hm
    obtain ⟨st1, st2⟩ := birthday_step a.1 a.2 k s hsp hk (by omega) hm.1
    constructor
    · intro m hm1 hm2
      cases m with
      | zero => exact ⟨hsp, hk⟩
      | succ m =>
        simp only [List.length_cons, Nat.add_le_add_iff_right] at hm1
        obtain ⟨t1, t2⟩ := st1 (by omega)
        have := (ih (k + 1) _ t1 t2 (by omega) hm.2).1 m hm1 (by omega)
        simp only [List.take_succ_cons, birthdayRun, List.foldl_cons] at this ⊢
        rw [this.1, this.2]
        exact ⟨rfl, by omega⟩
    · intro h28 i hi
      simp only [List.length_cons] at h28
      cases ins with
      | nil =>
        simp only [List.getLast?_singleton, Option.some.injEq] at hi
        subst hi
        simp only [List.length_nil] at h28
        exact st2 (by omega)
      | cons b ins =>
        obtain ⟨t1, t2⟩ := st1 (by simp only [List.length_cons] at h28; omega)
        have hi' : (b :: ins).getLast? = some i := by
          rw [List.getLast?_cons_cons] at hi
          exact hi
        have := (ih (k + 1) _ t1 t2 (by omega) hm.2).2 (by omega) i hi'
        simpa only [birthdayRun, List.foldl_cons] using this

theorem setSpecialPattern_birthday (now : Nat) (s : State) :
    (setSpecialPattern now SP_HAPPY_BIRTHDAY s).CurrentSpecialPattern = SP_HAPPY_BIRTHDAY ∧
    (setSpecialPattern now SP_HAPPY_BIRTHDAY s).SpecialPatternIndex = 0 := by
  simp [setSpecialPattern]

/-- C10. After `setSpecialPattern(birthday)`, for any 28 calls of
`updateHappyBirthday` in each of which the elapsed time since the last step
meets the threshold of the step the call finds, the special-pattern state is
still birthday after each of the first 27 calls, the step index being the
number of calls made, and the 28th call sets it to none, resets the step
index to 0 and redraws the time of day: it ends in `forceTimeUpdate` with the
clock reading of that call, after which the active word segments are exactly
those `updateTime` starts for that hour and minute, the whole-strip segment
is idle, and the hour and minute of the reading are recorded as the last
ones shown. -/
theorem C10_birthday_length (s0 : State) (now0 : Nat) (ins : List (Clock × Nat))
    (hlen : ins.length = 28)
    (hm : allMeet ins (setSpecialPattern now0 SP_HAPPY_BIRTHDAY s0) = true) :
    (∀ m, m ≤ 27 →
      (birthdayRun (ins.take m)
        (setSpecialPattern now0 SP_HAPPY_BIRTHDAY s0)).CurrentSpecialPattern =
          SP_HAPPY_BIRTHDAY ∧
      (birthdayRun (ins.take m)
        (setSpecialPattern now0 SP_HAPPY_BIRTHDAY s0)).SpecialPatternIndex = m) ∧
    (birthdayRun ins (setSpecialPattern now0 SP_HAPPY_BIRTHDAY s0)).CurrentSpecialPattern =
      SP_NONE ∧
    (birthdayRun ins (setSpecialPattern now0 SP_HAPPY_BIRTHDAY s0)).SpecialPatternIndex = 0 ∧
    (∀ i, ins.getLast? = some i →
      (∃ t, birthdayRun ins (setSpecialPattern now0 SP_HAPPY_BIRTHDAY s0) =
        forceTimeUpdate i.1 t) ∧
      activation (birthdayRun ins (setSpecialPattern now0 SP_HAPPY_BIRTHDAY s0)) =
        { word := Function.update
            (Function.update (minuteKinds (i.1.minute % 256 / 5))
              (hourWord (adjustedHour (i.1.minute % 256 / 5) (i.1.hour % 256))) HUE_CYCLE)
            C_OCLOCK RAINBOW_CYCLE
          all := NONE
          special := SP_NONE } ∧
      (birthdayRun ins (setSpecialPattern now0 SP_HAPPY_BIRTHDAY s0)).LastHr =
        i.1.hour % 256 ∧
      (birthdayRun ins (setSpecialPattern now0 SP_HAPPY_BIRTHDAY s0)).LastMin =
        i.1.minute % 256) := by
  obtain ⟨h1, h2⟩ := setSpecialPattern_birthday now0 s0
  obtain ⟨r1, r2⟩ := birthday_run ins 0 _ h1 h2 (by omega) hm
  have hne : ins ≠ [] := by
    intro h; rw [h] at hlen; simp at hlen
  have hlast : ins.getLast? = some (ins.getLast hne) := List.getLast?_eq_getLast _ hne
  obtain ⟨q1, q2, _⟩ := r2 (by omega) _ hlast
  refine ⟨fun m hm1 => ?_, q1, q2, fun i hi => ?_⟩
  · have := r1 m (by omega) (by omega)
    simpa using this
  · obtain ⟨_, _, t, t1, t2, t3⟩ := r2 (by omega) i hi
    refine ⟨⟨t, t3⟩, ?_, ?_, ?_⟩
    · rw [t3]
      exact activation_updateTime i.1.hour i.1.minute t (fun _ => t2)
    · rw [t3]
      have e := congrArg (fun x => x.2.2.2.1) (others_updateTime i.1.hour i.1.minute t)
      simp only [others] at e
      unfold forceTimeUpdate
      rw [e]
      simp [clearSpecialPatternWith, t1]
    · rw [t3]
      have e := congrArg (fun x => x.2.2.2.2.1) (others_updateTime i.1.hour i.1.minute t)
      simp only [others] at e
      unfold forceTimeUpdate
      rw [e]
      simp [clearSpecialPatternWith, t1]

/-- The words `updateTime` starts for 7:47: "quarter" and "eight" run the hue
cycle and "past" is idle. -/
theorem redraw_747 :
    (Function.update
      (Function.update (minuteKinds (47 % 256 / 5))
        (hourWord (adjustedHour (47 % 256 / 5) (7 % 256))) HUE_CYCLE)
      C_OCLOCK RAINBOW_CYCLE) C_QUARTER = HUE_CYCLE ∧
    (Function.update
      (Function.update (minuteKinds (47 % 256 / 5))
        (hourWord (adjustedHour (47 % 256 / 5) (7 % 256))) HUE_CYCLE)
      C_OCLOCK RAINBOW_CYCLE) C_HR_EIGHT = HUE_CYCLE ∧
    (Function.update
      (Function.update (minuteKinds (47 % 256 / 5))
        (hourWord (adjustedHour (47 % 256 / 5) (7 % 256))) HUE_CYCLE)
      C_OCLOCK RAINBOW_CYCLE) C_PAST = NONE := by
  decide

/-- Witness of C10: 28 calls 4000 ms apart with the clock reading 7:47,
started from the reference state, end the birthday sequence with the step
index back at 0 and the time redrawn: "quarter" and "eight" run the hue
cycle, "past" is idle, and 7:47 is recorded. -/
theorem C10_birthday_length_witness :
    birthdayInputs.length = 28 ∧
    allMeet birthdayInputs (setSpecialPattern 0 SP_HAPPY_BIRTHDAY reference) = true ∧
    (birthdayRun (birthdayInputs.take 27)
      (setSpecialPattern 0 SP_HAPPY_BIRTHDAY reference)).CurrentSpecialPattern =
        SP_HAPPY_BIRTHDAY ∧
    (birthdayRun birthdayInputs
      (setSpecialPattern 0 SP_HAPPY_BIRTHDAY reference)).CurrentSpecialPattern = SP_NONE ∧
    (birthdayRun birthdayInputs
      (setSpecialPattern 0 SP_HAPPY_BIRTHDAY reference)).SpecialPatternIndex = 0 ∧
    kinds (birthdayRun birthdayInputs (setSpecialPattern 0 SP_HAPPY_BIRTHDAY reference))
      C_QUARTER = HUE_CYCLE ∧
    kinds (birthdayRun birthdayInputs (setSpecialPattern 0 SP_HAPPY_BIRTHDAY reference))
      C_HR_EIGHT = HUE_CYCLE ∧
    kinds (birthdayRun birthdayInputs (setSpecialPattern 0 SP_HAPPY_BIRTHDAY reference))
      C_PAST = NONE ∧
    (birthdayRun birthdayInputs (setSpecialPattern 0 SP_HAPPY_BIRTHDAY reference)).LastHr = 7 ∧
    (birthdayRun birthdayInputs (setSpecialPattern 0 SP_HAPPY_BIRTHDAY reference)).LastMin =
      47 := by
  have h1 : birthdayInputs.length = 28 := by decide
  have h2 : allMeet birthdayInputs (setSpecialPattern 0 SP_HAPPY_BIRTHDAY reference) = true :=
    by decide
  have h3 : birthdayInputs.getLast? = some (⟨7, 47⟩, 112000) := by decide
  obtain ⟨c1, c2, c3, c4⟩ := C10_birthday_length reference 0 birthdayInputs h1 h2
  obtain ⟨_, ha, hh, hmn⟩ := c4 _ h3
  generalize birthdayRun birthdayInputs (setSpecialPattern 0 SP_HAPPY_BIRTHDAY reference) =
    fin at c2 c3 ha hh hmn ⊢
  have hw := congrArg Activation.word ha
  simp only [activation] at hw
  refine ⟨h1, h2, (c1 27 (le_refl _)).1, c2, c3, ?_, ?_, ?_, hh, hmn⟩
  · rw [hw]
    exact redraw_747.1
  · rw [hw]
    exact redraw_747.2.1
  · rw [hw]
    exact redraw_747.2.2

/-- C9. Starting from `setSpecialPattern(light-show)`, over any passes of the
scheduler: while the whole-strip segment has performed fewer than 6625 steps
the light show is on, the segment runs the kind of the chain hue-cycle,
rainbow-cycle, theater-chase, color-wipe, scanner, box-zoom, snake that the
step count selects (2560, 1275, 120, 1200, 480, 30 and 960 steps each), and
the callback has been invoked once for every earlier kind of the chain, in
order; the 6625th step is the seventh completion (snake): the special-pattern
state is none and the callback has been invoked exactly 7 times. -/
theorem C9_light_show_chain (s0 : State) (now : Nat) (ins : List PassInput) :
    ∃ s1, runPasses ins (setSpecialPattern now SP_LIGHT_SHOW s0) = some s1 ∧
      stepCount ins (setSpecialPattern now SP_LIGHT_SHOW s0) ≤ 6625 ∧
      (stepCount ins (setSpecialPattern now SP_LIGHT_SHOW s0) < 6625 →
        s1.CurrentSpecialPattern = SP_LIGHT_SHOW ∧
        s1.C_ALL.ActivePattern =
          chain.getD (stageAt (stepCount ins (setSpecialPattern now SP_LIGHT_SHOW s0))) NONE ∧
        s1.completed =
          (chain.take (stageAt (stepCount ins (setSpecialPattern now SP_LIGHT_SHOW s0)))).reverse
            ++ s0.completed) ∧
      (stepCount ins (setSpecialPattern now SP_LIGHT_SHOW s0) = 6625 →
        s1.CurrentSpecialPattern = SP_NONE ∧
        s1.completed =
          [SNAKE, BOX_ZOOM, SCANNER, COLOR_WIPE, THEATER_CHASE, RAINBOW_CYCLE, HUE_CYCLE]
            ++ s0.completed) := by
  obtain ⟨s1, r1, r2, r3, r4⟩ :=
    show_run s0.completed ins 0 _ (setSpecialPattern_show now s0)
  simp only [Nat.zero_add] at r2 r3 r4
  exact ⟨s1, r1, r2, fun h => ShowInv_stageAt _ _ _ (r3 h), fun h => r4 h⟩

/-- The run of 6625 passes 500 ms apart from `showStart` performs a step in
every pass. -/
theorem steady_full : stepCount (steadyInputs 6625 500) showStart = 6625 := by
  obtain ⟨f1, f2, f3⟩ := showStart_facts
  exact steady_count _ 6625 0 500 showStart
    (setSpecialPattern_show 500 (updateControllers 500 reference)) f1 f2 f3 (by decide)
    (by decide)

/-- Witness of C9: the run of 6625 passes 500 ms apart completes the light
show with exactly seven invocations of the callback, in the order of the
chain. -/
theorem C9_light_show_chain_witness :
    ∃ s1, runPasses (steadyInputs 6625 500) showStart = some s1 ∧
      s1.CurrentSpecialPattern = SP_NONE ∧
      s1.completed =
        [SNAKE, BOX_ZOOM, SCANNER, COLOR_WIPE, THEATER_CHASE, RAINBOW_CYCLE, HUE_CYCLE] := by
  obtain ⟨s1, r1, _, _, r4⟩ :=
    C9_light_show_chain (updateControllers 500 reference) 500 (steadyInputs 6625 500)
  have hc : (updateControllers 500 reference).completed = [] := by decide
  have := r4 steady_full
  rw [hc, List.append_nil] at this
  exact ⟨s1, r1, this.1, this.2⟩

/-! ## Reachable states -/

theorem Settled_congr (s t : State) (h1 : t.C_ALL.ActivePattern = s.C_ALL.ActivePattern)
    (h2 : t.CurrentSpecialPattern = s.CurrentSpecialPattern) (h : Settled s) : Settled t := by
  unfold Settled at *
  rw [h1, h2]
  exact h

theorem Settled_updateTime (h m : Nat) (s : State) (hs : Settled s) :
    Settled (updateTime h m s) := by
  intro _
  rw [updateTime_C_ALL, clearSpecialPatternWith_pattern s hs]

theorem allClear_pattern (s : State) : (allClear s).C_ALL.ActivePattern = NONE := by
  by_cases h : s.C_ALL.ActivePattern = NONE <;> simp [allClear, Controller.Clear, h]

theorem Settled_clearSpecialPattern (rtc : Clock) (b : Bool) (s : State) (hs : Settled s) :
    Settled (clearSpecialPattern rtc b s) := by
  unfold clearSpecialPattern clearSpecialPatternWith
  by_cases h : s.CurrentSpecialPattern = SP_NONE
  · simpa [h] using hs
  · have h1 : Settled
        (allClear { s with CurrentSpecialPattern := SP_NONE, SpecialPatternIndex := 0 }) :=
      fun _ => allClear_pattern _
    cases b
    · simpa [h] using h1
    · simp only [h, if_false, if_true]
      exact Settled_updateTime _ _ _ h1

theorem special_pickRandomDemo (s : State) :
    (pickRandomDemo s).CurrentSpecialPattern = s.CurrentSpecialPattern := by
  simp only [pickRandomDemo]
  split <;>
    simp [allHueCycle, allRainbowCycle, allTheaterChase, allColorWipe, allScanner, allBoxZoom,
      allSnake, drawColors, random, allSegment_numPixels]

theorem Settled_setSpecialPattern (now : Nat) (p : SpecialPattern) (s : State) :
    Settled (setSpecialPattern now p s) := by
  cases p with
  | SP_NONE =>
    intro _
    simp only [setSpecialPattern]
    exact allClear_pattern _
  | SP_DEMO =>
    intro h
    simp only [setSpecialPattern, special_pickRandomDemo] at h
    exact absurd h (by decide)
  | SP_LIGHT_SHOW =>
    intro h
    simp [setSpecialPattern, allHueCycle, random] at h
  | SP_HAPPY_BIRTHDAY =>
    intro h
    simp [setSpecialPattern] at h

theorem Settled_onPatternComplete (rtc : Clock) (k : ControllerPattern) (s : State)
    (hs : Settled s) : Settled (onPatternComplete rtc k s) := by
  have hs1 : ∀ k, Settled { s with completed := k :: s.completed } := fun _ => hs
  by_cases h : s.CurrentSpecialPattern = SP_LIGHT_SHOW
  · have hne : s.CurrentSpecialPattern ≠ SP_NONE := by rw [h]; decide
    unfold onPatternComplete
    simp only []
    rw [if_neg (not_not.mpr h)]
    split
    all_goals first
      | exact Settled_clearSpecialPattern rtc true _ (hs1 _)
      | exact fun hc => absurd hc hne
  · unfold onPatternComplete
    simp only []
    rw [if_pos h]
    exact Settled_clearSpecialPattern rtc true _ (hs1 _)

theorem Settled_allUpdate (rtc : Clock) (s t : State)
    (hne : s.CurrentSpecialPattern ≠ SP_NONE) (h : allUpdate rtc s = some t) :
    Settled t := by
  unfold allUpdate at h
  cases hu : Controller.Update allSegment s.GlobalTick s.C_ALL s.WC_Strip with
  | none => rw [hu] at h; exact absurd h (by simp)
  | some r =>
    rw [hu] at h
    simp only [] at h
    have hs1 : Settled { s with C_ALL := r.1, WC_Strip := r.2.1 } := fun hc => absurd hc hne
    cases hev : r.2.2 with
    | none =>
      rw [hev] at h
      simp only [Option.some.injEq] at h
      rw [← h]
      exact hs1
    | some k =>
      rw [hev] at h
      simp only [Option.some.injEq] at h
      rw [← h]
      exact Settled_onPatternComplete rtc k _ hs1

theorem Settled_updateHappyBirthday (rtc : Clock) (now : Nat) (s : State) (hs : Settled s) :
    Settled (updateHappyBirthday rtc now s) := by
  have e := others_birthdayCase s.SpecialPatternIndex s
  simp only [others, Prod.mk.injEq] at e
  obtain ⟨e1, _, _, _, _, e6, _, _, _⟩ := e
  have hs2 : ∀ a b, Settled { (birthdayCase s.SpecialPatternIndex).2 s with
      SpecialPatternIndex := a, SpecialPatternLastUpdate := b } := by
    intro a b hc
    show ((birthdayCase s.SpecialPatternIndex).2 s).C_ALL.ActivePattern = NONE
    rw [e1]
    exact hs (e6 ▸ hc)
  unfold updateHappyBirthday
  simp only []
  split
  · exact hs
  · split
    · exact Settled_clearSpecialPattern rtc true _ (hs2 _ _)
    · exact hs2 _ _

theorem Settled_updateSpecialPattern (rtc : Clock) (now : Nat) (s t : State) (hs : Settled s)
    (h : updateSpecialPattern rtc now s = some t) : Settled t := by
  unfold updateSpecialPattern at h
  split at h
  · simp only [Option.some.injEq] at h; rw [← h]; exact hs
  · rename_i hsp
    exact Settled_allUpdate rtc s t (by rw [hsp]; decide) h
  · rename_i hsp
    exact Settled_allUpdate rtc s t (by rw [hsp]; decide) h
  · simp only [Option.some.injEq] at h; rw [← h]
    exact Settled_updateHappyBirthday rtc now s hs

theorem Settled_updateControllers (now : Nat) (s : State) (hs : Settled s) :
    Settled (updateControllers now s) := by
  obtain ⟨f1, f2, _⟩ := updateControllers_frame now s
  exact Settled_congr s _ (by rw [f1]) f2 hs

theorem Settled_toggleLightShow (rtc : Clock) (now : Nat) (s : State) (hs : Settled s) :
    Settled (toggleLightShow rtc now s) := by
  unfold toggleLightShow
  split
  · exact Settled_setSpecialPattern now _ s
  · exact Settled_clearSpecialPattern rtc true s hs

/-- In every state the program reaches, the whole-strip segment is idle
whenever the special-pattern state is none. -/
theorem reachable_settled (s : State) (h : Reachable s) : Settled s := by
  induction h with
  | start hsv rnd => exact fun _ => rfl
  | updateTime h m _ ih => exact Settled_updateTime h m _ ih
  | setSpecialPattern now p _ _ => exact Settled_setSpecialPattern now p _
  | clearSpecialPattern rtc b _ ih => exact Settled_clearSpecialPattern rtc b _ ih
  | toggleLightShow rtc now _ ih => exact Settled_toggleLightShow rtc now _ ih
  | updateSpecialPattern rtc now _ hu ih => exact Settled_updateSpecialPattern rtc now _ _ ih hu
  | updateHappyBirthday rtc now _ ih => exact Settled_updateHappyBirthday rtc now _ ih
  | updateControllers now _ ih => exact Settled_updateControllers now _ ih
  | onPatternComplete rtc k _ ih => exact Settled_onPatternComplete rtc k _ ih

end State

/-! ## Tick clock, segment table, clear and unsupported configurations -/

/-- C17. For all 32-bit values `now` and `LastUpdate` whose wrap-around
difference `d = (now - LastUpdate) mod 2^32` is below 65536, `UpdateTick`
sets the tick to exactly `d` and `LastUpdate` to `now`. -/
theorem C17_tick_wraparound (s : State) (now : Nat) (hn : now < 4294967296)
    (hl : s.LastUpdate < 4294967296)
    (hd : (now + 4294967296 - s.LastUpdate) % 4294967296 < 65536) :
    (State.UpdateTick now s).GlobalTick = (now + 4294967296 - s.LastUpdate) % 4294967296 ∧
    (State.UpdateTick now s).LastUpdate = now := by
  simp only [State.UpdateTick]
  omega

/-- Witness of C17: the millisecond counter has wrapped past `2^32` between
two passes, from `2^32 - 10` to 5, and the tick is 15. -/
theorem C17_tick_wraparound_witness :
    (5 : Nat) < 4294967296 ∧
    ({ State.reference with LastUpdate := 4294967286 } : State).LastUpdate < 4294967296 ∧
    (State.UpdateTick 5 { State.reference with LastUpdate := 4294967286 }).GlobalTick = 15 ∧
    (State.UpdateTick 5 { State.reference with LastUpdate := 4294967286 }).LastUpdate = 5 :=
  ⟨by decide, by decide,
    C17_tick_wraparound { State.reference with LastUpdate := 4294967286 } 5 (by decide)
      (by decide) (by decide)⟩

/-- C12 as stated fails: the distinct word segments "to" (55..56) and "past"
(56..59) both own pixel 56. -/
theorem C12_counterexample :
    WordId.C_TO ≠ WordId.C_PAST ∧
    (wordSegment WordId.C_TO).Owns 56 ∧ (wordSegment WordId.C_PAST).Owns 56 ∧
    (wordSegment WordId.C_TO).Overlaps (wordSegment WordId.C_PAST) := by
  decide

/-- C12 as amended. Every word segment of the table has
`start <= end <= 119`, and two distinct word segments own disjoint pixel
ranges unless they are "to" and "past", which share pixel 56; the
whole-strip segment 0..119 overlaps every word segment. -/
theorem C12_segment_table :
    (∀ w : WordId, (wordSegment w).StartPixel ≤ (wordSegment w).EndPixel ∧
      (wordSegment w).EndPixel ≤ 119) ∧
    (∀ w v : WordId, w ≠ v → (wordSegment w).Overlaps (wordSegment v) →
      (w = WordId.C_TO ∧ v = WordId.C_PAST) ∨ (w = WordId.C_PAST ∧ v = WordId.C_TO)) ∧
    (∀ i, (wordSegment WordId.C_TO).Owns i ∧ (wordSegment WordId.C_PAST).Owns i ↔ i = 56) ∧
    (∀ w : WordId, allSegment.Overlaps (wordSegment w)) := by
  refine ⟨by decide, by decide, ?_, by decide⟩
  intro i
  simp only [Segment.Owns, wordSegment]
  omega

/-- C15. On every segment with fewer than 120 pixels and from every prior
state, starting box-zoom or snake leaves every member of the controller as
it was; the start functions have no access to the pixel buffer other than
the colour conversion, so every pixel is as it was too. -/
theorem C15_unsupported_configuration (seg : Segment) (px : Surface)
    (r interval color1 color2 loops : Nat) (c : Controller)
    (hse : seg.StartPixel ≤ seg.EndPixel)
    (hn : seg.EndPixel + 1 - seg.StartPixel < 120) :
    Controller.BoxZoom seg px r interval color1 color2 loops c = c ∧
    Controller.Snake seg interval loops c = c := by
  have h : seg.GetNumPixels < 120 := by
    unfold Segment.GetNumPixels
    omega
  simp [Controller.BoxZoom, Controller.Snake, h]

/-- Witness of C15: box-zoom and snake on the word "minutes" (pixels 36..42)
while it runs a hue cycle. -/
theorem C15_unsupported_configuration_witness :
    (wordSegment WordId.C_MINUTES).StartPixel ≤ (wordSegment WordId.C_MINUTES).EndPixel ∧
    (wordSegment WordId.C_MINUTES).EndPixel + 1 - (wordSegment WordId.C_MINUTES).StartPixel
      < 120 ∧
    Controller.BoxZoom (wordSegment WordId.C_MINUTES) litStrip 0 500 0 0 3
      Controller.reverseHue = Controller.reverseHue ∧
    Controller.Snake (wordSegment WordId.C_MINUTES) 21 4 Controller.reverseHue =
      Controller.reverseHue :=
  ⟨by decide, by decide,
    C15_unsupported_configuration (wordSegment WordId.C_MINUTES) litStrip 0 500 0 0 3
      Controller.reverseHue (by decide) (by decide)⟩

/-- C13 as stated fails: `Clear` on a word segment whose pattern is already
none returns at once, and a lit pixel of its range stays lit. -/
theorem C13_counterexample :
    WordController.initial.ActivePattern = NONE ∧
    (wordSegment WordId.C_IT).Owns 10 ∧
    (WordController.Clear (wordSegment WordId.C_IT) WordController.initial litStrip).2.buf 10
      = 7 ∧
    (Controller.Clear allSegment Controller.initial litStrip).2.buf 10 = 7 := by
  decide

/-- C13 as amended. For every Segment or Word Segment on the strip
(`end <= 119`), every state and every pixel buffer: after `Clear` the pattern
is none; when the pattern was not none before, every pixel of the range is
off (colour 0); when it was none, state and buffer are unchanged. -/
theorem C13_clear_postcondition (seg : Segment) (px : Surface) (he : seg.EndPixel < LED_COUNT) :
    (∀ c : Controller,
      (Controller.Clear seg c px).1.ActivePattern = NONE ∧
      (c.ActivePattern ≠ NONE →
        ∀ i, seg.Owns i → (Controller.Clear seg c px).2.buf i = 0) ∧
      (c.ActivePattern = NONE → Controller.Clear seg c px = (c, px))) ∧
    (∀ w : WordController,
      (WordController.Clear seg w px).1.ActivePattern = NONE ∧
      (w.ActivePattern ≠ NONE →
        ∀ i, seg.Owns i → (WordController.Clear seg w px).2.buf i = 0) ∧
      (w.ActivePattern = NONE → WordController.Clear seg w px = (w, px))) := by
  constructor
  · intro c
    by_cases h : c.ActivePattern = NONE
    · simp [Controller.Clear, h]
    · refine ⟨by simp [Controller.Clear, h], fun _ i hi => ?_, fun h' => absurd h' h⟩
      simp only [Controller.Clear, h, if_false]
      exact Segment.ColorSet_buf seg _ px i he hi.1 hi.2
  · intro w
    by_cases h : w.ActivePattern = NONE
    · simp [WordController.Clear, h]
    · refine ⟨by simp [WordController.Clear, h], fun _ i hi => ?_, fun h' => absurd h' h⟩
      simp only [WordController.Clear, h, if_false]
      exact Segment.ColorSet_buf seg _ px i he hi.1 hi.2

/-- Witness of C13 as amended: clearing the word "it" while it runs a hue
cycle on a fully lit strip turns its pixel 10 off. -/
theorem C13_clear_postcondition_witness :
    (wordSegment WordId.C_IT).EndPixel < LED_COUNT ∧
    WordController.hueWord.ActivePattern ≠ NONE ∧
    (wordSegment WordId.C_IT).Owns 10 ∧
    (WordController.Clear (wordSegment WordId.C_IT) WordController.hueWord litStrip).2.buf 10
      = 0 :=
  ⟨by decide, by decide, by decide,
    ((C13_clear_postcondition (wordSegment WordId.C_IT) litStrip (by decide)).2
      WordController.hueWord).2.1 (by decide) 10 (by decide)⟩

/-- C19 at its failing input. A word controller runs a hue cycle of interval
40 with accumulated time 0; an update with the tick 256 satisfies
`a + t >= v`, but the sum is stored in a `uint8_t` as 0, which is below the
interval: no step is performed, the index and the pixels stay as they were. -/
theorem C19_word_tick_truncated :
    WordController.hueWord.ActivePattern = HUE_CYCLE ∧
    WordController.hueWord.Interval ≤ WordController.hueWord.TickDuration + 256 ∧
    WordController.Update (wordSegment WordId.C_IT) 256 WordController.hueWord litStrip =
      (WordController.hueWord, litStrip) := by
  refine ⟨rfl, by decide, rfl⟩

namespace Controller

/-! ## Shape of an update, idle states and the color wipe -/

/-- The two outcomes of `Increment` on a running pattern: the pattern keeps
running, with no callback and the surface untouched, or the segment is
cleared (every member as at construction) and the callback, if there is one,
receives the kind that ran. -/
theorem Increment_shape (seg : Segment) (c : Controller) (px : Surface)
    (hp : c.ActivePattern ≠ NONE) :
    ((Increment seg c px).1.ActivePattern = c.ActivePattern ∧
      (Increment seg c px).1.TickDuration = c.TickDuration ∧
      (Increment seg c px).2.1 = px ∧ (Increment seg c px).2.2 = none) ∨
    ((Increment seg c px).1 = initial ∧
      (Increment seg c px).2.1 = seg.ColorSet (Surface.Color 0 0 0) px ∧
      (Increment seg c px).2.2 = if seg.OnComplete then some c.ActivePattern else none) := by
  unfold Increment CheckCompletion
  simp only []
  by_cases ho : seg.OnComplete <;> split_ifs <;>
    simp [Clear, hp, initial, ho]

/-- The three outcomes of an `Update` that has a defined result. -/
theorem Update_some (seg : Segment) (tick : Nat) (c : Controller) (px : Surface)
    (r : StepResult) (h : Update seg tick c px = some r) :
    (r = (c, px, none) ∧ (c.ActivePattern = NONE ∨ c.ActivePattern = SINGLE_COLOR)) ∨
    (r = ({ c with TickDuration := (c.TickDuration + tick) % 65536 }, px, none) ∧
      c.ActivePattern ≠ NONE ∧ c.ActivePattern ≠ SINGLE_COLOR ∧ ¬ Crosses tick c) ∨
    (∃ px1, r = Increment seg { c with TickDuration := 0 } px1 ∧
      c.ActivePattern ≠ NONE ∧ c.ActivePattern ≠ SINGLE_COLOR ∧ Crosses tick c) := by
  by_cases hi : c.ActivePattern = NONE ∨ c.ActivePattern = SINGLE_COLOR
  · left
    simp only [Update, hi, if_true, Option.some.injEq] at h
    exact ⟨h.symm, hi⟩
  · right
    have h1 : c.ActivePattern ≠ NONE := fun e => hi (Or.inl e)
    have h2 : c.ActivePattern ≠ SINGLE_COLOR := fun e => hi (Or.inr e)
    by_cases hx : Crosses tick c
    · right
      unfold Crosses at hx
      have hx' : ¬ (c.TickDuration + tick) % 65536 < c.Interval := by omega
      simp only [Update, hi, if_false, hx'] at h
      cases hp : c.ActivePattern with
      | NONE => exact absurd hp h1
      | SINGLE_COLOR => exact absurd hp h2
      | HUE_CYCLE =>
        simp only [hp, HueCycleUpdate, Option.some.injEq] at h
        exact ⟨_, h.symm, by simp, by simp, hx⟩
      | RAINBOW_CYCLE =>
        simp only [hp, RainbowCycleUpdate, Option.some.injEq] at h
        exact ⟨_, h.symm, by simp, by simp, hx⟩
      | THEATER_CHASE =>
        simp only [hp, TheaterChaseUpdate, Option.some.injEq] at h
        exact ⟨_, h.symm, by simp, by simp, hx⟩
      | COLOR_WIPE =>
        simp only [hp, ColorWipeUpdate] at h
        split_ifs at h
        · simp only [Option.some.injEq] at h
          exact ⟨_, h.symm, by simp, by simp, hx⟩
        · simp only [Option.some.injEq] at h
          exact ⟨_, h.symm, by simp, by simp, hx⟩
      | SCANNER =>
        simp only [hp, ScannerUpdate] at h
        split at h
        · exact absurd h (by simp)
        · simp only [Option.some.injEq] at h
          exact ⟨_, h.symm, by simp, by simp, hx⟩
      | BOX_ZOOM =>
        simp only [hp, BoxZoomUpdate] at h
        split at h
        · exact absurd h (by simp)
        · simp only [Option.some.injEq] at h
          exact ⟨_, h.symm, by simp, by simp, hx⟩
      | SNAKE =>
        simp only [hp, SnakeUpdate, Option.some.injEq] at h
        exact ⟨_, h.symm, by simp, by simp, hx⟩
    · left
      have hx' : (c.TickDuration + tick) % 65536 < c.Interval := by
        unfold Crosses at hx; omega
      simp only [Update, hi, if_false, hx', if_true, Option.some.injEq] at h
      exact ⟨h.symm, h1, h2, hx⟩

/-- The part of the idle-state invariant that the code keeps. -/
theorem idle_update (seg : Segment) (tick : Nat) (c : Controller) (px : Surface)
    (r : StepResult) (h : Update seg tick c px = some r)
    (hc : (c.ActivePattern = NONE → c.Index = 0 ∧ c.TickDuration = 0) ∧
      (c.ActivePattern = SINGLE_COLOR → c.Index = 0)) :
    (r.1.ActivePattern = NONE → r.1.Index = 0 ∧ r.1.TickDuration = 0) ∧
      (r.1.ActivePattern = SINGLE_COLOR → r.1.Index = 0) := by
  rcases Update_some seg tick c px r h with ⟨e, _⟩ | ⟨e, h1, h2, _⟩ | ⟨px1, e, h1, h2, _⟩
  · rw [e]; exact hc
  · rw [e]
    exact ⟨fun hn => absurd hn h1, fun hn => absurd hn h2⟩
  · rw [e]
    rcases Increment_shape seg { c with TickDuration := 0 } px1 h1 with
      ⟨q1, _, _, _⟩ | ⟨q1, _, _⟩
    · rw [q1]
      exact ⟨fun hn => absurd hn h1, fun hn => absurd hn h2⟩
    · rw [q1]
      exact ⟨fun _ => ⟨rfl, rfl⟩, fun _ => rfl⟩

/-- C14 as stated fails: `SetSingleColor` does not touch the accumulated
time. After a hue cycle of interval 40 has been updated with a tick of 10 ms,
`SetSingleColor` leaves a reachable state whose pattern is single-color and
whose accumulated time is 10. -/
theorem C14_counterexample :
    Reach allSegment staleSingle ∧ staleSingle.ActivePattern = SINGLE_COLOR ∧
      staleSingle.Index = 0 ∧ staleSingle.TickDuration = 10 := by
  refine ⟨?_, rfl, rfl, rfl⟩
  have h1 : Reach allSegment (HueCycle 7 40 FORWARD 0 initial) :=
    Reach.hueCycle 7 40 FORWARD 0 Reach.start
  have h2 : Update allSegment 10 (HueCycle 7 40 FORWARD 0 initial) litStrip =
      some ({ HueCycle 7 40 FORWARD 0 initial with TickDuration := 10 }, litStrip, none) := rfl
  exact Reach.setSingleColor 5 litStrip (Reach.update 10 litStrip h1 h2)

/-- C14 as amended. In every Segment state reachable from the initial state
by pattern starts, `SetSingleColor`, `Clear` and `Update` calls: whenever the
pattern is none the step index and the accumulated time are 0, and whenever
the pattern is single-color the step index is 0. -/
theorem C14_idle_state (seg : Segment) (c : Controller) (h : Reach seg c) :
    (c.ActivePattern = NONE → c.Index = 0 ∧ c.TickDuration = 0) ∧
    (c.ActivePattern = SINGLE_COLOR → c.Index = 0) := by
  induction h with
  | start => exact ⟨fun _ => ⟨rfl, rfl⟩, fun _ => rfl⟩
  | hueCycle r interval dir loops _ _ =>
    exact ⟨fun h => absurd h (by simp [HueCycle]), fun h => absurd h (by simp [HueCycle])⟩
  | rainbowCycle interval dir loops _ _ =>
    exact ⟨fun h => absurd h (by simp [RainbowCycle]),
      fun h => absurd h (by simp [RainbowCycle])⟩
  | theaterChase px r interval color1 color2 dir loops _ _ =>
    exact ⟨fun h => absurd h (by simp [TheaterChase]),
      fun h => absurd h (by simp [TheaterChase])⟩
  | colorWipe px r interval color1 color2 dir loops _ _ =>
    exact ⟨fun h => absurd h (by simp [ColorWipe]), fun h => absurd h (by simp [ColorWipe])⟩
  | scanner px r interval color1 color2 loops _ _ =>
    exact ⟨fun h => absurd h (by simp [Scanner]), fun h => absurd h (by simp [Scanner])⟩
  | boxZoom px r interval color1 color2 loops _ ih =>
    unfold BoxZoom
    split
    · exact ih
    · exact ⟨fun h => absurd h (by simp), fun h => absurd h (by simp)⟩
  | snake interval loops _ ih =>
    unfold Snake
    split
    · exact ih
    · exact ⟨fun h => absurd h (by simp), fun h => absurd h (by simp)⟩
  | setSingleColor color px _ _ =>
    exact ⟨fun h => absurd h (by simp [SetSingleColor]), fun _ => rfl⟩
  | clear px _ ih =>
    unfold Clear
    split
    · exact ih
    · exact ⟨fun _ => ⟨rfl, rfl⟩, fun _ => rfl⟩
  | update tick px _ hu ih => exact idle_update seg tick _ px _ hu ih

/-- Witness of C14 as amended, at the state of the counterexample: its
pattern is single-color and its step index is 0. -/
theorem C14_idle_state_witness :
    Reach allSegment staleSingle ∧ staleSingle.ActivePattern = SINGLE_COLOR ∧
      staleSingle.Index = 0 :=
  have h : Reach allSegment staleSingle :=
    Reach.setSingleColor 5 litStrip
      (Reach.update 10 litStrip (Reach.hueCycle 7 40 FORWARD 0 Reach.start)
        (rfl : Update allSegment 10 (HueCycle 7 40 FORWARD 0 initial) litStrip =
          some ({ HueCycle 7 40 FORWARD 0 initial with TickDuration := 10 }, litStrip, none)))
  ⟨h, rfl, (C14_idle_state allSegment staleSingle h).2 rfl⟩

/-- One crossing update of a forward color wipe in its first half paints the
pixel `StartPixel + Index` with the first colour and advances the index. -/
theorem colorWipe_step (seg : Segment) (tick : Nat) (c : Controller) (px : Surface) (N : Nat)
    (hp : c.ActivePattern = COLOR_WIPE) (hd : c.Direction = FORWARD)
    (ht : c.TotalSteps = 2 * N) (hn : N < 256) (hi : c.Index < N) (hx : Crosses tick c) :
    Update seg tick c px =
      some ({ c with TickDuration := 0, Index := c.Index + 1 },
        (px.setPixelColor (seg.StartPixel + c.Index) c.Color1).showStrip, none) := by
  unfold Crosses at hx
  have hx' : ¬ (c.TickDuration + tick) % 65536 < c.Interval := by omega
  have hh : (c.TotalSteps / 2) % 256 = N := by omega
  have hinc := Increment_forward_inner seg { c with TickDuration := 0 }
    (px.setPixelColor (seg.StartPixel + c.Index) c.Color1).showStrip hd
    (by show c.Index + 1 < c.TotalSteps; omega) (by show c.TotalSteps ≤ 65536; omega)
  have hu : Update seg tick c px =
      some (Increment seg { c with TickDuration := 0 }
        (px.setPixelColor (seg.StartPixel + c.Index) c.Color1).showStrip) := by
    simp [Update, hp, hx', ColorWipeUpdate, hh, hi]
  rw [hu, hinc]

/-- The run of a forward color wipe through steps of its first half. -/
theorem colorWipe_run (seg : Segment) (N : Nat) (hn : N < 256)
    (he : seg.StartPixel + N ≤ LED_COUNT) :
    ∀ (ticks : List Nat) (c : Controller) (px : Surface),
      c.ActivePattern = COLOR_WIPE → c.Direction = FORWARD → c.TotalSteps = 2 * N →
      c.Index + ticks.length ≤ N → allCross seg ticks c px →
      ∃ res, run seg ticks c px = some res ∧
        res.1.ActivePattern = COLOR_WIPE ∧ res.1.Index = c.Index + ticks.length ∧
        res.2.2 = [] ∧
        ∀ i, res.2.1.buf i =
          if seg.StartPixel + c.Index ≤ i ∧ i < seg.StartPixel + c.Index + ticks.length
          then c.Color1 else px.buf i := by
  intro ticks
  induction ticks with
  | nil =>
    intro c px hp _ _ _ _
    refine ⟨(c, px, []), rfl, hp, rfl, rfl, fun i => ?_⟩
    have : ¬ (seg.StartPixel + c.Index ≤ i ∧ i < seg.StartPixel + c.Index + 0) := by omega
    simp only [List.length_nil, this, if_false]
  | cons t ts ih =>
    intro c px hp hd ht hk hx
    simp only [List.length_cons] at hk
    have hs := colorWipe_step seg t c px N hp hd ht hn (by omega) hx.1
    have hx2 := hx.2
    rw [hs] at hx2
    obtain ⟨res, hr, r1, r2, r3, r4⟩ :=
      ih { c with TickDuration := 0, Index := c.Index + 1 }
        (px.setPixelColor (seg.StartPixel + c.Index) c.Color1).showStrip hp hd ht
        (by show c.Index + 1 + ts.length ≤ N; omega) hx2
    refine ⟨(res.1, res.2.1, res.2.2), ?_, r1, ?_, r3, fun i => ?_⟩
    · simp only [run, hs, hr, Option.toList, List.nil_append]
    · show res.1.Index = c.Index + (ts.length + 1)
      rw [r2]
      show c.Index + 1 + ts.length = c.Index + (ts.length + 1)
      omega
    · show res.2.1.buf i = _
      rw [r4 i]
      simp only [List.length_cons, Surface.showStrip, Surface.setPixelColor]
      have hm : (seg.StartPixel + c.Index) % 65536 = seg.StartPixel + c.Index := by
        unfold LED_COUNT at he
        omega
      have hl : seg.StartPixel + c.Index < LED_COUNT := by omega
      rw [hm]
      by_cases h1 : seg.StartPixel + (c.Index + 1) ≤ i ∧
          i < seg.StartPixel + (c.Index + 1) + ts.length
      · have h2 : seg.StartPixel + c.Index ≤ i ∧
            i < seg.StartPixel + c.Index + (ts.length + 1) := by omega
        rw [if_pos h1, if_pos h2]
      · rw [if_neg h1]
        by_cases h3 : i = seg.StartPixel + c.Index
        · have h2 : seg.StartPixel + c.Index ≤ i ∧
              i < seg.StartPixel + c.Index + (ts.length + 1) := by omega
          rw [if_pos ⟨h3, hl⟩, if_pos h2]
        · have h2 : ¬ (seg.StartPixel + c.Index ≤ i ∧
              i < seg.StartPixel + c.Index + (ts.length + 1)) := by omega
          rw [if_neg (fun h => h3 h.1), if_neg h2]

/-- C20. A color wipe is freshly started in the forward direction on a segment
`start ≤ end` of the strip, of `N = end + 1 - start` pixels, and `k ≤ N`
updates follow that each cross the interval (the `k` steps). Then the run
returns, the step index is `k`, no completion was signalled, and in the
buffer the pixels `start .. start + k - 1` hold the first colour while every
other pixel holds what it held before the first step. -/
theorem C20_color_wipe_first_half (seg : Segment) (px : Surface)
    (r interval color1 color2 loops : Nat) (c0 : Controller) (ticks : List Nat)
    (hse : seg.StartPixel ≤ seg.EndPixel) (he : seg.EndPixel < LED_COUNT)
    (hk : ticks.length ≤ seg.EndPixel + 1 - seg.StartPixel)
    (hx : allCross seg ticks (ColorWipe seg px r interval color1 color2 FORWARD loops c0) px) :
    ∃ res, run seg ticks (ColorWipe seg px r interval color1 color2 FORWARD loops c0) px =
        some res ∧
      res.1.ActivePattern = COLOR_WIPE ∧ res.1.Index = ticks.length ∧ res.2.2 = [] ∧
      ∀ i, res.2.1.buf i =
        if seg.StartPixel ≤ i ∧ i < seg.StartPixel + ticks.length
        then (ColorWipe seg px r interval color1 color2 FORWARD loops c0).Color1
        else px.buf i := by
  have hN : seg.GetNumPixels = seg.EndPixel + 1 - seg.StartPixel := by
    unfold Segment.GetNumPixels
    unfold LED_COUNT at he
    omega
  obtain ⟨res, h1, h2, h3, h4, h5⟩ :=
    colorWipe_run seg (seg.EndPixel + 1 - seg.StartPixel)
      (by unfold LED_COUNT at he; omega) (by unfold LED_COUNT at *; omega) ticks
      (ColorWipe seg px r interval color1 color2 FORWARD loops c0) px rfl rfl
      (by show seg.GetNumPixels * 2 = _; rw [hN]; omega)
      (by show 0 + ticks.length ≤ _; omega) hx
  refine ⟨res, h1, h2, ?_, h4, fun i => ?_⟩
  · rw [h3]
    show 0 + ticks.length = ticks.length
    omega
  · rw [h5 i]
    show (if seg.StartPixel + 0 ≤ i ∧ i < seg.StartPixel + 0 + ticks.length then _ else _) = _
    simp only [Nat.add_zero]

/-- Witness of C20: on the two pixels 10..11 of the word IT, painted 7, a color
wipe with the colours 1 and 2 and interval 30 takes two steps; pixels 10 and
11 then hold colour 1 and pixels 9 and 12 still hold 7. -/
theorem C20_color_wipe_first_half_witness :
    ∃ res, run (wordSegment WordId.C_IT) [30, 30] wipeIt litStrip = some res ∧
      res.1.Index = 2 ∧ res.2.1.buf 10 = 1 ∧ res.2.1.buf 11 = 1 ∧ res.2.1.buf 9 = 7 ∧
      res.2.1.buf 12 = 7 := by
  obtain ⟨res, h1, _, h3, _, h5⟩ :=
    C20_color_wipe_first_half (wordSegment WordId.C_IT) litStrip 0 30 1 2 0 initial [30, 30]
      (by decide) (by decide) (by decide) ⟨by decide, by decide, trivial⟩
  exact ⟨res, h1, h3, by rw [h5 10]; decide, by rw [h5 11]; decide, by rw [h5 9]; decide,
    by rw [h5 12]; decide⟩

end Controller

namespace State

/-! ## Chaining through the completion callback -/

theorem onPatternComplete_strip (rtc : Clock) (s : State) (j : Nat) (hj : j < 6)
    (hsp : s.CurrentSpecialPattern = SP_LIGHT_SHOW) :
    (onPatternComplete rtc (chain.getD j NONE) s).WC_Strip = s.WC_Strip := by
  interval_cases j <;>
    simp [onPatternComplete, hsp, chain, allRainbowCycle, allTheaterChase, allColorWipe,
      allScanner, allBoxZoom, allSnake, drawColors, random, allSegment_numPixels]

/-- After `clearSpecialPattern(true)` on a state whose whole-strip segment is
idle, the whole-strip segment is idle. -/
theorem clearSpecialPattern_idle (rtc : Clock) (s : State)
    (h : s.C_ALL.ActivePattern = NONE) :
    (clearSpecialPattern rtc true s).C_ALL.ActivePattern = NONE := by
  have hs : Settled s := fun _ => h
  have h1 := Settled_clearSpecialPattern rtc true s hs
  by_cases hn : s.CurrentSpecialPattern = SP_NONE
  · have e : clearSpecialPattern rtc true s = s := by
      unfold clearSpecialPattern clearSpecialPatternWith
      rw [if_pos hn]
    rw [e]
    exact h
  · exact h1 (others_clearSpecialPattern_true rtc s hn).1

/-- C16. An `Update` call of the whole-strip segment performs the step that
completes the final loop (the member function returns having invoked the
completion callback with pattern `k`), and the callback starts a new pattern
on that segment (the segment is not idle after the callback). Then the call
returns, the completed pattern is one of the first six of the chain and the
segment holds its successor with step index 0, loop count 0 and accumulated
time 0; the pixel surface, with its record of calls, is exactly as the
completing step and its clear left it: the new pattern has written no pixel
and made no flush. -/
theorem C16_no_double_step (rtc : Clock) (s : State) (r : StepResult) (k : ControllerPattern)
    (hu : Controller.Update allSegment s.GlobalTick s.C_ALL s.WC_Strip = some r)
    (hk : r.2.2 = some k)
    (hn : (onPatternComplete rtc k
      { s with C_ALL := r.1, WC_Strip := r.2.1 }).C_ALL.ActivePattern ≠ NONE) :
    ∃ t, allUpdate rtc s = some t ∧
      (∃ j, j < 6 ∧ k = chain.getD j NONE ∧
        t.C_ALL.ActivePattern = chain.getD (j + 1) NONE) ∧
      t.C_ALL.Index = 0 ∧ t.C_ALL.LoopIndex = 0 ∧ t.C_ALL.TickDuration = 0 ∧
      t.WC_Strip = r.2.1 ∧
      ∃ px1, r.2.1 = allSegment.ColorSet (Surface.Color 0 0 0) px1 := by
  have ha : allUpdate rtc s =
      some (onPatternComplete rtc k { s with C_ALL := r.1, WC_Strip := r.2.1 }) := by
    unfold allUpdate
    rw [hu]
    simp only [hk]
  have hr : r.1 = Controller.initial ∧
      ∃ px1, r.2.1 = allSegment.ColorSet (Surface.Color 0 0 0) px1 := by
    rcases Controller.Update_some allSegment s.GlobalTick s.C_ALL s.WC_Strip r hu with
      ⟨e, _⟩ | ⟨e, _⟩ | ⟨px1, e, h1, _, _⟩
    · rw [e] at hk
      exact absurd hk (by simp)
    · rw [e] at hk
      exact absurd hk (by simp)
    · rcases Controller.Increment_shape allSegment { s.C_ALL with TickDuration := 0 } px1 h1 with
        ⟨_, _, _, q⟩ | ⟨q1, q2, _⟩
      · rw [e] at hk
        rw [q] at hk
        exact absurd hk (by simp)
      · rw [e]
        exact ⟨q1, px1, q2⟩
  obtain ⟨hr1, px1, hr2⟩ := hr
  have hidle : ∀ l : List ControllerPattern,
      (clearSpecialPattern rtc true
        { s with C_ALL := r.1, WC_Strip := r.2.1, completed := l }).C_ALL.ActivePattern =
        NONE := by
    intro l
    apply clearSpecialPattern_idle
    show r.1.ActivePattern = NONE
    rw [hr1]
    rfl
  by_cases hsp : s.CurrentSpecialPattern = SP_LIGHT_SHOW
  · have hsp1 : ({ s with C_ALL := r.1, WC_Strip := r.2.1 } : State).CurrentSpecialPattern =
        SP_LIGHT_SHOW := hsp
    have key : ∀ j, j < 6 → k = chain.getD j NONE →
        ∃ t, allUpdate rtc s = some t ∧
          (∃ j, j < 6 ∧ k = chain.getD j NONE ∧
            t.C_ALL.ActivePattern = chain.getD (j + 1) NONE) ∧
          t.C_ALL.Index = 0 ∧ t.C_ALL.LoopIndex = 0 ∧ t.C_ALL.TickDuration = 0 ∧
          t.WC_Strip = r.2.1 ∧
          ∃ px1, r.2.1 = allSegment.ColorSet (Surface.Color 0 0 0) px1 := by
      intro j hj hkj
      obtain ⟨_, n2, _, _, n5, _, n7, _, n9, _⟩ :=
        onPatternComplete_next rtc { s with C_ALL := r.1, WC_Strip := r.2.1 } j hj hsp1
      have n10 := onPatternComplete_strip rtc { s with C_ALL := r.1, WC_Strip := r.2.1 } j hj hsp1
      refine ⟨_, ha, ⟨j, hj, hkj, ?_⟩, ?_, ?_, ?_, ?_, px1, hr2⟩
      · rw [hkj]; exact n2
      · rw [hkj]; exact n5
      · rw [hkj]; exact n7
      · rw [hkj, n9]
        show r.1.TickDuration = 0
        rw [hr1]
        rfl
      · rw [hkj]; exact n10
    cases k with
    | HUE_CYCLE => exact key 0 (by decide) rfl
    | RAINBOW_CYCLE => exact key 1 (by decide) rfl
    | THEATER_CHASE => exact key 2 (by decide) rfl
    | COLOR_WIPE => exact key 3 (by decide) rfl
    | SCANNER => exact key 4 (by decide) rfl
    | BOX_ZOOM => exact key 5 (by decide) rfl
    | SNAKE =>
      exfalso
      apply hn
      have e : onPatternComplete rtc SNAKE { s with C_ALL := r.1, WC_Strip := r.2.1 } =
          clearSpecialPattern rtc true
            { s with C_ALL := r.1, WC_Strip := r.2.1, completed := SNAKE :: s.completed } := by
        unfold onPatternComplete
        exact ite_self _
      rw [e]
      exact hidle _
    | NONE =>
      exfalso
      apply hn
      have e : onPatternComplete rtc NONE { s with C_ALL := r.1, WC_Strip := r.2.1 } =
          clearSpecialPattern rtc true
            { s with C_ALL := r.1, WC_Strip := r.2.1, completed := NONE :: s.completed } := by
        unfold onPatternComplete
        exact ite_self _
      rw [e]
      exact hidle _
    | SINGLE_COLOR =>
      exfalso
      apply hn
      have e : onPatternComplete rtc SINGLE_COLOR { s with C_ALL := r.1, WC_Strip := r.2.1 } =
          clearSpecialPattern rtc true
            { s with C_ALL := r.1, WC_Strip := r.2.1,
                     completed := SINGLE_COLOR :: s.completed } := by
        unfold onPatternComplete
        exact ite_self _
      rw [e]
      exact hidle _
  · exfalso
    apply hn
    have e : onPatternComplete rtc k { s with C_ALL := r.1, WC_Strip := r.2.1 } =
        clearSpecialPattern rtc true
          { s with C_ALL := r.1, WC_Strip := r.2.1, completed := k :: s.completed } := by
      unfold onPatternComplete
      exact if_pos hsp
    rw [e]
    exact hidle _

/-- Witness of C16: the light show at the last step of the tenth loop of its
hue cycle. The update returns with the rainbow cycle started, all three
counters at 0. -/
theorem C16_no_double_step_witness :
    ∃ t, allUpdate ⟨0, 0⟩ showEnd = some t ∧ t.C_ALL.ActivePattern = RAINBOW_CYCLE ∧
      t.C_ALL.Index = 0 ∧ t.C_ALL.LoopIndex = 0 ∧ t.C_ALL.TickDuration = 0 := by
  obtain ⟨t, h1, ⟨j, hj, hk, h2⟩, h3, h4, h5, _⟩ :=
    C16_no_double_step ⟨0, 0⟩ showEnd
      (Controller.HueCycleUpdate allSegment { showEnd.C_ALL with TickDuration := 0 }
        showEnd.WC_Strip)
      HUE_CYCLE rfl rfl (by decide)
  refine ⟨t, h1, ?_, h3, h4, h5⟩
  rw [h2]
  interval_cases j <;> first | rfl | exact absurd hk (by decide)

end State

namespace WordController

theorem Update_pattern (seg : Segment) (tick : Nat) (w : WordController) (px : Surface) :
    (Update seg tick w px).1.ActivePattern = w.ActivePattern := by
  unfold Update
  cases hp : w.ActivePattern <;> simp [hp, HueCycleUpdate, RainbowCycleUpdate, Increment] <;>
    split_ifs <;> simp [hp]

end WordController

namespace State

/-! ## Exclusivity of the whole strip and the words -/

theorem kinds_wordUpdate (w : WordId) (s : State) : kinds (wordUpdate w s) = kinds s := by
  funext v
  by_cases h : v = w
  · subst h
    simp [kinds, wordUpdate, onWord, WordController.Update_pattern]
  · simp [kinds, wordUpdate, onWord, Function.update_noteq h]

theorem kinds_foldl_wordUpdate (l : List WordId) (s : State) :
    kinds (l.foldl (fun t w => wordUpdate w t) s) = kinds s := by
  induction l generalizing s with
  | nil => rfl
  | cons a l ih => rw [List.foldl_cons, ih, kinds_wordUpdate]

theorem kinds_updateControllers (now : Nat) (s : State) :
    kinds (updateControllers now s) = kinds s := by
  unfold updateControllers
  exact kinds_foldl_wordUpdate controllerOrder s

theorem word_pickRandomDemo (s : State) : (pickRandomDemo s).word = s.word := by
  simp only [pickRandomDemo]
  split <;>
    simp [allHueCycle, allRainbowCycle, allTheaterChase, allColorWipe, allScanner, allBoxZoom,
      allSnake, drawColors, random, allSegment_numPixels]

theorem kinds_setSpecialPattern (now : Nat) (p : SpecialPattern) (s : State) :
    kinds (setSpecialPattern now p s) = fun _ => NONE := by
  have h : (setSpecialPattern now p s).word = (clearControllers s).word := by
    cases p
    · simp [setSpecialPattern, allClear]
    · simp [setSpecialPattern, allClear, word_pickRandomDemo]
    · simp [setSpecialPattern, allClear, allHueCycle, random]
    · simp [setSpecialPattern, allClear]
  rw [← kinds_clearControllers s]
  funext w
  simp only [kinds, h]

theorem special_setSpecialPattern (now : Nat) (p : SpecialPattern) (s : State) :
    (setSpecialPattern now p s).CurrentSpecialPattern = p := by
  cases p
  · simp [setSpecialPattern]
  · simp [setSpecialPattern, special_pickRandomDemo]
  · simp [setSpecialPattern, allHueCycle, random]
  · simp [setSpecialPattern]

theorem Partitioned_settled (s : State) (h : Partitioned s) : Settled s :=
  fun hs => h.1 (Or.inl hs)

theorem Partitioned_idle (s : State) (h1 : s.CurrentSpecialPattern = SP_NONE)
    (h2 : s.C_ALL.ActivePattern = NONE) : Partitioned s := by
  refine ⟨fun _ => h2, fun h => ?_⟩
  rw [h1] at h
  exact absurd h (by decide)

theorem Partitioned_updateTime (h m : Nat) (s : State) (hs : Partitioned s) :
    Partitioned (updateTime h m s) :=
  Partitioned_idle _ (updateTime_special h m s)
    (Settled_updateTime h m s (Partitioned_settled s hs) (updateTime_special h m s))

theorem Partitioned_clearSpecialPattern (rtc : Clock) (b : Bool) (s : State)
    (hs : Partitioned s) : Partitioned (clearSpecialPattern rtc b s) := by
  unfold clearSpecialPattern clearSpecialPatternWith
  by_cases h : s.CurrentSpecialPattern = SP_NONE
  · simpa [h] using hs
  · have h1 : Partitioned
        (allClear { s with CurrentSpecialPattern := SP_NONE, SpecialPatternIndex := 0 }) :=
      Partitioned_idle _ rfl (allClear_pattern _)
    cases b
    · simpa [h] using h1
    · simp only [h, if_false, if_true]
      exact Partitioned_updateTime _ _ _ h1

theorem Partitioned_setSpecialPattern (now : Nat) (p : SpecialPattern) (s : State) :
    Partitioned (setSpecialPattern now p s) := by
  refine ⟨fun h => ?_, fun _ w => congrFun (kinds_setSpecialPattern now p s) w⟩
  rw [special_setSpecialPattern] at h
  rcases h with h | h
  · subst h
    simp only [setSpecialPattern]
    exact allClear_pattern _
  · subst h
    simp only [setSpecialPattern]
    exact allClear_pattern _

theorem Partitioned_onPatternComplete (rtc : Clock) (k : ControllerPattern) (s : State)
    (hs : Partitioned s) : Partitioned (onPatternComplete rtc k s) := by
  have hs1 : ∀ k, Partitioned { s with completed := k :: s.completed } := fun _ => hs
  have hc : ∀ k, Partitioned
      (clearSpecialPattern rtc true { s with completed := k :: s.completed }) :=
    fun k => Partitioned_clearSpecialPattern rtc true _ (hs1 k)
  by_cases h : s.CurrentSpecialPattern = SP_LIGHT_SHOW
  · have hw := hs.2 (Or.inr h)
    have hshow : ∀ t : State, t.CurrentSpecialPattern = SP_LIGHT_SHOW → t.word = s.word →
        Partitioned t := by
      intro t h1 h2
      refine ⟨fun hc => ?_, fun _ w => ?_⟩
      · rw [h1] at hc
        exact absurd hc (by decide)
      · rw [h2]
        exact hw w
    unfold onPatternComplete
    simp only []
    rw [if_neg (not_not.mpr h)]
    split
    · exact hshow _ h rfl
    · exact hshow _ (by simp [allTheaterChase, drawColors, random, h])
        (by simp [allTheaterChase, drawColors, random])
    · exact hshow _ (by simp [allColorWipe, drawColors, random, h])
        (by simp [allColorWipe, drawColors, random])
    · exact hshow _ (by simp [allScanner, drawColors, random, h])
        (by simp [allScanner, drawColors, random])
    · exact hshow _ (by simp [allBoxZoom, drawColors, random, h, allSegment_numPixels])
        (by simp [allBoxZoom, drawColors, random, allSegment_numPixels])
    · exact hshow _ h rfl
    · exact hc _
    · exact hc _
  · unfold onPatternComplete
    simp only []
    rw [if_pos h]
    exact hc _

theorem Partitioned_allUpdate (rtc : Clock) (s t : State) (hs : Partitioned s)
    (hne : s.CurrentSpecialPattern = SP_DEMO ∨ s.CurrentSpecialPattern = SP_LIGHT_SHOW)
    (h : allUpdate rtc s = some t) : Partitioned t := by
  unfold allUpdate at h
  cases hu : Controller.Update allSegment s.GlobalTick s.C_ALL s.WC_Strip with
  | none => rw [hu] at h; exact absurd h (by simp)
  | some r =>
    rw [hu] at h
    simp only [] at h
    have h1 : Partitioned { s with C_ALL := r.1, WC_Strip := r.2.1 } := by
      refine ⟨fun hc => ?_, fun _ => hs.2 hne⟩
      exfalso
      have hc1 : s.CurrentSpecialPattern = SP_NONE ∨
          s.CurrentSpecialPattern = SP_HAPPY_BIRTHDAY := hc
      rcases hne with a | a <;> rw [a] at hc1 <;> exact absurd hc1 (by decide)
    cases hk : r.2.2 with
    | none =>
      rw [hk] at h
      simp only [Option.some.injEq] at h
      rw [← h]
      exact h1
    | some k =>
      rw [hk] at h
      simp only [Option.some.injEq] at h
      rw [← h]
      exact Partitioned_onPatternComplete rtc k _ h1

theorem Partitioned_updateHappyBirthday (rtc : Clock) (now : Nat) (s : State)
    (hs : Partitioned s) (hb : s.CurrentSpecialPattern = SP_HAPPY_BIRTHDAY) :
    Partitioned (updateHappyBirthday rtc now s) := by
  have e := others_birthdayCase s.SpecialPatternIndex s
  simp only [others, Prod.mk.injEq] at e
  obtain ⟨e1, _, _, _, _, e6, _, _, _⟩ := e
  have hs2 : ∀ a b, Partitioned { (birthdayCase s.SpecialPatternIndex).2 s with
      SpecialPatternIndex := a, SpecialPatternLastUpdate := b } := by
    intro a b
    refine ⟨fun _ => ?_, fun hc => ?_⟩
    · show ((birthdayCase s.SpecialPatternIndex).2 s).C_ALL.ActivePattern = NONE
      rw [e1]
      exact hs.1 (Or.inr hb)
    · exfalso
      have hc1 : ((birthdayCase s.SpecialPatternIndex).2 s).CurrentSpecialPattern = SP_DEMO ∨
          ((birthdayCase s.SpecialPatternIndex).2 s).CurrentSpecialPattern = SP_LIGHT_SHOW := hc
      rw [e6, hb] at hc1
      exact absurd hc1 (by decide)
  unfold updateHappyBirthday
  simp only []
  split_ifs
  · exact hs
  · exact Partitioned_clearSpecialPattern rtc true _ (hs2 _ _)
  · exact hs2 _ _

theorem Partitioned_updateSpecialPattern (rtc : Clock) (now : Nat) (s t : State)
    (hs : Partitioned s) (h : updateSpecialPattern rtc now s = some t) : Partitioned t := by
  unfold updateSpecialPattern at h
  split at h
  · simp only [Option.some.injEq] at h; rw [← h]; exact hs
  · rename_i hsp
    exact Partitioned_allUpdate rtc s t hs (Or.inl hsp) h
  · rename_i hsp
    exact Partitioned_allUpdate rtc s t hs (Or.inr hsp) h
  · rename_i hsp
    simp only [Option.some.injEq] at h
    rw [← h]
    exact Partitioned_updateHappyBirthday rtc now s hs hsp

theorem Partitioned_updateControllers (now : Nat) (s : State) (hs : Partitioned s) :
    Partitioned (updateControllers now s) := by
  obtain ⟨f1, f2, _⟩ := updateControllers_frame now s
  have f3 := kinds_updateControllers now s
  refine ⟨fun h => ?_, fun h w => ?_⟩
  · rw [f1]
    rw [f2] at h
    exact hs.1 h
  · rw [f2] at h
    have := congrFun f3 w
    simp only [kinds] at this
    rw [this]
    exact hs.2 h w

theorem Partitioned_toggleLightShow (rtc : Clock) (now : Nat) (s : State)
    (hs : Partitioned s) : Partitioned (toggleLightShow rtc now s) := by
  unfold toggleLightShow
  split_ifs
  · exact Partitioned_setSpecialPattern _ _ _
  · exact Partitioned_clearSpecialPattern _ _ _ hs

theorem dispatched_partitioned (s : State) (h : Dispatched s) : Partitioned s := by
  induction h with
  | start hsv rnd => exact Partitioned_idle _ rfl rfl
  | updateTime h m _ ih => exact Partitioned_updateTime h m _ ih
  | setSpecialPattern now p _ _ => exact Partitioned_setSpecialPattern now p _
  | clearSpecialPattern rtc b _ ih => exact Partitioned_clearSpecialPattern rtc b _ ih
  | toggleLightShow rtc now _ ih => exact Partitioned_toggleLightShow rtc now _ ih
  | updateSpecialPattern rtc now _ ht ih =>
    exact Partitioned_updateSpecialPattern rtc now _ _ ih ht
  | updateHappyBirthday rtc now _ hb ih =>
    exact Partitioned_updateHappyBirthday rtc now _ ih hb
  | updateControllers now _ ih => exact Partitioned_updateControllers now _ ih
  | onPatternComplete rtc k _ ih => exact Partitioned_onPatternComplete rtc k _ ih

/-- C11. In every state the program reaches from the initial state through
`updateTime`, `setSpecialPattern`, `clearSpecialPattern`, `toggleLightShow`,
`updateSpecialPattern`, `updateControllers`, the completion callback, and
`updateHappyBirthday` as the program calls it (from `updateSpecialPattern`
under `case HAPPY_BIRTHDAY`), the whole-strip segment and a word segment are never active at the
same time: if the pattern of the whole-strip segment is not none then the
pattern of every word segment is none. -/
theorem C11_exclusive (s : State) (h : Dispatched s) :
    s.C_ALL.ActivePattern ≠ NONE → ∀ w, (s.word w).ActivePattern = NONE := by
  intro hc
  obtain ⟨p1, p2⟩ := dispatched_partitioned s h
  cases hsp : s.CurrentSpecialPattern with
  | SP_NONE => exact absurd (p1 (Or.inl hsp)) hc
  | SP_HAPPY_BIRTHDAY => exact absurd (p1 (Or.inr hsp)) hc
  | SP_DEMO => exact p2 (Or.inl hsp)
  | SP_LIGHT_SHOW => exact p2 (Or.inr hsp)

/-- Witness of C11: the light show entered after one pass of
`updateControllers`. The whole-strip segment runs the hue cycle and every
word segment is idle. -/
theorem C11_exclusive_witness :
    Dispatched showStart ∧ showStart.C_ALL.ActivePattern ≠ NONE ∧
      ∀ w, (showStart.word w).ActivePattern = NONE :=
  have hd : Dispatched showStart :=
    Dispatched.setSpecialPattern 500 SP_LIGHT_SHOW
      (Dispatched.updateControllers 500 (Dispatched.start _ _))
  ⟨hd, by decide, C11_exclusive showStart hd (by decide)⟩

end State

/-! ## Wheel, the tables of box-zoom and snake, birthday gating -/

/-- C25. For every `pos` in 0..255, `Wheel(pos)` is the HSV colour of the hue
`pos * 65535 / 255`; the division is exact, the hue equals `pos * 257` and is
below 65536, so nothing is lost in the `uint16_t`. The hue of 0 is 0, the hue
of 255 is 65535, and the hue is strictly increasing in `pos`. -/
theorem C25_wheel_hue (px : Surface) :
    (∀ pos, pos < 256 →
      Segment.Wheel px pos = px.ColorHSV (Segment.wheelHue pos) ∧
      Segment.wheelHue pos = pos * 65535 / 255 ∧
      pos * 65535 % 255 = 0 ∧
      Segment.wheelHue pos = pos * 257 ∧
      pos * 257 < 65536) ∧
    Segment.wheelHue 0 = 0 ∧ Segment.wheelHue 255 = 65535 ∧
    (∀ p q, p < q → q < 256 → Segment.wheelHue p < Segment.wheelHue q) := by
  have key : ∀ pos, pos < 256 → Segment.wheelHue pos = pos * 257 := by
    intro pos h
    unfold Segment.wheelHue
    rw [Nat.mod_eq_of_lt h]
    have e : pos * 65535 / 255 = pos * 257 := by omega
    rw [e]
    exact Nat.mod_eq_of_lt (by omega)
  refine ⟨fun pos h => ⟨rfl, ?_, by omega, key pos h, by omega⟩, by decide, by decide, ?_⟩
  · rw [key pos h]
    omega
  · intro p q hpq hq
    rw [key p (by omega), key q hq]
    omega

/-- C28. The order table of the snake has 120 entries and contains every
pixel index 0..119 exactly once; a snake step at index `i < 240` looks the
table up at a position below 120, which is `i` itself during the growth
phase (`i < 120`), so the growth phase writes every pixel of the strip
exactly once. -/
theorem C28_snake_permutation :
    Controller.snakePixels.length = 120 ∧
    Controller.snakePixels.Nodup ∧
    (∀ p, p ∈ Controller.snakePixels ↔ p < 120) ∧
    (∀ p, p < 120 → Controller.snakePixels.count p = 1) ∧
    (∀ i, i < 240 → Controller.snakeSlot i < 120) ∧
    (∀ i, i < 120 → Controller.snakeSlot i = i) ∧
    (∀ p, p < 120 →
      ((List.range 120).map
        (fun i => Controller.snakePixels.getD (Controller.snakeSlot i) 0)).count p = 1) := by
  have hnd : Controller.snakePixels.Nodup := by decide
  have hmem : ∀ p, p ∈ Controller.snakePixels ↔ p < 120 := by
    intro p
    constructor
    · intro h
      revert p
      decide
    · intro h
      revert p h
      decide
  refine ⟨rfl, hnd, hmem, ?_, ?_, ?_, ?_⟩
  · intro p hp
    exact List.count_eq_one_of_mem hnd ((hmem p).2 hp)
  · intro i hi
    unfold Controller.snakeSlot
    split_ifs <;> omega
  · intro i hi
    unfold Controller.snakeSlot
    split_ifs <;> omega
  · intro p hp
    have e : (List.range 120).map
        (fun i => Controller.snakePixels.getD (Controller.snakeSlot i) 0) =
        Controller.snakePixels := by rfl
    rw [e]
    exact List.count_eq_one_of_mem hnd ((hmem p).2 hp)

theorem Surface.foldl_setPixelColor_calls (l : List Nat) (color : Nat) (px : Surface) :
    (l.foldl (fun p n => p.setPixelColor n color) px).calls =
      (l.reverse.map (fun n => SurfaceCall.setPixelColor (n % 65536) color)) ++ px.calls := by
  induction l generalizing px with
  | nil => rfl
  | cons a l ih =>
    rw [List.foldl_cons, ih]
    simp [Surface.setPixelColor]

namespace Controller

theorem boxZoomPixels_lt (k : Nat) (l : List Nat) (h : boxZoomPixels k = some l) :
    ∀ p ∈ l, p < 120 := by
  by_cases hk : k ≤ 9
  · interval_cases k <;> simp only [boxZoomPixels, Option.some.injEq] at h <;> subst h <;> decide
  · have : boxZoomPixels k = none := by
      unfold boxZoomPixels
      split <;> first | omega | rfl
    rw [this] at h
    exact absurd h (by simp)

theorem boxZoomColor_spec (c : Controller) (h : c.Index ≤ 9) :
    boxZoomColor c = specBoxZoomColor c.Index c.Color1 c.Color2 := by
  unfold boxZoomColor specBoxZoomColor
  generalize c.Index = k at h
  interval_cases k <;> simp [Surface.Color]

/-- C23. For every step index `k` in 0..9 the box-zoom step uses the pixel
table of the step at index `9 - k`, writes every pixel of that table with the
first colour when `k` is 0, 2 or 4, with the second colour when `k` is 1 or
3, and with off (0) when `k >= 5`, flushes, and writes no other pixel. -/
theorem C23_box_zoom_step (seg : Segment) (c : Controller) (px : Surface)
    (hk : c.Index ≤ 9) :
    ∃ pixels px1,
      boxZoomPixels c.Index = some pixels ∧ boxZoomPixels (9 - c.Index) = some pixels ∧
      BoxZoomUpdate seg c px = some (Increment seg c px1) ∧
      (∀ p, px1.buf p =
        if p ∈ pixels then specBoxZoomColor c.Index c.Color1 c.Color2 else px.buf p) ∧
      px1.calls =
        SurfaceCall.showStrip ::
          (pixels.reverse.map (fun n =>
            SurfaceCall.setPixelColor n (specBoxZoomColor c.Index c.Color1 c.Color2))) ++
          px.calls := by
  obtain ⟨pixels, hp⟩ := boxZoomPixels_isSome c.Index hk
  have hlt := boxZoomPixels_lt c.Index pixels hp
  have hsym : boxZoomPixels (9 - c.Index) = some pixels := by
    rw [← hp]
    generalize c.Index = k at hk
    interval_cases k <;> rfl
  refine ⟨pixels, (pixels.foldl (fun p n => p.setPixelColor n (boxZoomColor c)) px).showStrip,
    hp, hsym, ?_, ?_, ?_⟩
  · simp only [BoxZoomUpdate, hp]
  · intro p
    show (pixels.foldl (fun p n => p.setPixelColor n (boxZoomColor c)) px).buf p = _
    rw [Surface.foldl_setPixelColor_buf _ _ _ _ (fun n hn => by have := hlt n hn; omega),
      boxZoomColor_spec c hk]
    by_cases hm : p ∈ pixels
    · have : p < LED_COUNT := hlt p hm
      simp [hm, this]
    · simp [hm]
  · show SurfaceCall.showStrip ::
      (pixels.foldl (fun p n => p.setPixelColor n (boxZoomColor c)) px).calls = _
    rw [Surface.foldl_setPixelColor_calls, boxZoomColor_spec c hk]
    have e : pixels.reverse.map
        (fun n => SurfaceCall.setPixelColor (n % 65536)
          (specBoxZoomColor c.Index c.Color1 c.Color2)) =
        pixels.reverse.map
          (fun n => SurfaceCall.setPixelColor n
            (specBoxZoomColor c.Index c.Color1 c.Color2)) := by
      apply List.map_congr_left
      intro n hn
      have := hlt n (List.mem_reverse.mp hn)
      rw [Nat.mod_eq_of_lt (by omega)]
    rw [e]
    rfl

/-- Witness of C23: the first step of a box zoom with the colours 1 and 2 on
a strip painted 7 writes colour 1 to the outer ring (pixel 0) and leaves the
next ring (pixel 13) alone. -/
theorem C23_box_zoom_step_witness :
    zoomStart.Index ≤ 9 ∧
    ∃ px1, BoxZoomUpdate allSegment zoomStart litStrip =
        some (Increment allSegment zoomStart px1) ∧
      px1.buf 0 = 1 ∧ px1.buf 13 = 7 := by
  obtain ⟨pixels, px1, h1, _, h3, h4, _⟩ :=
    C23_box_zoom_step allSegment zoomStart litStrip (by decide)
  have e : pixels = (boxZoomPixels 0).getD [] := by
    have h1' : boxZoomPixels 0 = some pixels := h1
    rw [h1']
    rfl
  refine ⟨by decide, px1, h3, ?_, ?_⟩
  · rw [h4 0, e]
    decide
  · rw [h4 13, e]
    decide

/-! ## Runs that track the pixel buffer -/

/-- A property of the step count, the members and the surface that every
crossing update carries one step further is carried through a run of crossing
updates. -/
theorem run_track (seg : Segment) (M : Nat) (P : Nat → Controller → Surface → Prop)
    (hstep : ∀ n t c px, n < M → P n c px → Crosses t c →
      ∃ r, Update seg t c px = some r ∧ r.2.2 = none ∧ P (n + 1) r.1 r.2.1) :
    ∀ (ticks : List Nat) (n : Nat) (c : Controller) (px : Surface),
      n + ticks.length ≤ M → P n c px → allCross seg ticks c px →
      ∃ res, run seg ticks c px = some res ∧ res.2.2 = [] ∧
        P (n + ticks.length) res.1 res.2.1 := by
  intro ticks
  induction ticks with
  | nil =>
    intro n c px _ hP _
    exact ⟨(c, px, []), rfl, rfl, hP⟩
  | cons t ts ih =>
    intro n c px hlen hP hx
    simp only [List.length_cons] at hlen
    obtain ⟨r, hu, hn, hP1⟩ := hstep n t c px (by omega) hP hx.1
    have hx2 := hx.2
    rw [hu] at hx2
    obtain ⟨res, hr, hr2, hP2⟩ := ih (n + 1) r.1 r.2.1 (by omega) hP1 hx2
    refine ⟨(res.1, res.2.1, r.2.2.toList ++ res.2.2), ?_, ?_, ?_⟩
    · simp only [run, hu, hr]
    · show r.2.2.toList ++ res.2.2 = []
      rw [hn, hr2]
      rfl
    · have e : n + (t :: ts).length = n + 1 + ts.length := by
        simp only [List.length_cons]
        omega
      rw [e]
      exact hP2

/-- With loop limit 0, accumulated time 0 and ticks that each reach the
interval, every update of a run crosses the interval. -/
theorem allCross_steady (seg : Segment) (p : ControllerPattern) (hp1 : p ≠ NONE)
    (hp2 : p ≠ SINGLE_COLOR) (v : Nat) :
    ∀ (ticks : List Nat) (c : Controller) (px : Surface),
      ForeverInv p c → c.TickDuration = 0 → c.Interval = v →
      (∀ t ∈ ticks, v ≤ t ∧ t < 65536) → allCross seg ticks c px := by
  intro ticks
  induction ticks with
  | nil => intro _ _ _ _ _ _; trivial
  | cons t ts ih =>
    intro c px hinv htd hv ht
    have ht1 := ht t (List.mem_cons_self _ _)
    have hx : Crosses t c := by
      unfold Crosses
      rw [htd, hv, Nat.zero_add, Nat.mod_eq_of_lt ht1.2]
      exact ht1.1
    refine ⟨hx, ?_⟩
    obtain ⟨r, hu, hinv2, _⟩ := forever_step seg p t c px hp1 hp2 hinv
    rw [hu]
    simp only []
    have hpat : c.ActivePattern = p := hinv.1
    rcases Update_some seg t c px r hu with ⟨_, h⟩ | ⟨_, _, _, h⟩ | ⟨px1, e, _, _, _⟩
    · rcases h with h | h
      · exact absurd (hpat ▸ h) hp1
      · exact absurd (hpat ▸ h) hp2
    · exact absurd hx h
    · obtain ⟨j, hj, _⟩ := Increment_forever seg { c with TickDuration := 0 } px1 hinv.2.1
      rw [hj] at e
      have e1 : r.1.TickDuration = 0 := by rw [e]
      have e2 : r.1.Interval = v := by rw [e]; exact hv
      exact ih r.1 r.2.1 hinv2 e1 e2 (fun t' ht' => ht t' (List.mem_cons_of_mem _ ht'))

/-! ## Box zoom and snake over a full cycle -/

/-- A crossing update of a forward pattern without loop limit whose step
function has a result advances the index cyclically. -/
theorem Increment_cycle (seg : Segment) (c : Controller) (px : Surface) (T n : Nat)
    (hd : c.Direction = FORWARD) (ht : c.TotalSteps = T) (hT : T < 65536)
    (hm : c.MaxLoops = 0) (hn : n < T) (hi : c.Index = n) :
    Increment seg c px = ({ c with Index := if n + 1 = T then 0 else n + 1 }, px, none) := by
  by_cases h : n + 1 = T
  · rw [if_pos h]
    exact Increment_forward_wrap_forever seg c px hd
      (by rw [hi, ht, Nat.mod_eq_of_lt (by omega)]; omega) hm
  · rw [if_neg h, ← hi]
    exact Increment_forward_inner seg c px hd (by rw [hi, ht]; omega) (by rw [ht]; omega)

theorem boxZoom_update (seg : Segment) (t : Nat) (c : Controller) (px : Surface)
    (pixels : List Nat) (hp : c.ActivePattern = BOX_ZOOM)
    (hk : boxZoomPixels c.Index = some pixels) (hx : Crosses t c) :
    Update seg t c px =
      some (Increment seg { c with TickDuration := 0 }
        (pixels.foldl (fun p n => p.setPixelColor n (boxZoomColor c)) px).showStrip) := by
  unfold Crosses at hx
  have hx' : ¬ (c.TickDuration + t) % 65536 < c.Interval := by omega
  simp [Update, hp, hx', BoxZoomUpdate, hk]
  rfl

theorem boxZoom_cover :
    ∀ p, p < 120 →
      p ∈ (boxZoomPixels 5).getD [] ∨ p ∈ (boxZoomPixels 6).getD [] ∨
      p ∈ (boxZoomPixels 7).getD [] ∨ p ∈ (boxZoomPixels 8).getD [] ∨
      p ∈ (boxZoomPixels 9).getD [] := by
  decide

/-- C27. The five pixel tables of the box-zoom steps 0..4 have 40, 32, 24, 16
and 8 entries, are pairwise disjoint and together contain every pixel index
0..119 exactly once. A box zoom freshly started on the whole strip with loop
limit 0 and updated ten times across its interval (one complete cycle)
returns with the step index back at 0 and every one of the 120 pixels off. -/
theorem C27_box_zoom_partition (px : Surface) (r interval color1 color2 : Nat)
    (c0 : Controller) (ticks : List Nat) (hlen : ticks.length = 10)
    (hx : allCross allSegment ticks (BoxZoom allSegment px r interval color1 color2 0 c0) px) :
    ((List.range 5).map (fun k => ((boxZoomPixels k).getD []).length) = [40, 32, 24, 16, 8]) ∧
    (∀ j, j < 5 → ∀ k, k < 5 → j ≠ k →
      ∀ p ∈ (boxZoomPixels j).getD [], p ∉ (boxZoomPixels k).getD []) ∧
    boxZoomRings.Nodup ∧ (∀ p, p ∈ boxZoomRings ↔ p < 120) ∧
    (∀ p, p < 120 → boxZoomRings.count p = 1) ∧
    ∃ res, run allSegment ticks (BoxZoom allSegment px r interval color1 color2 0 c0) px =
        some res ∧
      res.1.ActivePattern = BOX_ZOOM ∧ res.1.Index = 0 ∧ res.2.2 = [] ∧
      ∀ p, p < 120 → res.2.1.buf p = 0 := by
  have hnd : boxZoomRings.Nodup := by decide
  have hmem : ∀ p, p ∈ boxZoomRings ↔ p < 120 := by
    intro p
    constructor
    · intro h
      revert p
      decide
    · intro h
      revert p h
      decide
  have hdis : ∀ j, j < 5 → ∀ k, k < 5 → j ≠ k →
      ∀ p ∈ (boxZoomPixels j).getD [], p ∉ (boxZoomPixels k).getD [] := by
    intro j hj k hk hne
    interval_cases j <;> interval_cases k <;> first | exact absurd rfl hne | decide
  refine ⟨by decide, hdis, hnd, hmem,
    fun p hp => List.count_eq_one_of_mem hnd ((hmem p).2 hp), ?_⟩
  have hstep : ∀ n t c px, n < 10 →
      (c.ActivePattern = BOX_ZOOM ∧ c.Direction = FORWARD ∧ c.TotalSteps = 10 ∧
        c.MaxLoops = 0 ∧ c.Index = (if n = 10 then 0 else n) ∧
        ∀ k l p, 5 ≤ k → k < n → boxZoomPixels k = some l → p ∈ l → px.buf p = 0) →
      Crosses t c →
      ∃ r, Update allSegment t c px = some r ∧ r.2.2 = none ∧
        (r.1.ActivePattern = BOX_ZOOM ∧ r.1.Direction = FORWARD ∧ r.1.TotalSteps = 10 ∧
          r.1.MaxLoops = 0 ∧ r.1.Index = (if n + 1 = 10 then 0 else n + 1) ∧
          ∀ k l p, 5 ≤ k → k < n + 1 → boxZoomPixels k = some l → p ∈ l →
            r.2.1.buf p = 0) := by
    intro n t c px hn ⟨h1, h2, h3, h4, h5, h6⟩ hc
    have hi : c.Index = n := by rw [h5, if_neg (by omega)]
    obtain ⟨pixels, hp⟩ := boxZoomPixels_isSome c.Index (by omega)
    have hlt := boxZoomPixels_lt c.Index pixels hp
    have hu := boxZoom_update allSegment t c px pixels h1 hp hc
    rw [Increment_cycle allSegment { c with TickDuration := 0 } _ 10 n h2 h3 (by omega) h4 hn hi]
      at hu
    refine ⟨_, hu, rfl, h1, h2, h3, h4, rfl, ?_⟩
    intro k l p hk5 hkn hl hpl
    show (pixels.foldl (fun p n => p.setPixelColor n (boxZoomColor c)) px).buf p = 0
    rw [Surface.foldl_setPixelColor_buf _ _ _ _ (fun m hm => by have := hlt m hm; omega)]
    have hcol : boxZoomColor c = 0 := by
      unfold boxZoomColor
      rw [hi, if_pos (by omega)]
      rfl
    by_cases hkn2 : k < n
    · split_ifs
      · exact hcol
      · exact h6 k l p hk5 hkn2 hl hpl
    · have hkeq : k = n := by omega
      rw [hkeq, ← hi, hp] at hl
      simp only [Option.some.injEq] at hl
      subst hl
      have : p < LED_COUNT := hlt p hpl
      rw [if_pos ⟨hpl, this⟩]
      exact hcol
  have hN : allSegment.GetNumPixels = 120 := by decide
  have hstart : (BoxZoom allSegment px r interval color1 color2 0 c0).ActivePattern = BOX_ZOOM ∧
      (BoxZoom allSegment px r interval color1 color2 0 c0).Direction = FORWARD ∧
      (BoxZoom allSegment px r interval color1 color2 0 c0).TotalSteps = 10 ∧
      (BoxZoom allSegment px r interval color1 color2 0 c0).MaxLoops = 0 ∧
      (BoxZoom allSegment px r interval color1 color2 0 c0).Index = (if 0 = 10 then 0 else 0) ∧
      ∀ k l p, 5 ≤ k → k < 0 → boxZoomPixels k = some l → p ∈ l → px.buf p = 0 := by
    simp [BoxZoom, hN]
  obtain ⟨res, h1, h2, h3, _, _, _, h7, h8⟩ :=
    run_track allSegment 10 _ hstep ticks 0 _ px (by omega) hstart hx
  rw [hlen] at h7 h8
  refine ⟨res, h1, h3, h7, h2, ?_⟩
  intro p hp
  rcases boxZoom_cover p hp with h | h | h | h | h
  · exact h8 5 _ p (by omega) (by omega) rfl h
  · exact h8 6 _ p (by omega) (by omega) rfl h
  · exact h8 7 _ p (by omega) (by omega) rfl h
  · exact h8 8 _ p (by omega) (by omega) rfl h
  · exact h8 9 _ p (by omega) (by omega) rfl h

/-- Witness of C27: ten updates 500 ms apart of a box zoom of interval 500
on a strip painted 7 leave pixel 60 off. -/
theorem C27_box_zoom_partition_witness :
    ∃ res, run allSegment (List.replicate 10 500) zoomStart litStrip = some res ∧
      res.1.Index = 0 ∧ res.2.1.buf 60 = 0 := by
  have hx : allCross allSegment (List.replicate 10 500) zoomStart litStrip :=
    allCross_steady allSegment BOX_ZOOM (by decide) (by decide) 500 _ zoomStart litStrip
      ⟨rfl, rfl, ⟨by decide, by decide, by decide⟩, fun _ => ⟨rfl, by decide⟩⟩ rfl rfl
      (by decide)
  obtain ⟨res, h1, _, h3, _, h5⟩ :=
    (C27_box_zoom_partition litStrip 0 500 1 2 initial (List.replicate 10 500) rfl hx).2.2.2.2.2
  exact ⟨res, h1, h3, h5 60 (by decide)⟩

theorem snake_update (seg : Segment) (t : Nat) (c : Controller) (px : Surface)
    (hp : c.ActivePattern = SNAKE) (hx : Crosses t c) :
    Update seg t c px =
      some (Increment seg { c with TickDuration := 0 }
        (px.setPixelColor (snakePixels.getD (snakeSlot c.Index) 0)
          (snakeColor px c.Index)).showStrip) := by
  unfold Crosses at hx
  have hx' : ¬ (c.TickDuration + t) % 65536 < c.Interval := by omega
  simp [Update, hp, hx', SnakeUpdate]

theorem snakePixels_lt : ∀ k, snakePixels.getD k 0 < 120 := by
  intro k
  by_cases h : k < 120
  · revert k
    decide
  · rw [List.getD_eq_default _ _ (by simp [snakePixels]; omega)]
    omega

theorem snakePixels_mem : ∀ p, p < 120 → p ∈ snakePixels := by
  decide

theorem snakePixels_onto (p : Nat) (hp : p < 120) :
    ∃ k, k < 120 ∧ snakePixels.getD k 0 = p := by
  obtain ⟨k, hk, e⟩ := List.getElem_of_mem (snakePixels_mem p hp)
  exact ⟨k, hk, by rw [List.getD_eq_getElem _ _ hk]; exact e⟩

/-- C24. On the whole strip the snake step at index `120 + j` (`j < 120`)
writes off to the pixel that the step at index `119 - j` writes with its hue
colour, the table entry `119 - j`. A snake freshly started with loop limit 0
and updated 240 times across its interval (one full cycle) returns with the
step index back at 0 and with every pixel of the table, which is every pixel
of the strip, off. -/
theorem C24_snake_erases (px : Surface) (interval : Nat) (c0 : Controller)
    (ticks : List Nat) (hlen : ticks.length = 240)
    (hx : allCross allSegment ticks (Snake allSegment interval 0 c0) px) :
    (∀ j, j < 120 → ∀ (c : Controller) (q : Surface), c.Index = 120 + j →
      SnakeUpdate allSegment c q =
        Increment allSegment c (q.setPixelColor (snakePixels.getD (119 - j) 0) 0).showStrip) ∧
    (∀ j, j < 120 → ∀ (c : Controller) (q : Surface), c.Index = 119 - j →
      SnakeUpdate allSegment c q =
        Increment allSegment c
          (q.setPixelColor (snakePixels.getD (119 - j) 0)
            (q.ColorHSV ((119 - j) * 65535 / 119))).showStrip) ∧
    ∃ res, run allSegment ticks (Snake allSegment interval 0 c0) px = some res ∧
      res.1.ActivePattern = SNAKE ∧ res.1.Index = 0 ∧ res.2.2 = [] ∧
      (∀ k, k < 120 → res.2.1.buf (snakePixels.getD k 0) = 0) ∧
      ∀ p, p < 120 → res.2.1.buf p = 0 := by
  refine ⟨?_, ?_, ?_⟩
  · intro j hj c q hi
    have e1 : snakeSlot (120 + j) = 119 - j := by
      unfold snakeSlot
      rw [if_pos (by omega)]
      omega
    have e2 : snakeColor q (120 + j) = 0 := by
      unfold snakeColor
      rw [if_pos (by omega)]
      rfl
    simp only [SnakeUpdate, hi, e1, e2]
  · intro j hj c q hi
    have e1 : snakeSlot (119 - j) = 119 - j := by
      unfold snakeSlot
      rw [if_neg (by omega)]
      omega
    have e2 : snakeColor q (119 - j) = q.ColorHSV ((119 - j) * 65535 / 119) := by
      unfold snakeColor
      rw [if_neg (by omega), Nat.mod_eq_of_lt (by omega)]
    simp only [SnakeUpdate, hi, e1, e2]
  · have hstep : ∀ n t c px, n < 240 →
        (c.ActivePattern = SNAKE ∧ c.Direction = FORWARD ∧ c.TotalSteps = 240 ∧
          c.MaxLoops = 0 ∧ c.Index = (if n = 240 then 0 else n) ∧
          ∀ j, 120 ≤ j → j < n → px.buf (snakePixels.getD (239 - j) 0) = 0) →
        Crosses t c →
        ∃ r, Update allSegment t c px = some r ∧ r.2.2 = none ∧
          (r.1.ActivePattern = SNAKE ∧ r.1.Direction = FORWARD ∧ r.1.TotalSteps = 240 ∧
            r.1.MaxLoops = 0 ∧ r.1.Index = (if n + 1 = 240 then 0 else n + 1) ∧
            ∀ j, 120 ≤ j → j < n + 1 → r.2.1.buf (snakePixels.getD (239 - j) 0) = 0) := by
      intro n t c px hn ⟨h1, h2, h3, h4, h5, h6⟩ hc
      have hi : c.Index = n := by rw [h5, if_neg (by omega)]
      have hu := snake_update allSegment t c px h1 hc
      rw [Increment_cycle allSegment { c with TickDuration := 0 } _ 240 n h2 h3 (by omega) h4
        hn hi] at hu
      refine ⟨_, hu, rfl, h1, h2, h3, h4, rfl, ?_⟩
      intro j hj1 hj2
      have hn120 : 120 ≤ n := by omega
      have e1 : snakeSlot c.Index = 239 - n := by
        rw [hi]
        unfold snakeSlot
        rw [if_pos hn120]
        omega
      have e2 : snakeColor px c.Index = 0 := by
        rw [hi]
        unfold snakeColor
        rw [if_pos hn120]
        rfl
      show (px.setPixelColor (snakePixels.getD (snakeSlot c.Index) 0)
        (snakeColor px c.Index)).buf (snakePixels.getD (239 - j) 0) = 0
      rw [e1, e2]
      simp only [Surface.setPixelColor]
      split_ifs
      · rfl
      · by_cases hjn : j < n
        · exact h6 j hj1 hjn
        · have hjeq : j = n := by omega
          rename_i hne
          exfalso
          apply hne
          have h120 := snakePixels_lt (239 - n)
          rw [hjeq, Nat.mod_eq_of_lt (by omega)]
          exact ⟨rfl, h120⟩
    have hN : allSegment.GetNumPixels = 120 := by decide
    have hstart : (Snake allSegment interval 0 c0).ActivePattern = SNAKE ∧
        (Snake allSegment interval 0 c0).Direction = FORWARD ∧
        (Snake allSegment interval 0 c0).TotalSteps = 240 ∧
        (Snake allSegment interval 0 c0).MaxLoops = 0 ∧
        (Snake allSegment interval 0 c0).Index = (if 0 = 240 then 0 else 0) ∧
        ∀ j, 120 ≤ j → j < 0 → px.buf (snakePixels.getD (239 - j) 0) = 0 := by
      simp [Snake, hN]
    obtain ⟨res, h1, h2, h3, _, _, _, h7, h8⟩ :=
      run_track allSegment 240 _ hstep ticks 0 _ px (by omega) hstart hx
    rw [hlen] at h7 h8
    have hk : ∀ k, k < 120 → res.2.1.buf (snakePixels.getD k 0) = 0 := by
      intro k hk
      have := h8 (239 - k) (by omega) (by omega)
      have e : 239 - (239 - k) = k := by omega
      rw [e] at this
      exact this
    refine ⟨res, h1, h3, h7, h2, hk, ?_⟩
    intro p hp
    obtain ⟨k, hk1, hk2⟩ := snakePixels_onto p hp
    rw [← hk2]
    exact hk k hk1

/-- Witness of C24: 240 updates 21 ms apart of a snake of interval 21 on a
strip painted 7 leave pixel 64, the last of the table, off. -/
theorem C24_snake_erases_witness :
    ∃ res, run allSegment (List.replicate 240 21) snakeStart litStrip = some res ∧
      res.1.Index = 0 ∧ res.2.1.buf 64 = 0 := by
  have hx : allCross allSegment (List.replicate 240 21) snakeStart litStrip :=
    allCross_steady allSegment SNAKE (by decide) (by decide) 21 _ snakeStart litStrip
      ⟨rfl, rfl, ⟨by decide, by decide, by decide⟩, fun h => absurd h (by decide)⟩ rfl rfl
      (fun t ht => by rw [List.eq_of_mem_replicate ht]; decide)
  obtain ⟨res, h1, _, h3, _, _, h6⟩ :=
    (C24_snake_erases litStrip 21 initial (List.replicate 240 21)
      (List.length_replicate _ _) hx).2.2
  exact ⟨res, h1, h3, h6 64 (by decide)⟩

/-! ## Color wipe: the second half and the end state -/

theorem colorWipe_update_second (seg : Segment) (tick : Nat) (c : Controller) (px : Surface)
    (N : Nat) (hp : c.ActivePattern = COLOR_WIPE) (ht : c.TotalSteps = 2 * N)
    (h1 : 1 ≤ N) (hn : N < 256) (hi1 : N ≤ c.Index) (hx : Crosses tick c) :
    Update seg tick c px =
      some (Increment seg { c with TickDuration := 0 }
        (px.setPixelColor (seg.StartPixel + N - c.Index % N) c.Color2).showStrip) := by
  unfold Crosses at hx
  have hx' : ¬ (c.TickDuration + tick) % 65536 < c.Interval := by omega
  have hh : (c.TotalSteps / 2) % 256 = N := by omega
  have hi : ¬ c.Index < N := by omega
  have h0 : N ≠ 0 := by omega
  simp [Update, hp, hx', ColorWipeUpdate, hh, hi, h0]

theorem colorWipe_update_first (seg : Segment) (tick : Nat) (c : Controller) (px : Surface)
    (N : Nat) (hp : c.ActivePattern = COLOR_WIPE) (ht : c.TotalSteps = 2 * N)
    (hn : N < 256) (hi1 : c.Index < N) (hx : Crosses tick c) :
    Update seg tick c px =
      some (Increment seg { c with TickDuration := 0 }
        (px.setPixelColor (seg.StartPixel + c.Index) c.Color1).showStrip) := by
  unfold Crosses at hx
  have hx' : ¬ (c.TickDuration + tick) % 65536 < c.Interval := by omega
  have hh : (c.TotalSteps / 2) % 256 = N := by omega
  simp [Update, hp, hx', ColorWipeUpdate, hh, hi1]

theorem mod_second_half (N i : Nat) (h1 : N ≤ i) (h2 : i < 2 * N) : i % N = i - N := by
  rw [Nat.mod_eq_sub_mod h1, Nat.mod_eq_of_lt (by omega)]

/-- C21. On a segment of `N` pixels of the strip, the update that performs
the color-wipe step at index `i` with `N <= i < 2N` makes exactly one
`setPixelColor` call, with the second colour and the pixel
`start + N - (i mod N)`, followed by the flush; no other pixel of the buffer
changes. For `i = N` that pixel is `start + N = end + 1`, outside the range
of the segment (and written only if it is on the strip); for `i > N` it lies
in `start + 1 .. end`. -/
theorem C21_color_wipe_second_half (seg : Segment) (tick : Nat) (c : Controller)
    (px : Surface) (N : Nat) (hN : seg.StartPixel + N = seg.EndPixel + 1) (h1 : 1 ≤ N)
    (he : seg.EndPixel < LED_COUNT) (hp : c.ActivePattern = COLOR_WIPE)
    (ht : c.TotalSteps = 2 * N) (hi1 : N ≤ c.Index) (hi2 : c.Index < 2 * N)
    (hx : Crosses tick c) :
    ∃ px1, Update seg tick c px = some (Increment seg { c with TickDuration := 0 } px1) ∧
      px1.calls =
        SurfaceCall.showStrip ::
          SurfaceCall.setPixelColor (seg.StartPixel + N - c.Index % N) c.Color2 :: px.calls ∧
      (∀ p, p ≠ seg.StartPixel + N - c.Index % N → px1.buf p = px.buf p) ∧
      (seg.StartPixel + N - c.Index % N < LED_COUNT →
        px1.buf (seg.StartPixel + N - c.Index % N) = c.Color2) ∧
      (c.Index = N →
        seg.StartPixel + N - c.Index % N = seg.EndPixel + 1 ∧
        ¬ seg.Owns (seg.StartPixel + N - c.Index % N)) ∧
      (N < c.Index →
        seg.StartPixel < seg.StartPixel + N - c.Index % N ∧
        seg.Owns (seg.StartPixel + N - c.Index % N)) := by
  unfold LED_COUNT at he
  have hm := mod_second_half N c.Index hi1 hi2
  have hu := colorWipe_update_second seg tick c px N hp ht h1 (by omega) hi1 hx
  have h65 : (seg.StartPixel + N - c.Index % N) % 65536 = seg.StartPixel + N - c.Index % N :=
    Nat.mod_eq_of_lt (by omega)
  refine ⟨_, hu, ?_, ?_, ?_, ?_, ?_⟩
  · simp only [Surface.showStrip, Surface.setPixelColor, h65]
  · intro p hne
    simp only [Surface.showStrip, Surface.setPixelColor, h65]
    rw [if_neg (fun h => hne h.1)]
  · intro hl
    simp [Surface.showStrip, Surface.setPixelColor, h65, hl]
  · intro hi
    unfold Segment.Owns
    omega
  · intro hi
    unfold Segment.Owns
    omega

/-- Witness of C21: on the word IT (pixels 10..11, `N = 2`) the step at index
2 writes pixel 12, the first pixel after the range. -/
theorem C21_color_wipe_second_half_witness :
    ∃ px1, Update (wordSegment WordId.C_IT) 30 { wipeForever with Index := 2 } litStrip =
        some (Increment (wordSegment WordId.C_IT)
          { wipeForever with Index := 2, TickDuration := 0 } px1) ∧
      px1.buf 12 = 2 ∧ px1.buf 11 = 7 ∧ ¬ (wordSegment WordId.C_IT).Owns 12 := by
  obtain ⟨px1, h1, _, h3, h4, h5, _⟩ :=
    C21_color_wipe_second_half (wordSegment WordId.C_IT) 30 { wipeForever with Index := 2 }
      litStrip 2 (by decide) (by decide) (by decide) rfl rfl (by decide) (by decide)
      (by decide)
  exact ⟨px1, h1, h4 (by decide), h3 11 (by decide), (h5 rfl).2⟩

/-- C29. A color wipe is freshly started in the forward direction with loop
limit 0 on a segment `start <= end` of the strip, of `N = end + 1 - start`
pixels, and `2N` updates follow that each cross the interval (one full
traversal). Then the run returns, the step index is back at 0, the pixel
`start` holds the first colour, every pixel `start + 1 .. end` holds the
second colour, the pixel `end + 1` holds the second colour too when it is on
the strip, and every other pixel is unchanged. -/
theorem C29_color_wipe_end_state (seg : Segment) (px : Surface)
    (r interval color1 color2 : Nat) (c0 : Controller) (ticks : List Nat)
    (hse : seg.StartPixel ≤ seg.EndPixel) (he : seg.EndPixel < LED_COUNT)
    (hk : ticks.length = 2 * (seg.EndPixel + 1 - seg.StartPixel))
    (hx : allCross seg ticks (ColorWipe seg px r interval color1 color2 FORWARD 0 c0) px) :
    ∃ res, run seg ticks (ColorWipe seg px r interval color1 color2 FORWARD 0 c0) px =
        some res ∧
      res.1.ActivePattern = COLOR_WIPE ∧ res.1.Index = 0 ∧ res.2.2 = [] ∧
      res.2.1.buf seg.StartPixel =
        (ColorWipe seg px r interval color1 color2 FORWARD 0 c0).Color1 ∧
      (∀ p, seg.StartPixel + 1 ≤ p → p ≤ seg.EndPixel →
        res.2.1.buf p = (ColorWipe seg px r interval color1 color2 FORWARD 0 c0).Color2) ∧
      (seg.EndPixel + 1 < LED_COUNT →
        res.2.1.buf (seg.EndPixel + 1) =
          (ColorWipe seg px r interval color1 color2 FORWARD 0 c0).Color2) ∧
      (∀ p, p < seg.StartPixel ∨ seg.EndPixel + 1 < p → res.2.1.buf p = px.buf p) := by
  unfold LED_COUNT at he
  obtain ⟨N, hN⟩ : ∃ N, N = seg.EndPixel + 1 - seg.StartPixel := ⟨_, rfl⟩
  rw [← hN] at hk
  have hG : seg.GetNumPixels = N := by
    unfold Segment.GetNumPixels
    omega
  generalize hc : ColorWipe seg px r interval color1 color2 FORWARD 0 c0 = cw at hx
  have hcw : cw.ActivePattern = COLOR_WIPE ∧ cw.Direction = FORWARD ∧
      cw.TotalSteps = 2 * N ∧ cw.MaxLoops = 0 ∧ cw.Index = 0 := by
    rw [← hc]
    refine ⟨rfl, rfl, ?_, rfl, rfl⟩
    show seg.GetNumPixels * 2 = 2 * N
    omega
  have hstep : ∀ n t c q, n < 2 * N →
      (c.ActivePattern = COLOR_WIPE ∧ c.Direction = FORWARD ∧ c.TotalSteps = 2 * N ∧
        c.MaxLoops = 0 ∧ c.Color1 = cw.Color1 ∧ c.Color2 = cw.Color2 ∧
        c.Index = (if n = 2 * N then 0 else n) ∧
        ∀ p, q.buf p =
          if N < n ∧ seg.StartPixel + 2 * N - n < p ∧ p ≤ seg.StartPixel + N ∧ p < 120
          then cw.Color2
          else if seg.StartPixel ≤ p ∧ p < seg.StartPixel + n ∧ p < seg.StartPixel + N
          then cw.Color1 else px.buf p) →
      Crosses t c →
      ∃ r, Update seg t c q = some r ∧ r.2.2 = none ∧
        (r.1.ActivePattern = COLOR_WIPE ∧ r.1.Direction = FORWARD ∧
          r.1.TotalSteps = 2 * N ∧ r.1.MaxLoops = 0 ∧ r.1.Color1 = cw.Color1 ∧
          r.1.Color2 = cw.Color2 ∧
          r.1.Index = (if n + 1 = 2 * N then 0 else n + 1) ∧
          ∀ p, r.2.1.buf p =
            if N < n + 1 ∧ seg.StartPixel + 2 * N - (n + 1) < p ∧ p ≤ seg.StartPixel + N ∧
              p < 120
            then cw.Color2
            else if seg.StartPixel ≤ p ∧ p < seg.StartPixel + (n + 1) ∧
              p < seg.StartPixel + N
            then cw.Color1 else px.buf p) := by
    intro n t c q hn ⟨h1, h2, h3, h4, h5, h6, h7, h8⟩ hcr
    have hi : c.Index = n := by rw [h7, if_neg (by omega)]
    have hinc : ∀ q1, Increment seg { c with TickDuration := 0 } q1 =
        ({ c with TickDuration := 0, Index := if n + 1 = 2 * N then 0 else n + 1 }, q1, none) :=
      fun q1 => Increment_cycle seg { c with TickDuration := 0 } q1 (2 * N) n h2 h3 (by omega)
        h4 hn hi
    by_cases hlt : n < N
    · have hu := colorWipe_update_first seg t c q N h1 h3 (by omega) (by omega) hcr
      rw [hinc] at hu
      refine ⟨_, hu, rfl, h1, h2, h3, h4, h5, h6, rfl, ?_⟩
      intro p
      show ((q.setPixelColor (seg.StartPixel + c.Index) c.Color1).showStrip).buf p = _
      simp only [Surface.showStrip, Surface.setPixelColor, LED_COUNT]
      rw [hi, Nat.mod_eq_of_lt (by omega), h8 p, h5]
      split_ifs <;> first | rfl | (exfalso; omega)
    · have hu := colorWipe_update_second seg t c q N h1 h3 (by omega) (by omega) (by omega) hcr
      rw [hinc] at hu
      refine ⟨_, hu, rfl, h1, h2, h3, h4, h5, h6, rfl, ?_⟩
      intro p
      show ((q.setPixelColor (seg.StartPixel + N - c.Index % N) c.Color2).showStrip).buf p = _
      have hm := mod_second_half N n (by omega) hn
      simp only [Surface.showStrip, Surface.setPixelColor, LED_COUNT]
      rw [hi, hm, Nat.mod_eq_of_lt (by omega), h8 p, h6]
      split_ifs <;> first | rfl | (exfalso; omega)
  have hstart : cw.ActivePattern = COLOR_WIPE ∧ cw.Direction = FORWARD ∧
      cw.TotalSteps = 2 * N ∧ cw.MaxLoops = 0 ∧ cw.Color1 = cw.Color1 ∧
      cw.Color2 = cw.Color2 ∧ cw.Index = (if 0 = 2 * N then 0 else 0) ∧
      ∀ p, px.buf p =
        if N < 0 ∧ seg.StartPixel + 2 * N - 0 < p ∧ p ≤ seg.StartPixel + N ∧ p < 120
        then cw.Color2
        else if seg.StartPixel ≤ p ∧ p < seg.StartPixel + 0 ∧ p < seg.StartPixel + N
        then cw.Color1 else px.buf p := by
    refine ⟨hcw.1, hcw.2.1, hcw.2.2.1, hcw.2.2.2.1, rfl, rfl, ?_, ?_⟩
    · rw [hcw.2.2.2.2]; simp
    · intro p
      split_ifs <;> first | rfl | (exfalso; omega)
  obtain ⟨res, g1, g2, g3, _, _, _, _, _, g9, g10⟩ :=
    run_track seg (2 * N) _ hstep ticks 0 cw px (by omega) hstart hx
  rw [hk, Nat.zero_add] at g9 g10
  refine ⟨res, g1, g3, ?_, g2, ?_, ?_, ?_, ?_⟩
  · rw [g9, if_pos rfl]
  · rw [g10]
    split_ifs <;> first | rfl | (exfalso; omega)
  · intro p hp1 hp2
    rw [g10]
    split_ifs <;> first | rfl | (exfalso; omega)
  · intro hl
    unfold LED_COUNT at hl
    rw [g10]
    split_ifs <;> first | rfl | (exfalso; omega)
  · intro p hp
    rw [g10]
    split_ifs <;> first | rfl | (exfalso; omega)

/-- Witness of C29: on the word IT (pixels 10..11) of a strip painted 7, four
updates 30 ms apart of a color wipe with the colours 1 and 2 leave pixel 10
at colour 1, pixels 11 and 12 at colour 2 and pixel 9 at 7. -/
theorem C29_color_wipe_end_state_witness :
    ∃ res, run (wordSegment WordId.C_IT) (List.replicate 4 30) wipeForever litStrip =
        some res ∧
      res.1.Index = 0 ∧ res.2.1.buf 10 = 1 ∧ res.2.1.buf 11 = 2 ∧ res.2.1.buf 12 = 2 ∧
      res.2.1.buf 9 = 7 := by
  have hx : allCross (wordSegment WordId.C_IT) (List.replicate 4 30) wipeForever litStrip :=
    allCross_steady (wordSegment WordId.C_IT) COLOR_WIPE (by decide) (by decide) 30 _
      wipeForever litStrip
      ⟨rfl, rfl, ⟨by decide, by decide, by decide⟩, fun h => absurd h (by decide)⟩ rfl rfl
      (by decide)
  obtain ⟨res, h1, _, h3, _, h5, h6, h7, h8⟩ :=
    C29_color_wipe_end_state (wordSegment WordId.C_IT) litStrip 0 30 1 2 initial
      (List.replicate 4 30) (by decide) (by decide) rfl hx
  exact ⟨res, h1, h3, h5, h6 11 (by decide) (by decide), h7 (by decide),
    h8 9 (by decide)⟩

/-! ## Scanner: the mirrored sweep -/

/-- A loop over a pixel range that writes to every pixel a colour computed
from the index and from the colour the pixel holds. -/
theorem range_fold_buf (g : Nat → Nat → Nat) :
    ∀ (n s : Nat) (px : Surface) (j : Nat), s + n ≤ LED_COUNT →
      ((List.range' s n).foldl (fun p i => p.setPixelColor i (g i (p.getPixelColor i))) px).buf j =
        if s ≤ j ∧ j < s + n then g j (px.buf j) else px.buf j := by
  intro n
  induction n with
  | zero =>
    intro s px j _
    have : ¬ (s ≤ j ∧ j < s + 0) := by omega
    rw [if_neg this]
    rfl
  | succ n ih =>
    intro s px j hs
    unfold LED_COUNT at hs
    rw [List.range'_succ, List.foldl_cons, ih (s + 1) _ j (by unfold LED_COUNT; omega)]
    have hm : s % 65536 = s := Nat.mod_eq_of_lt (by omega)
    have hg : px.getPixelColor s = px.buf s := by
      unfold Surface.getPixelColor LED_COUNT
      rw [hm, if_pos (by omega)]
    simp only [Surface.setPixelColor, hm, hg, LED_COUNT]
    by_cases h1 : s + 1 ≤ j ∧ j < s + 1 + n
    · have h2 : s ≤ j ∧ j < s + (n + 1) := by omega
      have h3 : ¬ (j = s ∧ s < 120) := by omega
      rw [if_pos h1, if_pos h2, if_neg h3]
    · rw [if_neg h1]
      by_cases h4 : j = s
      · have h2 : s ≤ j ∧ j < s + (n + 1) := by omega
        rw [if_pos ⟨h4, by omega⟩, if_pos h2, h4]
      · have h2 : ¬ (s ≤ j ∧ j < s + (n + 1)) := by omega
        rw [if_neg (fun h => h4 h.1), if_neg h2]

theorem DimColor_channels (x : Nat) :
    Red (DimColor x) = Red x / 2 ∧ Green (DimColor x) = Green x / 2 ∧
      Blue (DimColor x) = Blue x / 2 := by
  unfold DimColor Surface.Color Red Green Blue
  omega

/-- C22. On a segment that starts at pixel 0 and has an even number
`N = 2h >= 2` of pixels on the strip, a scanner step at index `i < N` has the
bright pixels `p1` and `p2` with `p1 + p2 = N - 1` and `p1 < p2`, where
`p1 = i` while `i < N/2` and `p1 = N - 1 - i` from `N/2` on. The step writes
the first colour to `p1`, the second colour to `p2`, and to every other pixel
of the range the colour `DimColor` makes of the colour it held, whose red,
green and blue channels are the halves of the old ones; pixels outside the
range are unchanged. -/
theorem C22_scanner_mirror (seg : Segment) (c : Controller) (px : Surface) (h : Nat)
    (hs : seg.StartPixel = 0) (hN : seg.EndPixel + 1 = 2 * h)
    (he : seg.EndPixel < LED_COUNT) (ht : c.TotalSteps = seg.GetNumPixels)
    (hi : c.Index < 2 * h) :
    ∃ p1 p2 px1,
      scannerPixels seg c = some (p1, p2) ∧
      ScannerUpdate seg c px = some (Increment seg c px1) ∧
      p1 + p2 = 2 * h - 1 ∧ p1 < p2 ∧
      (c.Index < h → p1 = c.Index) ∧ (h ≤ c.Index → p1 = 2 * h - 1 - c.Index) ∧
      px1.buf p1 = c.Color1 ∧ px1.buf p2 = c.Color2 ∧
      (∀ i, i ≤ seg.EndPixel → i ≠ p1 → i ≠ p2 →
        px1.buf i = DimColor (px.buf i) ∧
        Red (px1.buf i) = Red (px.buf i) / 2 ∧ Green (px1.buf i) = Green (px.buf i) / 2 ∧
        Blue (px1.buf i) = Blue (px.buf i) / 2) ∧
      (∀ i, seg.EndPixel < i → px1.buf i = px.buf i) := by
  unfold LED_COUNT at he
  have hT : c.TotalSteps = 2 * h := by
    rw [ht]
    unfold Segment.GetNumPixels
    omega
  have hhalf : c.TotalSteps / 2 = h := by omega
  have key : ∀ p1 p2, scannerPixels seg c = some (p1, p2) → p1 + p2 = 2 * h - 1 → p1 < p2 →
      ∃ px1, ScannerUpdate seg c px = some (Increment seg c px1) ∧
        px1.buf p1 = c.Color1 ∧ px1.buf p2 = c.Color2 ∧
        (∀ i, i ≤ seg.EndPixel → i ≠ p1 → i ≠ p2 →
          px1.buf i = DimColor (px.buf i) ∧
          Red (px1.buf i) = Red (px.buf i) / 2 ∧ Green (px1.buf i) = Green (px.buf i) / 2 ∧
          Blue (px1.buf i) = Blue (px.buf i) / 2) ∧
        (∀ i, seg.EndPixel < i → px1.buf i = px.buf i) := by
    intro p1 p2 hsp hsum hlt
    have hfun : (fun (p : Surface) (i : Nat) =>
        if i = p1 then p.setPixelColor i c.Color1
        else if i = p2 then p.setPixelColor i c.Color2
        else p.setPixelColor i (DimColor (p.getPixelColor i))) =
        (fun (p : Surface) (i : Nat) =>
          p.setPixelColor i
            (if i = p1 then c.Color1 else if i = p2 then c.Color2
              else DimColor (p.getPixelColor i))) := by
      funext p i
      by_cases h1 : i = p1
      · rw [if_pos h1, if_pos h1]
      · rw [if_neg h1, if_neg h1]
        by_cases h2 : i = p2
        · rw [if_pos h2, if_pos h2]
        · rw [if_neg h2, if_neg h2]
    have hbuf : ∀ j, (((seg.indices).foldl
        (fun (p : Surface) (i : Nat) =>
          if i = p1 then p.setPixelColor i c.Color1
          else if i = p2 then p.setPixelColor i c.Color2
          else p.setPixelColor i (DimColor (p.getPixelColor i))) px).showStrip).buf j =
        if j ≤ seg.EndPixel then
          (if j = p1 then c.Color1 else if j = p2 then c.Color2 else DimColor (px.buf j))
        else px.buf j := by
      intro j
      rw [hfun]
      show ((seg.indices).foldl _ px).buf j = _
      unfold Segment.indices
      refine (range_fold_buf
        (fun i x => if i = p1 then c.Color1 else if i = p2 then c.Color2 else DimColor x)
        (seg.EndPixel + 1 - seg.StartPixel) seg.StartPixel px j
        (by unfold LED_COUNT; omega)).trans ?_
      by_cases hj : j ≤ seg.EndPixel
      · rw [if_pos (by omega), if_pos hj]
      · rw [if_neg (by omega), if_neg hj]
    refine ⟨_, by simp only [ScannerUpdate, hsp]; rfl, ?_, ?_, ?_, ?_⟩
    · rw [hbuf, if_pos (by omega), if_pos rfl]
    · rw [hbuf, if_pos (by omega), if_neg (by omega), if_pos rfl]
    · intro i hi1 hi2 hi3
      have e : (((seg.indices).foldl
        (fun (p : Surface) (i : Nat) =>
          if i = p1 then p.setPixelColor i c.Color1
          else if i = p2 then p.setPixelColor i c.Color2
          else p.setPixelColor i (DimColor (p.getPixelColor i))) px).showStrip).buf i =
          DimColor (px.buf i) := by
        rw [hbuf, if_pos hi1, if_neg hi2, if_neg hi3]
      rw [e]
      exact ⟨rfl, DimColor_channels _⟩
    · intro i hi1
      rw [hbuf, if_neg (by omega)]
  by_cases hlo : c.Index < h
  · have hsp : scannerPixels seg c = some (c.Index, 2 * h - 1 - c.Index) := by
      unfold scannerPixels
      simp only [hhalf, hlo, if_true]
      have e1 : c.Index % 256 = c.Index := Nat.mod_eq_of_lt (by omega)
      have e2 : (seg.EndPixel + 256 - c.Index) % 256 = 2 * h - 1 - c.Index := by omega
      rw [e1, e2]
    obtain ⟨px1, k1, k2, k3, k4, k5⟩ := key _ _ hsp (by omega) (by omega)
    exact ⟨_, _, px1, hsp, k1, by omega, by omega, fun _ => rfl, fun hc => by omega, k2, k3,
      k4, k5⟩
  · have hm : c.Index % h = c.Index - h := mod_second_half h c.Index (by omega) hi
    have hsp : scannerPixels seg c = some (2 * h - 1 - c.Index, c.Index) := by
      unfold scannerPixels
      have h0 : h ≠ 0 := by omega
      simp only [hhalf, hlo, if_false, h0, hm]
      have e1 : (h - (c.Index - h) - 1) % 256 = 2 * h - 1 - c.Index := by omega
      have e2 : (h + (c.Index - h)) % 256 = c.Index := by omega
      rw [e1, e2]
    obtain ⟨px1, k1, k2, k3, k4, k5⟩ := key _ _ hsp (by omega) (by omega)
    exact ⟨_, _, px1, hsp, k1, by omega, by omega, fun hc => by omega, fun _ => rfl, k2, k3,
      k4, k5⟩

/-- Witness of C22: on the whole strip painted 7 the scanner step at index 70
has the bright pixels 49 and 70; pixel 0 fades from 7 to 3. -/
theorem C22_scanner_mirror_witness :
    ∃ px1, ScannerUpdate allSegment (scanAt 70) litStrip =
        some (Increment allSegment (scanAt 70) px1) ∧
      px1.buf 49 = 1 ∧ px1.buf 70 = 2 ∧ px1.buf 0 = 3 := by
  obtain ⟨p1, p2, px1, _, h2, h3, _, _, h6, h7, h8, h9, _⟩ :=
    C22_scanner_mirror allSegment (scanAt 70) litStrip 60 rfl (by decide) (by decide)
      (by decide) (by decide)
  have e1 : p1 = 49 := h6 (by decide)
  have e2 : p2 = 70 := by omega
  subst e1 e2
  refine ⟨px1, h2, h7, h8, ?_⟩
  rw [(h9 0 (by decide) (by decide) (by decide)).1]
  decide

end Controller

namespace State

/-! ## Birthday gating -/

theorem birthdayCase_threshold (k : Nat) (hk : k ≤ 27) :
    (birthdayCase k).1 = specThreshold k := by
  interval_cases k <;> rfl

/-- C26 as stated fails at the last step: in the birthday state at step index
27 a call 4000 ms after the last step increments the index to 28, which ends
the sequence; `clearSpecialPattern(true)` resets the index, so the call
returns with step index 0 and the special pattern none, not with index 28. -/
theorem C26_counterexample :
    birthdayLast.CurrentSpecialPattern = SP_HAPPY_BIRTHDAY ∧
    birthdayLast.SpecialPatternIndex = 27 ∧
    specThreshold 27 ≤ elapsed 4000 birthdayLast ∧
    (updateHappyBirthday ⟨0, 0⟩ 4000 birthdayLast).SpecialPatternIndex = 0 ∧
    (updateHappyBirthday ⟨0, 0⟩ 4000 birthdayLast).SpecialPatternIndex ≠
      birthdayLast.SpecialPatternIndex + 1 ∧
    (updateHappyBirthday ⟨0, 0⟩ 4000 birthdayLast).CurrentSpecialPattern = SP_NONE := by
  have h := (birthday_step ⟨0, 0⟩ 4000 27 birthdayLast (by decide) (by decide) (by decide)
    (by decide)).2 rfl
  refine ⟨by decide, by decide, by decide, h.2.1, ?_, h.1⟩
  rw [h.2.1]
  decide

/-- C26 as amended. In the birthday state with step index `k` in 0..27 the
threshold of the code is the one the specification names (2000 ms for 0..3
and 14..17, 200 ms for 4..12 and 18..26, 4000 ms for 13 and 27). A call of
`updateHappyBirthday` whose elapsed time since the last step is below the
threshold returns the state unchanged. A call at or above the threshold with
`k <= 26` returns with step index `k + 1`, the time of the call as last
update and the birthday state kept; with `k = 27` the increment reaches 28,
the sequence ends, and the call returns with step index 0 and special
pattern none. -/
theorem C26_birthday_gating (rtc : Clock) (now : Nat) (s : State)
    (hsp : s.CurrentSpecialPattern = SP_HAPPY_BIRTHDAY) (hk : s.SpecialPatternIndex ≤ 27) :
    (birthdayCase s.SpecialPatternIndex).1 = specThreshold s.SpecialPatternIndex ∧
    (elapsed now s < specThreshold s.SpecialPatternIndex →
      updateHappyBirthday rtc now s = s) ∧
    (specThreshold s.SpecialPatternIndex ≤ elapsed now s → s.SpecialPatternIndex ≤ 26 →
      (updateHappyBirthday rtc now s).SpecialPatternIndex = s.SpecialPatternIndex + 1 ∧
      (updateHappyBirthday rtc now s).SpecialPatternLastUpdate = now % 4294967296 ∧
      (updateHappyBirthday rtc now s).CurrentSpecialPattern = SP_HAPPY_BIRTHDAY) ∧
    (specThreshold s.SpecialPatternIndex ≤ elapsed now s → s.SpecialPatternIndex = 27 →
      (updateHappyBirthday rtc now s).SpecialPatternIndex = 0 ∧
      (updateHappyBirthday rtc now s).CurrentSpecialPattern = SP_NONE) := by
  have ht := birthdayCase_threshold s.SpecialPatternIndex hk
  refine ⟨ht, ?_, ?_, ?_⟩
  · intro h
    rw [← ht] at h
    unfold elapsed at h
    unfold updateHappyBirthday
    simp only []
    rw [if_pos h]
  · intro h h26
    rw [← ht] at h
    obtain ⟨b1, b2⟩ := (birthday_step rtc now s.SpecialPatternIndex s hsp rfl (by omega) h).1
      (by omega)
    refine ⟨b2, ?_, b1⟩
    have e := others_birthdayCase s.SpecialPatternIndex s
    simp only [others, Prod.mk.injEq] at e
    obtain ⟨_, _, _, _, _, _, _, e8, _⟩ := e
    unfold elapsed at h
    have hnl : ¬ (now % 4294967296 + 4294967296 - s.SpecialPatternLastUpdate % 4294967296) %
        4294967296 < (birthdayCase s.SpecialPatternIndex).1 := by omega
    have h28 : ¬ (((birthdayCase s.SpecialPatternIndex).2 s).SpecialPatternIndex + 1) % 256 ≥
        28 := by
      rw [e8]
      omega
    unfold updateHappyBirthday
    simp only []
    rw [if_neg hnl, if_neg h28]
  · intro h h27
    rw [← ht] at h
    obtain ⟨b1, b2, _⟩ := (birthday_step rtc now s.SpecialPatternIndex s hsp rfl (by omega) h).2
      (by omega)
    exact ⟨b2, b1⟩

/-- Witness of C26 as amended: just after the birthday sequence is entered
(step 0, threshold 2000 ms) a call 1999 ms later changes nothing and a call
2000 ms later moves to step 1. -/
theorem C26_birthday_gating_witness :
    (setSpecialPattern 0 SP_HAPPY_BIRTHDAY reference).CurrentSpecialPattern =
      SP_HAPPY_BIRTHDAY ∧
    (setSpecialPattern 0 SP_HAPPY_BIRTHDAY reference).SpecialPatternIndex ≤ 27 ∧
    updateHappyBirthday ⟨0, 0⟩ 1999 (setSpecialPattern 0 SP_HAPPY_BIRTHDAY reference) =
      setSpecialPattern 0 SP_HAPPY_BIRTHDAY reference ∧
    (updateHappyBirthday ⟨0, 0⟩ 2000
      (setSpecialPattern 0 SP_HAPPY_BIRTHDAY reference)).SpecialPatternIndex = 1 :=
  ⟨by decide, by decide,
    (C26_birthday_gating ⟨0, 0⟩ 1999 (setSpecialPattern 0 SP_HAPPY_BIRTHDAY reference)
      (by decide) (by decide)).2.1 (by decide),
    ((C26_birthday_gating ⟨0, 0⟩ 2000 (setSpecialPattern 0 SP_HAPPY_BIRTHDAY reference)
      (by decide) (by decide)).2.2.1 (by decide) (by decide)).1⟩

end State

namespace Controller

/-! ## Loop limit over every start -/

theorem Increment_direction (seg : Segment) (c : Controller) (px : Surface)
    (hd : c.Direction = FORWARD) : (Increment seg c px).1.Direction = FORWARD := by
  unfold Increment CheckCompletion Clear
  simp only []
  by_cases ho : seg.OnComplete <;> split_ifs <;> simp [ho, hd]

theorem Clear_direction (seg : Segment) (c : Controller) (px : Surface)
    (hd : c.Direction = FORWARD) : (Clear seg c px).1.Direction = FORWARD := by
  unfold Clear
  split_ifs <;> simp [hd]

theorem Update_direction (seg : Segment) (t : Nat) (c : Controller) (px : Surface)
    (r : StepResult) (hu : Update seg t c px = some r) (hd : c.Direction = FORWARD) :
    r.1.Direction = FORWARD := by
  rcases Update_some seg t c px r hu with ⟨e, _⟩ | ⟨e, _⟩ | ⟨px1, e, _⟩
  · rw [e]; exact hd
  · rw [e]; exact hd
  · rw [e]; exact Increment_direction seg _ px1 hd

end Controller

namespace State

/-! ## The whole-strip segment never runs in reverse -/

theorem forward_allClear (s : State) (h : s.C_ALL.Direction = FORWARD) :
    (allClear s).C_ALL.Direction = FORWARD :=
  Controller.Clear_direction allSegment s.C_ALL s.WC_Strip h

theorem forward_updateTime (h m : Nat) (s : State) (hd : s.C_ALL.Direction = FORWARD) :
    (updateTime h m s).C_ALL.Direction = FORWARD := by
  rw [updateTime_C_ALL]
  unfold clearSpecialPatternWith
  by_cases hs : s.CurrentSpecialPattern = SP_NONE
  · simp [hs, hd]
  · have h1 :=
      forward_allClear { s with CurrentSpecialPattern := SP_NONE, SpecialPatternIndex := 0 } hd
    simpa [hs] using h1

theorem forward_clearSpecialPattern (rtc : Clock) (b : Bool) (s : State)
    (hd : s.C_ALL.Direction = FORWARD) :
    (clearSpecialPattern rtc b s).C_ALL.Direction = FORWARD := by
  unfold clearSpecialPattern clearSpecialPatternWith
  by_cases h : s.CurrentSpecialPattern = SP_NONE
  · simpa [h] using hd
  · have h1 :=
      forward_allClear { s with CurrentSpecialPattern := SP_NONE, SpecialPatternIndex := 0 } hd
    cases b
    · simpa [h] using h1
    · simp only [h, if_false, if_true]
      exact forward_updateTime _ _ _ h1

theorem forward_pickRandomDemo (s : State) (hd : s.C_ALL.Direction = FORWARD) :
    (pickRandomDemo s).C_ALL.Direction = FORWARD := by
  simp only [pickRandomDemo]
  split <;>
    simp [allHueCycle, allRainbowCycle, allTheaterChase, allColorWipe, allScanner, allBoxZoom,
      allSnake, drawColors, random, allSegment_numPixels, Controller.HueCycle,
      Controller.RainbowCycle, Controller.TheaterChase, Controller.ColorWipe,
      Controller.Scanner, Controller.BoxZoom, Controller.Snake, hd]

theorem forward_setSpecialPattern (now : Nat) (p : SpecialPattern) (s : State)
    (hd : s.C_ALL.Direction = FORWARD) :
    (setSpecialPattern now p s).C_ALL.Direction = FORWARD := by
  have e := congrArg (fun x => x.1) (others_clearControllers s)
  simp only [others] at e
  have h1 : (allClear (clearControllers s)).C_ALL.Direction = FORWARD :=
    forward_allClear _ (by rw [e]; exact hd)
  cases p
  · simp only [setSpecialPattern]
    exact h1
  · simp only [setSpecialPattern]
    exact forward_pickRandomDemo _ h1
  · simp [setSpecialPattern, allHueCycle, random, Controller.HueCycle]
  · simp only [setSpecialPattern]
    exact h1

theorem forward_onPatternComplete (rtc : Clock) (k : ControllerPattern) (s : State)
    (hd : s.C_ALL.Direction = FORWARD) :
    (onPatternComplete rtc k s).C_ALL.Direction = FORWARD := by
  have hc : ∀ k, (clearSpecialPattern rtc true
      { s with completed := k :: s.completed }).C_ALL.Direction = FORWARD :=
    fun k => forward_clearSpecialPattern rtc true _ hd
  by_cases h : s.CurrentSpecialPattern = SP_LIGHT_SHOW
  · unfold onPatternComplete
    simp only []
    rw [if_neg (not_not.mpr h)]
    split
    · rfl
    · simp [allTheaterChase, drawColors, random, Controller.TheaterChase]
    · simp [allColorWipe, drawColors, random, Controller.ColorWipe]
    · simp [allScanner, drawColors, random, Controller.Scanner]
    · simp [allBoxZoom, drawColors, random, allSegment_numPixels, Controller.BoxZoom]
    · simp [allSnake, allSegment_numPixels, Controller.Snake]
    · exact hc _
    · exact hc _
  · unfold onPatternComplete
    simp only []
    rw [if_pos h]
    exact hc _

theorem forward_allUpdate (rtc : Clock) (s t : State) (hd : s.C_ALL.Direction = FORWARD)
    (h : allUpdate rtc s = some t) : t.C_ALL.Direction = FORWARD := by
  unfold allUpdate at h
  cases hu : Controller.Update allSegment s.GlobalTick s.C_ALL s.WC_Strip with
  | none => rw [hu] at h; exact absurd h (by simp)
  | some r =>
    rw [hu] at h
    simp only [] at h
    have h1 : ({ s with C_ALL := r.1, WC_Strip := r.2.1 } : State).C_ALL.Direction = FORWARD :=
      Controller.Update_direction allSegment _ _ _ r hu hd
    cases hk : r.2.2 with
    | none =>
      rw [hk] at h
      simp only [Option.some.injEq] at h
      rw [← h]
      exact h1
    | some k =>
      rw [hk] at h
      simp only [Option.some.injEq] at h
      rw [← h]
      exact forward_onPatternComplete rtc k _ h1

theorem forward_updateHappyBirthday (rtc : Clock) (now : Nat) (s : State)
    (hd : s.C_ALL.Direction = FORWARD) :
    (updateHappyBirthday rtc now s).C_ALL.Direction = FORWARD := by
  have e := others_birthdayCase s.SpecialPatternIndex s
  simp only [others, Prod.mk.injEq] at e
  obtain ⟨e1, _⟩ := e
  have hs2 : ∀ a b, ({ (birthdayCase s.SpecialPatternIndex).2 s with
      SpecialPatternIndex := a, SpecialPatternLastUpdate := b } : State).C_ALL.Direction =
      FORWARD := by
    intro a b
    show ((birthdayCase s.SpecialPatternIndex).2 s).C_ALL.Direction = FORWARD
    rw [e1]
    exact hd
  unfold updateHappyBirthday
  simp only []
  split_ifs
  · exact hd
  · exact forward_clearSpecialPattern rtc true _ (hs2 _ _)
  · exact hs2 _ _

/-- In every state the program reaches the whole-strip segment, the only
`Controller` of the program, has the forward direction: no call passes
`REVERSE` and `Reverse` is never called, so the reverse branch of
`Increment` is never run. -/
theorem reachable_forward (s : State) (h : Reachable s) : s.C_ALL.Direction = FORWARD := by
  induction h with
  | start hsv rnd => rfl
  | updateTime h m _ ih => exact forward_updateTime h m _ ih
  | setSpecialPattern now p _ ih => exact forward_setSpecialPattern now p _ ih
  | clearSpecialPattern rtc b _ ih => exact forward_clearSpecialPattern rtc b _ ih
  | toggleLightShow rtc now _ ih =>
    unfold toggleLightShow
    split_ifs
    · exact forward_setSpecialPattern _ _ _ ih
    · exact forward_clearSpecialPattern _ _ _ ih
  | updateSpecialPattern rtc now _ hu ih =>
    unfold updateSpecialPattern at hu
    split at hu
    · simp only [Option.some.injEq] at hu; rw [← hu]; exact ih
    · exact forward_allUpdate rtc _ _ ih hu
    · exact forward_allUpdate rtc _ _ ih hu
    · simp only [Option.some.injEq] at hu
      rw [← hu]
      exact forward_updateHappyBirthday rtc now _ ih
  | updateHappyBirthday rtc now _ ih => exact forward_updateHappyBirthday rtc now _ ih
  | updateControllers now _ ih =>
    rw [(updateControllers_frame now _).1]
    exact ih
  | onPatternComplete rtc k _ ih => exact forward_onPatternComplete rtc k _ ih

end State

namespace Controller

/-! ## The reverse branch -/

end Controller

namespace State

/-! ## Determinism of the decoder over the states the program reaches -/

/-- C5. For any two prior states the program reaches, any hour and any
minutes `m`, `m'` (the `uint8_t` parameter) with `m/5 = m'/5`,
`updateTime h m` and `updateTime h m'` yield the same activation set: the
pattern kind of every word segment and of the whole-strip segment, and the
special-pattern state. -/
theorem C5_determinism (s t : State) (h m m' : Nat) (hs : Reachable s) (ht : Reachable t)
    (hm : m < 256) (hm' : m' < 256) (hb : m / 5 = m' / 5) :
    activation (updateTime h m s) = activation (updateTime h m' t) := by
  have e1 : m % 256 = m := Nat.mod_eq_of_lt hm
  have e2 : m' % 256 = m' := Nat.mod_eq_of_lt hm'
  rw [activation_updateTime h m s (reachable_settled s hs),
    activation_updateTime h m' t (reachable_settled t ht), e1, e2, hb]

/-- Witness of C5: from the state at program start and from the light show,
minutes 45 and 49 of hour 7 decode alike. -/
theorem C5_determinism_witness :
    Reachable reference ∧ Reachable showStart ∧ 45 / 5 = 49 / 5 ∧
      activation (updateTime 7 45 reference) = activation (updateTime 7 49 showStart) :=
  have h1 : Reachable reference := Reachable.start _ _
  have h2 : Reachable showStart :=
    Reachable.setSpecialPattern 500 SP_LIGHT_SHOW
      (Reachable.updateControllers 500 (Reachable.start _ _))
  ⟨h1, h2, by decide,
    C5_determinism reference showStart 7 45 49 h1 h2 (by decide) (by decide) (by decide)⟩

end State

end WordClock
